import Mathlib

/-!
# P2P-DPRD: node store, codec and gossip protocol

A shallow embedding of `node.c`, `serialize.c`, `upack/upack.c` and `protocol.c`.

Conventions of the embedding:

* C unsigned integers are `Nat`; a narrowing store is written with an explicit `%`.
  Signed intermediate results (`int`, `time_t`) are `Int`.
* A C `double` is modelled by an exact rational (`Dbl`); rounding, infinities and NaN are
  outside the model.
* A byte buffer handed to a decoder is a function from offsets to bytes: the C code reads
  `buff[o]` without consulting the buffer size, so every offset has a value. The final
  offset of a decoder tells how far it read; a read past the allocation is undefined in C.
* The call of `Node_swapPointers` through the cast `(Node**)` is undefined in C.
  `Node_swapPointers` is its outcome when the accesses are performed as written (the two
  leading words are exchanged); `removeDuplicateStepWith` leaves the outcome open.
* `LocalIO_sendCandidateNodes` returns `none` when `strcpy` overflows `sun_path`.
* The array `nc->nodes` is a list holding all allocated slots; slots that `malloc` left
  uninitialised hold a caller-chosen filler `junk`.
* `qsort` is any function that returns a permutation ordered by the comparator (`Qsort`);
  `stableQsort` is one such function.
* `time(NULL)` and the values of `rand()` are explicit arguments.
-/

namespace P2PDPRD

/-! ## Data model (node.h, configuration.h) -/

/-- Values of the C type `double`, as exact rationals; 0 stands for the zero of either sign
(+0.0 and -0.0 compare equal in C). -/
abbrev Dbl := Rat

/-- The struct `Node` of node.h. -/
structure Node where
  nodeID : Nat
  lat : Dbl
  lon : Dbl
  coordRange : Nat
  ipAddr : Nat
  port : Nat
  timeStamp : Nat
  radac_ip : Nat
  radac_port : Nat
  utility : Dbl
deriving DecidableEq, Repr

/-- The struct `NodeCollection` of node.h; `nodes` lists every allocated slot. -/
structure NodeCollection where
  versionID : Nat
  payloadType : Nat
  nodeCount : Nat
  maxNodeCount : Nat
  nodes : List Node
deriving DecidableEq, Repr

/-- The enum `payloadType`: RND_NOREQ. -/
def RND_NOREQ : Nat := 0

/-- The enum `payloadType`: RND_REQ. -/
def RND_REQ : Nat := 1

/-- The enum `payloadType`: IMP_NOREQ. -/
def IMP_NOREQ : Nat := 2

/-- The enum `payloadType`: IMP_REQ. -/
def IMP_REQ : Nat := 3

/-- The enum `payloadType`: INTERNAL. -/
def INTERNAL : Nat := 4

/-- The constant `P2PDPRD_VERSION_ID` of configuration.h. -/
def P2PDPRD_VERSION_ID : Nat := 1

/-- The constant `P2PDPRD_NODES_MAX_SIZE` of configuration.h. -/
def P2PDPRD_NODES_MAX_SIZE : Nat := 10000

/-- The constant `MAX_PAYLOAD_BYTESIZE` of io.h. -/
def MAX_PAYLOAD_BYTESIZE : Nat := 32768

/-- The fields of the struct `Config` that node.c and protocol.c read. -/
structure Config where
  NETWORK_originPeerIP : Nat
  NETWORK_originPeerPort : Nat
  NETWORK_ownIP : Nat
  NETWORK_port : Nat
  CLIENT_id : Nat
  CLIENT_lat : Dbl
  CLIENT_lon : Dbl
  CLIENT_coordRange : Nat
  PROTO_nodeMaxAge : Nat
  PROTO_N : Nat
  PROTO_M : Nat
  PROTO_K : Nat
  RADAC_ip : Nat
  RADAC_port : Nat
deriving DecidableEq, Repr

/-- The slot `nc->nodes[i]`; an index outside the allocation reads the filler. -/
def nodeAt (junk : Node) (nc : NodeCollection) (i : Nat) : Node :=
  nc.nodes.getD i junk

/-- The live entries `nc->nodes[0 .. nodeCount-1]`. -/
def live (nc : NodeCollection) : List Node :=
  nc.nodes.take nc.nodeCount

/-- A collection whose array has exactly `maxNodeCount` slots, of which at most
that many are in use, with 16-bit counters. -/
def NodeCollection.WF (nc : NodeCollection) : Prop :=
  nc.nodes.length = nc.maxNodeCount ∧ nc.nodeCount ≤ nc.maxNodeCount ∧ nc.maxNodeCount < 65536

instance (nc : NodeCollection) : Decidable nc.WF := by
  unfold NodeCollection.WF; infer_instance

/-- The fields of a node that travel on the wire fit their C types. -/
def Node.InRange (n : Node) : Prop :=
  n.nodeID < 2 ^ 32 ∧ n.coordRange < 2 ^ 16 ∧ n.ipAddr < 2 ^ 32 ∧ n.port < 2 ^ 16 ∧
  n.radac_ip < 2 ^ 32 ∧ n.radac_port < 2 ^ 16 ∧ n.timeStamp < 2 ^ 32

instance (n : Node) : Decidable n.InRange := by
  unfold Node.InRange; infer_instance

/-! ## upack.c -/

/-- Bytes written by `pack8`. -/
def pack8 (i : Nat) : List Nat := [i % 256]

/-- Bytes written by `pack16`: `i>>8`, `i`, each truncated to a byte. -/
def pack16 (i : Nat) : List Nat := [(i >>> 8) % 256, i % 256]

/-- Bytes written by `pack32`. -/
def pack32 (i : Nat) : List Nat :=
  [(i >>> 24) % 256, (i >>> 16) % 256, (i >>> 8) % 256, i % 256]

/-- Bytes written by `pack64`. -/
def pack64 (i : Nat) : List Nat :=
  [(i >>> 56) % 256, (i >>> 48) % 256, (i >>> 40) % 256, (i >>> 32) % 256,
   (i >>> 24) % 256, (i >>> 16) % 256, (i >>> 8) % 256, i % 256]

/-- The byte `buf[o]`. -/
def rd (buf : Nat → Nat) (o : Nat) : Nat := buf o % 256

/-- Function `unpacku8`. -/
def unpacku8 (buf : Nat → Nat) (o : Nat) : Nat := rd buf o

/-- Function `unpacku16`. -/
def unpacku16 (buf : Nat → Nat) (o : Nat) : Nat :=
  ((rd buf o <<< 8) ||| rd buf (o + 1)) % 2 ^ 16

/-- Function `unpacku32`. -/
def unpacku32 (buf : Nat → Nat) (o : Nat) : Nat :=
  ((rd buf o <<< 24) ||| (rd buf (o + 1) <<< 16) ||| (rd buf (o + 2) <<< 8) |||
    rd buf (o + 3)) % 2 ^ 32

/-- Function `unpacku64`. -/
def unpacku64 (buf : Nat → Nat) (o : Nat) : Nat :=
  ((rd buf o <<< 56) ||| (rd buf (o + 1) <<< 48) ||| (rd buf (o + 2) <<< 40) |||
    (rd buf (o + 3) <<< 32) ||| (rd buf (o + 4) <<< 24) ||| (rd buf (o + 5) <<< 16) |||
    (rd buf (o + 6) <<< 8) ||| rd buf (o + 7)) % 2 ^ 64

/-- Modelled from the spec: the `packdouble` of the absent upack.h, the 8 big-endian bytes of
the 64-bit pattern that `enc754` gives; `enc754` is an argument. -/
def packdouble (enc754 : Dbl → Nat) (f : Dbl) : List Nat := pack64 (enc754 f)

/-- Modelled from the spec: the `unpackdouble` of the absent upack.h, `dec754` of the 64-bit
big-endian value at the offset; `dec754` is an argument. -/
def unpackdouble (dec754 : Nat → Dbl) (buf : Nat → Nat) (o : Nat) : Dbl :=
  dec754 (unpacku64 buf o)

/-- A list of bytes seen as memory: offsets past its end read 0. -/
def bufOf (l : List Nat) : Nat → Nat := fun i => l.getD i 0

/-! ## node.c: construction -/

/-- Function `NodeCollection_new`: the count argument is a `uint16_t`; the slots are
uninitialised. -/
def NodeCollection_new (junk : Node) (versionID type maxNodeCount : Nat) : NodeCollection :=
  { versionID := versionID % 65536
    payloadType := type
    maxNodeCount := maxNodeCount % 65536
    nodes := List.replicate (maxNodeCount % 65536) junk
    nodeCount := 0 }

/-- Function `NodeCollection_isValid`; `none` is the NULL pointer. -/
def NodeCollection_isValid (nc : Option NodeCollection) : Bool :=
  match nc with
  | some c => decide ((c.nodeCount : Int) > -1)
  | none => false

/-- Function `NodeCollection_typeIsValid`. -/
def NodeCollection_typeIsValid (type : Nat) : Bool :=
  type == RND_NOREQ || type == RND_REQ || type == IMP_NOREQ || type == IMP_REQ ||
    type == INTERNAL

/-- Function `Node_new`; `utility` is zero-initialised. -/
def Node_new (nodeID : Nat) (lat lon : Dbl) (coordRange ipAddr port radac_ip radac_port
    timeStamp : Nat) : Node :=
  { nodeID := nodeID % 2 ^ 32, lat := lat, lon := lon, coordRange := coordRange % 2 ^ 16
    ipAddr := ipAddr % 2 ^ 32, port := port % 2 ^ 16, radac_ip := radac_ip % 2 ^ 32
    radac_port := radac_port % 2 ^ 16, timeStamp := timeStamp % 2 ^ 32, utility := 0 }

/-- Function `Node_createOwnNode`; `now` is `time(NULL)`. -/
def Node_createOwnNode (cfg : Config) (now : Nat) : Node :=
  Node_new cfg.CLIENT_id cfg.CLIENT_lat cfg.CLIENT_lon cfg.CLIENT_coordRange
    cfg.NETWORK_ownIP cfg.NETWORK_port cfg.RADAC_ip cfg.RADAC_port now

/-- Function `Node_nullOutNode`. -/
def Node_nullOutNode (n : Node) : Node := { n with nodeID := 0 }

/-! ## serialize.c -/

/-- The constant `NC_HEADER_OFFSET`. -/
def NC_HEADER_OFFSET : Nat := 5

/-- The constant `NODE_OFFSET`. -/
def NODE_OFFSET : Nat := (4 * 4) + (3 * 2) + (2 * 8)

/-- One iteration of the loop of `NodeCollection_pack`: the bytes written so far and `sz`. -/
def packNodeStep (enc754 : Dbl → Nat) (junk : Node) (nc : NodeCollection)
    (st : List Nat × Nat) (i : Nat) : List Nat × Nat :=
  let n := nodeAt junk nc i
  let st := (st.1 ++ pack32 n.nodeID, st.2 + 4)
  let st := (st.1 ++ packdouble enc754 n.lat, st.2 + 8)
  let st := (st.1 ++ packdouble enc754 n.lon, st.2 + 8)
  let st := (st.1 ++ pack16 n.coordRange, st.2 + 2)
  let st := (st.1 ++ pack32 n.ipAddr, st.2 + 4)
  let st := (st.1 ++ pack16 n.port, st.2 + 2)
  let st := (st.1 ++ pack32 n.radac_ip, st.2 + 4)
  let st := (st.1 ++ pack16 n.radac_port, st.2 + 2)
  (st.1 ++ pack32 n.timeStamp, st.2 + 4)

/-- Function `NodeCollection_pack`: the buffer (`none` is NULL) and `*size`. -/
def NodeCollection_pack (enc754 : Dbl → Nat) (junk : Node) (nc : NodeCollection) :
    Option (List Nat) × Nat :=
  if NodeCollection_isValid (some nc) then
    let st : List Nat × Nat := ([], 0)
    let st := (st.1 ++ pack16 nc.versionID, st.2 + 2)
    let st := (st.1 ++ pack8 nc.payloadType, st.2 + 1)
    let st := (st.1 ++ pack16 nc.nodeCount, st.2 + 2)
    let st := (List.range nc.nodeCount).foldl (packNodeStep enc754 junk nc) st
    (some st.1, st.2)
  else (none, 0)

/-- The node decoded by one iteration of the loop of `NodeCollection_unpack` at offset `o`;
`old` is the slot before the stores (its `utility` is not written). -/
def unpackNode (dec754 : Nat → Dbl) (buff : Nat → Nat) (o : Nat) (old : Node) : Node :=
  { old with
    nodeID := unpacku32 buff o
    lat := unpackdouble dec754 buff (o + 4)
    lon := unpackdouble dec754 buff (o + 12)
    coordRange := unpacku16 buff (o + 20)
    ipAddr := unpacku32 buff (o + 22)
    port := unpacku16 buff (o + 26)
    radac_ip := unpacku32 buff (o + 28)
    radac_port := unpacku16 buff (o + 32)
    timeStamp := unpacku32 buff (o + 34) }

/-- One iteration of the loop of `NodeCollection_unpack`: the collection and the offset `o`. -/
def unpackNodeStep (dec754 : Nat → Dbl) (junk : Node) (buff : Nat → Nat)
    (st : NodeCollection × Nat) (i : Nat) : NodeCollection × Nat :=
  ({ st.1 with nodes := st.1.nodes.set i (unpackNode dec754 buff st.2 (nodeAt junk st.1 i)) },
    st.2 + 4 + 8 + 8 + 2 + 4 + 2 + 4 + 2 + 4)

/-- Result of `NodeCollection_unpack`: the collection, `*num`, and the final value of the
local offset `o` (every byte read lies below it). -/
structure Unpacked where
  nc : NodeCollection
  num : Nat
  o : Nat
deriving DecidableEq, Repr

/-- Function `NodeCollection_unpack` on a non-NULL buffer; `none` is the NULL result. -/
def NodeCollection_unpack (dec754 : Nat → Dbl) (junk : Node) (buff : Nat → Nat) (size : Int) :
    Option Unpacked :=
  if size > 0 then
    let versionID := unpacku16 buff 0
    let payloadType := unpacku8 buff 2
    let nodeCount := unpacku16 buff 3
    let nc := NodeCollection_new junk versionID payloadType nodeCount
    let nc := { nc with nodeCount := nodeCount }
    let st := (List.range nc.nodeCount).foldl (unpackNodeStep dec754 junk buff) (nc, 5)
    some { nc := st.1, num := nodeCount, o := st.2 }
  else none

/-! ## qsort -/

/-- A comparator that qsort may be given: any two elements are ordered one way or the other,
and the order is transitive. -/
def CmpOK (cmp : Node → Node → Int) : Prop :=
  (∀ a b, cmp a b ≤ 0 ∨ cmp b a ≤ 0) ∧ (∀ a b c, cmp a b ≤ 0 → cmp b c ≤ 0 → cmp a c ≤ 0)

/-- The contract of the C library function `qsort`: the result is a rearrangement of the
input in which no element is followed by one that the comparator places before it. The order
of elements that compare equal is left open. -/
structure Qsort where
  sort : (Node → Node → Int) → List Node → List Node
  perm : ∀ cmp l, (sort cmp l).Perm l
  sorted : ∀ cmp l, CmpOK cmp → (sort cmp l).Pairwise (fun a b => cmp a b ≤ 0)

/-- Insertion of one element before the first element that does not precede it. -/
def insertSorted (cmp : Node → Node → Int) (x : Node) : List Node → List Node
  | [] => [x]
  | y :: ys => if cmp x y ≤ 0 then x :: y :: ys else y :: insertSorted cmp x ys

/-- Insertion sort; elements that compare equal keep their order. -/
def insertionSort (cmp : Node → Node → Int) : List Node → List Node
  | [] => []
  | x :: xs => insertSorted cmp x (insertionSort cmp xs)

/-- A stable sort meets the contract of `qsort`. -/
def stableQsort : Qsort where
  sort := insertionSort
  perm := by
    intro cmp l
    have hins : ∀ (x : Node) (ys : List Node), (insertSorted cmp x ys).Perm (x :: ys) := by
      intro x ys
      induction ys with
      | nil => exact List.Perm.refl _
      | cons y ys ih =>
        unfold insertSorted
        split
        · exact List.Perm.refl _
        · exact (List.Perm.cons y ih).trans (List.Perm.swap x y ys)
    induction l with
    | nil => exact List.Perm.refl _
    | cons x xs ih => exact (hins x _).trans (List.Perm.cons x ih)
  sorted := by
    intro cmp l hc
    have hmem : ∀ (x : Node) (ys : List Node) (z : Node),
        z ∈ insertSorted cmp x ys → z = x ∨ z ∈ ys := by
      intro x ys
      induction ys with
      | nil => intro z hz; simpa [insertSorted] using hz
      | cons y ys ih =>
        intro z hz
        unfold insertSorted at hz
        split at hz
        · simpa using hz
        · rcases List.mem_cons.1 hz with h | h
          · exact Or.inr (List.mem_cons.2 (Or.inl h))
          · rcases ih z h with h | h
            · exact Or.inl h
            · exact Or.inr (List.mem_cons.2 (Or.inr h))
    have hins : ∀ (x : Node) (ys : List Node), ys.Pairwise (fun a b => cmp a b ≤ 0) →
        (insertSorted cmp x ys).Pairwise (fun a b => cmp a b ≤ 0) := by
      intro x ys
      induction ys with
      | nil => intro _; simp [insertSorted]
      | cons y ys ih =>
        intro hp
        have hy := List.pairwise_cons.1 hp
        unfold insertSorted
        split
        · rename_i hxy
          refine List.pairwise_cons.2 ⟨?_, hp⟩
          intro z hz
          rcases List.mem_cons.1 hz with h | h
          · exact h ▸ hxy
          · exact hc.2 x y z hxy (hy.1 z h)
        · rename_i hxy
          refine List.pairwise_cons.2 ⟨?_, ih hy.2⟩
          intro z hz
          rcases hmem x ys z hz with h | h
          · rcases hc.1 x y with h1 | h1
            · exact absurd h1 hxy
            · exact h ▸ h1
          · exact hy.1 z h
    induction l with
    | nil => simp [insertionSort]
    | cons x xs ih => exact hins x _ ih

/-- The call `qsort(nc->nodes, nc->nodeCount, sizeof(Node), cmp)`: only the first `nodeCount`
slots are rearranged. -/
def qsortNodes (q : Qsort) (cmp : Node → Node → Int) (nc : NodeCollection) : NodeCollection :=
  { nc with nodes := q.sort cmp (nc.nodes.take nc.nodeCount) ++ nc.nodes.drop nc.nodeCount }

/-! ## node.c: sorting -/

/-- Comparator `comp_sort_utility_h2l`. -/
def comp_sort_utility_h2l (a b : Node) : Int :=
  if a.utility > b.utility then -1 else if a.utility < b.utility then 1 else 0

/-- Comparator `comp_sort_timestamp_h2l`. -/
def comp_sort_timestamp_h2l (a b : Node) : Int :=
  if a.timeStamp > b.timeStamp then -1 else if a.timeStamp < b.timeStamp then 1 else 0

/-- Comparator `comp_sort_id`. -/
def comp_sort_id (a b : Node) : Int :=
  if a.nodeID > b.nodeID then -1 else if a.nodeID < b.nodeID then 1 else 0

/-- Function `NodeCollection_sortByUtility`. -/
def NodeCollection_sortByUtility (q : Qsort) (nc : NodeCollection) : NodeCollection :=
  qsortNodes q comp_sort_utility_h2l nc

/-- Function `NodeCollection_sortByTimeStamp`. -/
def NodeCollection_sortByTimeStamp (q : Qsort) (nc : NodeCollection) : NodeCollection :=
  qsortNodes q comp_sort_timestamp_h2l nc

/-- Function `NodeCollection_sortByNodeID`. -/
def NodeCollection_sortByNodeID (q : Qsort) (nc : NodeCollection) : NodeCollection :=
  qsortNodes q comp_sort_id nc

/-! ## node.c: list maintenance -/

/-- Function `NodeCollection_grow`; the new slots are uninitialised. -/
def NodeCollection_grow (junk : Node) (nc : NodeCollection) (grow_amount : Nat) :
    NodeCollection :=
  if (nc.maxNodeCount + grow_amount) % 2 ^ 32 ≤ P2PDPRD_NODES_MAX_SIZE then
    { nc with
      maxNodeCount := (nc.maxNodeCount + grow_amount) % 65536
      nodes := nc.nodes ++ List.replicate grow_amount junk }
  else nc

/-- One iteration of the loop of `NodeCollection_append` at source index `b_pos`; once the
destination is full the loop has ended and nothing changes. -/
def appendStep (junk : Node) (b : NodeCollection) (ignoreNodeId : Nat) (a : NodeCollection)
    (b_pos : Nat) : NodeCollection :=
  if a.nodeCount < a.maxNodeCount then
    if ignoreNodeId = 0 ∨ ignoreNodeId ≠ (nodeAt junk b b_pos).nodeID then
      { a with nodes := a.nodes.set a.nodeCount (nodeAt junk b b_pos)
               nodeCount := a.nodeCount + 1 }
    else a
  else a

/-- Function `NodeCollection_append`: `b_pos` runs over `0 .. b->nodeCount-1`. -/
def NodeCollection_append (junk : Node) (a b : NodeCollection) (ignoreNodeId : Nat) :
    NodeCollection :=
  (List.range b.nodeCount).foldl (appendStep junk b ignoreNodeId) a

/-- Function `Node_swapPointers` as it acts at its call site in
`NodeCollection_removeDuplicateNodes` when the loads and stores are performed as written: the
arguments are the addresses of two `Node` slots cast to `Node**`, so the pointer-sized words
exchanged are the leading bytes of the two slots, which hold `nodeID` (and padding). The
other fields stay where they are. C gives no meaning to these accesses of a `Node` through an
lvalue of type `Node*`; `removeDuplicateStepWith` leaves their outcome open. -/
def Node_swapPointers (n0 n1 : Node) : Node × Node :=
  ({ n0 with nodeID := n1.nodeID }, { n1 with nodeID := n0.nodeID })

/-- One iteration of the loop of `NodeCollection_removeDuplicateNodes`: the array and
`newNodeCount`. -/
def removeDuplicateStep (junk : Node) (st : List Node × Int) (i : Nat) : List Node × Int :=
  let n0 := st.1.getD i junk
  let n1 := st.1.getD (i + 1) junk
  if n0.nodeID = n1.nodeID then
    if n0.timeStamp < n1.timeStamp then
      (st.1.set i (Node_nullOutNode n0), st.2 - 1)
    else
      let sw := Node_swapPointers n0 (Node_nullOutNode n1)
      ((st.1.set i sw.1).set (i + 1) sw.2, st.2 - 1)
  else st

/-- Function `NodeCollection_removeDuplicateNodes`; the loop bound `nodeCount - 1` is an
`int`, so an empty collection gives no iteration. -/
def NodeCollection_removeDuplicateNodes (q : Qsort) (junk : Node) (nc : NodeCollection) :
    NodeCollection :=
  let nc := NodeCollection_sortByNodeID q nc
  let st := (List.range (nc.nodeCount - 1)).foldl (removeDuplicateStep junk)
    (nc.nodes, (nc.nodeCount : Int))
  let nc := NodeCollection_sortByNodeID q { nc with nodes := st.1 }
  { nc with nodeCount := (st.2 % 65536).toNat }

/-- One iteration of the loop of `NodeCollection_removeDuplicateNodes` with the outcome of its
else branch left open. The branch stores 0 in `nodes[i + 1].nodeID` and then calls
`Node_swapPointers((Node**)&nc->nodes[i], (Node**)&nc->nodes[i+1])`, which reads and writes
the two `Node` objects through lvalues of type `Node*`: the behaviour is undefined, and a
compiler may order these accesses against the store. `branch n0 n1` is what the two statements
make of the slots `i` and `i + 1` that held `n0` and `n1`. -/
def removeDuplicateStepWith (branch : Node → Node → Node × Node) (junk : Node)
    (st : List Node × Int) (i : Nat) : List Node × Int :=
  let n0 := st.1.getD i junk
  let n1 := st.1.getD (i + 1) junk
  if n0.nodeID = n1.nodeID then
    if n0.timeStamp < n1.timeStamp then
      (st.1.set i (Node_nullOutNode n0), st.2 - 1)
    else
      let sw := branch n0 n1
      ((st.1.set i sw.1).set (i + 1) sw.2, st.2 - 1)
  else st

/-- Function `NodeCollection_removeDuplicateNodes` with the outcome of the else branch of its
loop left open. -/
def NodeCollection_removeDuplicateNodesWith (branch : Node → Node → Node × Node) (q : Qsort)
    (junk : Node) (nc : NodeCollection) : NodeCollection :=
  let nc := NodeCollection_sortByNodeID q nc
  let st := (List.range (nc.nodeCount - 1)).foldl (removeDuplicateStepWith branch junk)
    (nc.nodes, (nc.nodeCount : Int))
  let nc := NodeCollection_sortByNodeID q { nc with nodes := st.1 }
  { nc with nodeCount := (st.2 % 65536).toNat }

/-- One iteration of the loop of `NodeCollection_removeExpiredNodes`: the array,
`newNodeCount` and `num`. -/
def removeExpiredStep (junk : Node) (cmprTime : Int) (st : List Node × Int × Int) (i : Nat) :
    List Node × Int × Int :=
  if ((st.1.getD i junk).timeStamp : Int) ≤ cmprTime then
    (st.1.set i (Node_nullOutNode (st.1.getD i junk)), st.2.1 - 1, st.2.2 + 1)
  else st

/-- Function `NodeCollection_removeExpiredNodes`: the collection and the returned count.
`now` is `time(NULL)`, a signed `time_t`; the argument `expire_time` is not used. -/
def NodeCollection_removeExpiredNodes (q : Qsort) (junk : Node) (cfg : Config) (now : Nat)
    (nc : NodeCollection) (_expire_time : Nat) : NodeCollection × Int :=
  let cmprTime : Int := (now : Int) - (cfg.PROTO_nodeMaxAge : Int)
  let st := (List.range nc.nodeCount).foldl (removeExpiredStep junk cmprTime)
    (nc.nodes, (nc.nodeCount : Int), 0)
  let nc := NodeCollection_sortByNodeID q { nc with nodes := st.1 }
  ({ nc with nodeCount := (st.2.1 % 65536).toNat }, st.2.2)

/-- One iteration of the loop of `NodeCollection_removeExcessNodes`. -/
def removeExcessStep (junk : Node) (st : List Node × Int) (i : Nat) : List Node × Int :=
  (st.1.set i (Node_nullOutNode (st.1.getD i junk)), st.2 + 1)

/-- Function `NodeCollection_removeExcessNodes`: the collection and the returned count;
`floor_value` is an `unsigned int`. -/
def NodeCollection_removeExcessNodes (junk : Node) (nc : NodeCollection) (floor_value : Nat) :
    NodeCollection × Int :=
  if nc.nodeCount > floor_value then
    let st := (List.range' floor_value (nc.maxNodeCount - floor_value)).foldl
      (removeExcessStep junk) (nc.nodes, 0)
    ({ nc with nodes := st.1, nodeCount := floor_value % 65536 }, st.2)
  else (nc, 0)

/-- Function `NodeCollection_countCandidateNodes`. -/
def NodeCollection_countCandidateNodes (junk : Node) (inl : NodeCollection) : Int :=
  (List.range inl.nodeCount).foldl
    (fun counter i => if (nodeAt junk inl i).utility ≥ 1 then counter + 1 else counter) 0

/-- Function `NodeCollection_getCandidateNodes`. -/
def NodeCollection_getCandidateNodes (junk : Node) (nc : NodeCollection) : NodeCollection :=
  let cn := NodeCollection_new junk P2PDPRD_VERSION_ID INTERNAL nc.nodeCount
  let st := (List.range nc.nodeCount).foldl
    (fun (st : List Node × Nat) i =>
      if (nodeAt junk nc i).utility ≥ 1 then (st.1.set st.2 (nodeAt junk nc i), st.2 + 1)
      else st) (cn.nodes, 0)
  { cn with nodes := st.1, nodeCount := st.2 % 65536 }

/-- The constant `DBL_MAX` of float.h. -/
def DBL_MAX : Dbl := (2 ^ 53 - 1) * 2 ^ 971

/-- Function `Node_utility`, in exact arithmetic; `geo` is `geo_distance_meters`. -/
def Node_utility (geo : Dbl → Dbl → Dbl → Dbl → Dbl) (a b : Node) : Dbl :=
  let ab_dist_sqrd := (geo a.lat a.lon b.lat b.lon) ^ 2
  let ab_cr_sqrd := (((a.coordRange + b.coordRange : Nat) : Dbl)) ^ 2
  if ab_dist_sqrd ≠ 0 then ab_cr_sqrd / ab_dist_sqrd else DBL_MAX

/-- Function `NodeCollection_calculateUtility`. -/
def NodeCollection_calculateUtility (geo : Dbl → Dbl → Dbl → Dbl → Dbl) (junk : Node)
    (nc : NodeCollection) (n : Node) : NodeCollection :=
  let nodes := (List.range nc.nodeCount).foldl
    (fun (nodes : List Node) i => nodes.set i
      { (nodes.getD i junk) with utility := Node_utility geo n (nodes.getD i junk) })
    nc.nodes
  { nc with nodes := nodes }

/-- The retry loop shared by `Node_getRandomPeerNode` and `Node_getRandomImportantNode`:
at most 100 draws `r = rand() % range`, stopping at the first slot whose ID is not the
client's; the result is the index chosen. `draws i` is the value of the i-th `rand()`. -/
def randomDrawLoop (cfg : Config) (junk : Node) (nc : NodeCollection) (range : Nat)
    (draws : Nat → Nat) : Option Nat :=
  (List.range 100).findSome? (fun i =>
    if (nodeAt junk nc (draws i % range)).nodeID ≠ cfg.CLIENT_id then some (draws i % range)
    else none)

/-- Function `Node_getRandomPeerNode`: the index of the node pointed to, `none` for NULL. -/
def Node_getRandomPeerNode (cfg : Config) (junk : Node) (draws : Nat → Nat)
    (nc : NodeCollection) : Option Nat :=
  if nc.nodeCount ≤ 0 then none
  else if nc.nodeCount = 1 then
    if (nodeAt junk nc 0).nodeID ≠ cfg.CLIENT_id then some 0 else none
  else randomDrawLoop cfg junk nc nc.nodeCount draws

/-- Function `Node_getRandomImportantNode`: the index of the node pointed to. -/
def Node_getRandomImportantNode (cfg : Config) (junk : Node) (draws : Nat → Nat)
    (nc : NodeCollection) : Option Nat :=
  if nc.nodeCount ≤ 0 then none
  else if nc.nodeCount = 1 then
    if (nodeAt junk nc 0).nodeID ≠ cfg.CLIENT_id then some 0 else none
  else
    let candidateAmount := NodeCollection_countCandidateNodes junk nc
    let nodeRange : Nat :=
      if nc.nodeCount < 10 then nc.nodeCount
      else if candidateAmount < 10 then 9
      else candidateAmount.toNat
    randomDrawLoop cfg junk nc nodeRange draws

/-! ## protocol.c -/

/-- One call of `IO_sendBytes`: the buffer, the size (a `uint16_t` parameter) and the
destination address. -/
structure SendCall where
  buffer : Option (List Nat)
  buff_size : Nat
  ip : Nat
  port : Nat
deriving DecidableEq, Repr

/-- Function `NodeCollection_sendToPeer`: the call of `IO_sendBytes` it makes. -/
def NodeCollection_sendToPeer (enc754 : Dbl → Nat) (junk : Node) (nc : NodeCollection)
    (peerNode : Node) : SendCall :=
  let packed := NodeCollection_pack enc754 junk nc
  { buffer := packed.1, buff_size := packed.2 % 65536, ip := peerNode.ipAddr % 2 ^ 32
    port := peerNode.port % 2 ^ 16 }

/-- The collection that `Protocol_bootstrap` builds. -/
def Protocol_bootstrap_nc (cfg : Config) (junk : Node) (now : Nat) : NodeCollection :=
  let ownNode := Node_createOwnNode cfg now
  let nc := NodeCollection_new junk P2PDPRD_VERSION_ID RND_REQ 1
  { nc with nodes := nc.nodes.set 0 ownNode, nodeCount := 1 }

/-- Function `Protocol_bootstrap`: the calls of `IO_sendBytes` it makes. -/
def Protocol_bootstrap (enc754 : Dbl → Nat) (cfg : Config) (junk : Node) (now : Nat)
    (originPeerIP originPeerPort : Nat) : List SendCall :=
  let peerNode := Node_new 0 0 0 0 originPeerIP originPeerPort 0 0 now
  [NodeCollection_sendToPeer enc754 junk (Protocol_bootstrap_nc cfg junk now) peerNode]

/-- The collection that `Protocol_sendRandomNodes` builds and hands to
`NodeCollection_sendToPeer`. -/
def Protocol_sendRandomNodes_nc (cfg : Config) (junk : Node) (now : Nat)
    (rn : NodeCollection) (type : Nat) : NodeCollection :=
  let nc := NodeCollection_new junk P2PDPRD_VERSION_ID type (rn.nodeCount + 1)
  let ownNode := Node_createOwnNode cfg now
  let nc := { nc with nodes := nc.nodes.set 0 ownNode }
  if rn.nodeCount > 1 then
    let nodes := (List.range' 1 (rn.nodeCount - 1)).foldl
      (fun (nodes : List Node) j => nodes.set j (nodeAt junk rn (j - 1))) nc.nodes
    { nc with nodes := nodes, nodeCount := rn.nodeCount }
  else
    { nc with nodeCount := 1 }

/-- Function `Protocol_sendRandomNodes`: the calls of `IO_sendBytes` it makes. -/
def Protocol_sendRandomNodes (enc754 : Dbl → Nat) (cfg : Config) (junk : Node) (now : Nat)
    (rn : NodeCollection) (type : Nat) (peerNode : Node) : List SendCall :=
  [NodeCollection_sendToPeer enc754 junk (Protocol_sendRandomNodes_nc cfg junk now rn type)
    peerNode]

/-- The collection that `Protocol_sendImportantNodes` builds and hands to
`NodeCollection_sendToPeer`. -/
def Protocol_sendImportantNodes_nc (q : Qsort) (geo : Dbl → Dbl → Dbl → Dbl → Dbl)
    (cfg : Config) (junk : Node) (now : Nat) (inl : NodeCollection) (type : Nat)
    (peerNode : Node) : NodeCollection :=
  let tmp_nc := NodeCollection_new junk P2PDPRD_VERSION_ID type inl.nodeCount
  let nodes := (List.range inl.nodeCount).foldl
    (fun (nodes : List Node) l => nodes.set l (nodeAt junk inl l)) tmp_nc.nodes
  let tmp_nc := { tmp_nc with nodes := nodes, nodeCount := inl.nodeCount }
  let tmp_nc :=
    if tmp_nc.nodeCount > cfg.PROTO_K then
      let t := NodeCollection_calculateUtility geo junk tmp_nc peerNode
      let t := NodeCollection_sortByUtility q t
      (NodeCollection_removeExcessNodes junk t cfg.PROTO_K).1
    else tmp_nc
  let nc := NodeCollection_new junk P2PDPRD_VERSION_ID type (tmp_nc.nodeCount + 1)
  let nodes := (List.range' 1 tmp_nc.nodeCount).foldl
    (fun (nodes : List Node) j => nodes.set j (nodeAt junk tmp_nc (j - 1))) nc.nodes
  let ownNode := Node_createOwnNode cfg now
  { nc with nodes := nodes.set 0 ownNode, nodeCount := (tmp_nc.nodeCount + 1) % 65536 }

/-- Function `Protocol_sendImportantNodes`: the calls of `IO_sendBytes` it makes. -/
def Protocol_sendImportantNodes (enc754 : Dbl → Nat) (q : Qsort)
    (geo : Dbl → Dbl → Dbl → Dbl → Dbl) (cfg : Config) (junk : Node) (now : Nat)
    (inl : NodeCollection) (type : Nat) (peerNode : Node) : List SendCall :=
  [NodeCollection_sendToPeer enc754 junk
    (Protocol_sendImportantNodes_nc q geo cfg junk now inl type peerNode) peerNode]

/-- Function `Protocol_updateRandomNodes`: the new `rn`. -/
def Protocol_updateRandomNodes (q : Qsort) (cfg : Config) (junk : Node)
    (nc rn : NodeCollection) : NodeCollection :=
  let rn := NodeCollection_append junk rn nc cfg.CLIENT_id
  let rn := NodeCollection_removeDuplicateNodes q junk rn
  let rn := NodeCollection_sortByTimeStamp q rn
  (NodeCollection_removeExcessNodes junk rn (rn.maxNodeCount / 2)).1

/-- Function `Protocol_updateImportantNodes`: the new `nc` (its utilities are rewritten) and
the new `in`. The differences `maxNodeCount - PROTO_K` are `int`s; passed to
`NodeCollection_removeExcessNodes` the difference becomes an `unsigned int`. -/
def Protocol_updateImportantNodes (q : Qsort) (geo : Dbl → Dbl → Dbl → Dbl → Dbl)
    (cfg : Config) (junk : Node) (now : Nat) (nc inl : NodeCollection) :
    NodeCollection × NodeCollection :=
  let ownNode := Node_new cfg.CLIENT_id cfg.CLIENT_lat cfg.CLIENT_lon cfg.CLIENT_coordRange
    0 0 0 0 now
  let nc := NodeCollection_calculateUtility geo junk nc ownNode
  let inl := NodeCollection_append junk inl nc cfg.CLIENT_id
  let inl := NodeCollection_removeDuplicateNodes q junk inl
  let inl := NodeCollection_sortByUtility q inl
  let candidate_amount := NodeCollection_countCandidateNodes junk inl
  let inl :=
    if candidate_amount > (inl.maxNodeCount : Int) - (cfg.PROTO_K : Int) then
      NodeCollection_grow junk inl cfg.PROTO_K
    else inl
  let inl :=
    if (inl.nodeCount : Int) > (inl.maxNodeCount : Int) - (cfg.PROTO_K : Int) then
      (NodeCollection_removeExcessNodes junk inl
        (((inl.maxNodeCount : Int) - (cfg.PROTO_K : Int)) % 2 ^ 32).toNat).1
    else inl
  (nc, inl)

/-- The gossip state of the process: the two lists allocated in `main`. -/
structure State where
  randomNodes : NodeCollection
  importantNodes : NodeCollection
deriving DecidableEq, Repr

/-- Function `Protocol_receiveFromPeer`, from the point where `recvfrom` has filled
`buffer` and returned `payloadSize`: the new lists and the calls of `IO_sendBytes` made. -/
def Protocol_receiveFromPeer (enc754 : Dbl → Nat) (dec754 : Nat → Dbl) (q : Qsort)
    (geo : Dbl → Dbl → Dbl → Dbl → Dbl) (cfg : Config) (junk : Node) (now : Nat)
    (buffer : Nat → Nat) (payloadSize : Int) (s : State) : State × List SendCall :=
  let u := NodeCollection_unpack dec754 junk buffer payloadSize
  if NodeCollection_isValid (u.map (fun r => r.nc)) then
    match u with
    | some r =>
      let nc := r.nc
      if nc.payloadType = RND_NOREQ then
        let rn := Protocol_updateRandomNodes q cfg junk nc s.randomNodes
        let p := Protocol_updateImportantNodes q geo cfg junk now rn s.importantNodes
        ({ randomNodes := p.1, importantNodes := p.2 }, [])
      else if nc.payloadType = RND_REQ then
        let sent := Protocol_sendRandomNodes enc754 cfg junk now s.randomNodes RND_NOREQ
          (nodeAt junk nc 0)
        let rn := Protocol_updateRandomNodes q cfg junk nc s.randomNodes
        let p := Protocol_updateImportantNodes q geo cfg junk now rn s.importantNodes
        ({ randomNodes := p.1, importantNodes := p.2 }, sent)
      else if nc.payloadType = IMP_NOREQ then
        let p := Protocol_updateImportantNodes q geo cfg junk now nc s.importantNodes
        ({ s with importantNodes := p.2 }, [])
      else if nc.payloadType = IMP_REQ then
        let sent := Protocol_sendImportantNodes enc754 q geo cfg junk now s.importantNodes
          IMP_NOREQ (nodeAt junk nc 0)
        let p := Protocol_updateImportantNodes q geo cfg junk now nc s.importantNodes
        ({ s with importantNodes := p.2 }, sent)
      else (s, [])
    | none => (s, [])
  else (s, [])

/-- Function `Protocol_timeout`: the new lists and the calls of `IO_sendBytes` made.
`draws1` and `draws2` are the values `rand()` gives to the two peer selections. -/
def Protocol_timeout (enc754 : Dbl → Nat) (q : Qsort) (geo : Dbl → Dbl → Dbl → Dbl → Dbl)
    (cfg : Config) (junk : Node) (now : Nat) (draws1 draws2 : Nat → Nat) (s : State) :
    State × List SendCall :=
  let rn := (NodeCollection_removeExpiredNodes q junk cfg now s.randomNodes
    cfg.PROTO_nodeMaxAge).1
  let inl := (NodeCollection_removeExpiredNodes q junk cfg now s.importantNodes
    cfg.PROTO_nodeMaxAge).1
  let inl := NodeCollection_sortByUtility q inl
  let sent1 :=
    match Node_getRandomPeerNode cfg junk draws1 rn with
    | some i => Protocol_sendRandomNodes enc754 cfg junk now rn RND_REQ (nodeAt junk rn i)
    | none => Protocol_bootstrap enc754 cfg junk now cfg.NETWORK_originPeerIP
        cfg.NETWORK_originPeerPort
  let sent2 :=
    match Node_getRandomImportantNode cfg junk draws2 inl with
    | some i => Protocol_sendImportantNodes enc754 q geo cfg junk now inl IMP_REQ
        (nodeAt junk inl i)
    | none => []
  ({ randomNodes := rn, importantNodes := inl }, sent1 ++ sent2)

/-- The lists as `main` allocates them. -/
def initialState (cfg : Config) (junk : Node) : State :=
  { importantNodes := NodeCollection_new junk P2PDPRD_VERSION_ID INTERNAL
      (cfg.PROTO_M + cfg.PROTO_K)
    randomNodes := NodeCollection_new junk P2PDPRD_VERSION_ID INTERNAL (cfg.PROTO_N * 2) }

/-- The events of the main loop that touch the two lists. -/
inductive Event where
  | receive (buffer : Nat → Nat) (payloadSize : Int) (now : Nat)
  | timeout (now : Nat) (draws1 draws2 : Nat → Nat)

/-- The functions that the embedding leaves open: the library `qsort`, the double codec,
the distance function and the content of uninitialised memory. -/
structure Env where
  q : Qsort
  enc754 : Dbl → Nat
  dec754 : Nat → Dbl
  geo : Dbl → Dbl → Dbl → Dbl → Dbl
  junk : Node

/-- One event handled by the main loop. -/
def step (env : Env) (cfg : Config) (s : State) : Event → State × List SendCall
  | Event.receive buffer payloadSize now =>
    Protocol_receiveFromPeer env.enc754 env.dec754 env.q env.geo cfg env.junk now buffer
      payloadSize s
  | Event.timeout now draws1 draws2 =>
    Protocol_timeout env.enc754 env.q env.geo cfg env.junk now draws1 draws2 s

/-- The lists after a sequence of events. -/
def run (env : Env) (cfg : Config) (s : State) (evs : List Event) : State :=
  evs.foldl (fun s ev => (step env cfg s ev).1) s

/-! ## subscribe.c -/

/-- A NUL-terminated C string: its bytes before the terminator. -/
abbrev CString := List Nat

/-- The struct `Subscriber` of subscribe.h. -/
structure Subscriber where
  socket_address : CString
  address_length : Nat
deriving DecidableEq, Repr

/-- The constant `MAX_NUM_SUBSCRIBERS` of subscribe.h. -/
def MAX_NUM_SUBSCRIBERS : Nat := 25

/-- The struct `SubscriberList` of subscribe.h; `subscribers` lists the slots of the array,
each slot the subscriber it points to. -/
structure SubscriberList where
  subscribers : List Subscriber
  num_subs : Nat
  max_num_subs : Nat
deriving DecidableEq, Repr

/-- The stored subscribers `subs->subscribers[0 .. num_subs-1]`. -/
def stored (subs : SubscriberList) : List Subscriber :=
  subs.subscribers.take subs.num_subs

/-- Function `Subscriber_new`: the path is copied with `strcpy`. -/
def Subscriber_new (address : CString) (address_length : Nat) : Subscriber :=
  { socket_address := address, address_length := address_length % 2 ^ 32 }

/-- Function `SubscriberList_new`: the array has `MAX_NUM_SUBSCRIBERS` slots, which are
uninitialised. -/
def SubscriberList_new (junk : Subscriber) (max_num_subs : Nat) : SubscriberList :=
  { subscribers := List.replicate MAX_NUM_SUBSCRIBERS junk
    num_subs := 0
    max_num_subs := max_num_subs % 2 ^ 32 }

/-- The test of the loop of `SubscriberList_addSub` at slot `k`: same `address_length` and
`strcmp` equal to 0. -/
def addSubMatches (junk : Subscriber) (subs : SubscriberList) (new_sub : Subscriber)
    (k : Nat) : Bool :=
  decide (new_sub.address_length = (subs.subscribers.getD k junk).address_length) &&
    decide (new_sub.socket_address = (subs.subscribers.getD k junk).socket_address)

/-- Function `SubscriberList_addSub` for a non-NULL `new_sub`: the returned code and the
list. The loop stops at the first match, so `match` ends as 0 or 1. -/
def SubscriberList_addSub (junk : Subscriber) (subs : SubscriberList) (new_sub : Subscriber) :
    Int × SubscriberList :=
  if subs.num_subs < subs.max_num_subs then
    let matchCount : Int :=
      if (List.range subs.num_subs).any (addSubMatches junk subs new_sub) then 1 else 0
    if matchCount = 0 then
      (1, { subs with subscribers := subs.subscribers.set subs.num_subs new_sub
                      num_subs := subs.num_subs + 1 })
    else (-1, subs)
  else (0, subs)

/-- Function `SubscriberList_removeSub`: the returned code and the list. The first loop
keeps the last index whose path equals the path to remove. -/
def SubscriberList_removeSub (junk : Subscriber) (subs : SubscriberList)
    (rmv_sub : Subscriber) : Int × SubscriberList :=
  let index : Int := (List.range subs.num_subs).foldl
    (fun (index : Int) i =>
      if (subs.subscribers.getD i junk).socket_address = rmv_sub.socket_address then (i : Int)
      else index) (-1)
  if index > -1 then
    let slots := (List.range' index.toNat (subs.num_subs - 1 - index.toNat)).foldl
      (fun (slots : List Subscriber) k => slots.set k (slots.getD (k + 1) junk))
      subs.subscribers
    (1, { subs with subscribers := slots, num_subs := subs.num_subs - 1 })
  else (0, subs)

/-! ## io.c: the local socket -/

/-- The enum `LOCAL_REQ_TYPE`: SET_POSITION. -/
def SET_POSITION : Nat := 0

/-- The enum `LOCAL_REQ_TYPE`: SET_COORDINATION_RANGE. -/
def SET_COORDINATION_RANGE : Nat := 1

/-- The enum `LOCAL_REQ_TYPE`: SET_POS_AND_RANGE. -/
def SET_POS_AND_RANGE : Nat := 2

/-- The enum `LOCAL_REQ_TYPE`: SUB_CANDNODES. -/
def SUB_CANDNODES : Nat := 3

/-- The enum `LOCAL_REQ_TYPE`: UNSUB_CANDNODES. -/
def UNSUB_CANDNODES : Nat := 4

/-- The structs `LocalRequest` and `request_values` of io.h. -/
structure LocalRequest where
  type : Nat
  lat : Dbl
  lon : Dbl
  coord_range : Nat
  sock_addr : CString
deriving DecidableEq, Repr

/-- Function `Config_setNodePosition` of configuration.c. -/
def Config_setNodePosition (lat lon : Dbl) (cfg : Config) : Config :=
  { cfg with CLIENT_lat := lat, CLIENT_lon := lon }

/-- Function `Config_setNodeCoordinationRange` of configuration.c. -/
def Config_setNodeCoordinationRange (coord_range : Nat) (cfg : Config) : Config :=
  { cfg with CLIENT_coordRange := coord_range % 2 ^ 16 }

/-- Function `LocalIO_handleRequest`: the returned code, the configuration and the list of
subscribers. `strlen` of a path is the number of its bytes. -/
def LocalIO_handleRequest (junk : Subscriber) (lr : LocalRequest) (config : Config)
    (subs : SubscriberList) : Int × Config × SubscriberList :=
  if lr.type = SET_POSITION then
    (1, Config_setNodePosition lr.lat lr.lon config, subs)
  else if lr.type = SET_COORDINATION_RANGE then
    (1, Config_setNodeCoordinationRange lr.coord_range config, subs)
  else if lr.type = SET_POS_AND_RANGE then
    (1, Config_setNodeCoordinationRange lr.coord_range
      (Config_setNodePosition lr.lat lr.lon config), subs)
  else if lr.type = SUB_CANDNODES then
    let new_sub := Subscriber_new lr.sock_addr (lr.sock_addr.length + 1)
    (1, config, (SubscriberList_addSub junk subs new_sub).2)
  else if lr.type = UNSUB_CANDNODES then
    (1, config, (SubscriberList_removeSub junk subs
      (Subscriber_new lr.sock_addr lr.sock_addr.length)).2)
  else (0, config, subs)

/-- One call of `sendto` on a local socket: the path of the destination, the buffer and
the size. -/
structure LocalSend where
  path : CString
  data : Option (List Nat)
  data_size : Nat
deriving DecidableEq, Repr

/-- The collection that `LocalIO_sendCandidateNodes` builds and packs. -/
def LocalIO_sendCandidateNodes_nc (junk : Node) (cn : NodeCollection) (ownNode : Node) :
    NodeCollection :=
  let nodes_to_send := NodeCollection_new junk P2PDPRD_VERSION_ID INTERNAL (cn.nodeCount + 1)
  let nodes_to_send :=
    { nodes_to_send with nodes := nodes_to_send.nodes.set 0 ownNode, nodeCount := 1 }
  NodeCollection_append junk nodes_to_send cn ownNode.nodeID

/-- The size of the array `sun_path` of `struct sockaddr_un` (sys/un.h). -/
def UNIX_PATH_MAX : Nat := 108

/-- The loop of `LocalIO_sendCandidateNodes` over the subscriber indices that remain: the calls
of `sendto` made, `none` when the behaviour is undefined. Each iteration first copies the
stored path into the local `addr.sun_path` with `strcpy`; a path that does not fit with its
terminator into the `UNIX_PATH_MAX` bytes is written past the array. `sockOk i` tells whether
the call of `socket` succeeds for subscriber `i`; the loop ends at the first failure. -/
def sendCandidateLoop (junkSub : Subscriber) (sockOk : Nat → Bool) (subs : SubscriberList)
    (data : Option (List Nat)) (data_size : Nat) : List Nat → Option (List LocalSend)
  | [] => some []
  | i :: rest =>
    if (subs.subscribers.getD i junkSub).socket_address.length + 1 ≤ UNIX_PATH_MAX then
      if sockOk i then
        (sendCandidateLoop junkSub sockOk subs data data_size rest).map (fun sends =>
          { path := (subs.subscribers.getD i junkSub).socket_address
            data := data, data_size := data_size } :: sends)
      else some []
    else none

/-- Function `LocalIO_sendCandidateNodes`: the calls of `sendto` it makes, `none` when a stored
path overflows `addr.sun_path`. The collection is packed once, before the loop. -/
def LocalIO_sendCandidateNodes (enc754 : Dbl → Nat) (junk : Node) (junkSub : Subscriber)
    (sockOk : Nat → Bool) (cn : NodeCollection) (subs : SubscriberList) (ownNode : Node) :
    Option (List LocalSend) :=
  let packed := NodeCollection_pack enc754 junk (LocalIO_sendCandidateNodes_nc junk cn ownNode)
  sendCandidateLoop junkSub sockOk subs packed.1 packed.2 (List.range subs.num_subs)

/-! ## utilities.c: the distance, with real arithmetic -/

/-- The constant `R` of utilities.h, in metres. -/
noncomputable def R : ℝ := 6371008.7714

/-- The constant `TO_RAD` of utilities.h. -/
noncomputable def TO_RAD : ℝ := 3.1415926536 / 180

/-- Function `geo_distance_meters` with the operations of math.h taken as the real
functions. -/
noncomputable def geo_distance_meters (th1 ph1 th2 ph2 : ℝ) : ℝ :=
  let ph1 := ph1 - ph2
  let ph1 := ph1 * TO_RAD
  let th1 := th1 * TO_RAD
  let th2 := th2 * TO_RAD
  let dz := Real.sin th1 - Real.sin th2
  let dx := Real.cos ph1 * Real.cos th1 - Real.cos th2
  let dy := Real.sin ph1 * Real.cos th1
  Real.arcsin (Real.sqrt (dx * dx + dy * dy + dz * dz) / 2) * 2 * R

/-- Function `Node_utility` with real arithmetic and the distance `geo_distance_meters`. -/
noncomputable def Node_utility_real (a b : Node) : ℝ :=
  let ab_dist_sqrd := (geo_distance_meters a.lat a.lon b.lat b.lon) ^ 2
  let ab_cr_sqrd := (((a.coordRange + b.coordRange : Nat) : ℝ)) ^ 2
  if ab_dist_sqrd ≠ 0 then ab_cr_sqrd / ab_dist_sqrd else ((DBL_MAX : Dbl) : ℝ)

/-! ## upack.c: the IEEE-754 codec -/

/-- Conversion of a `double` to `int64_t`: the fraction is discarded. -/
def toInt64 (x : Dbl) : Int := x.num.tdiv x.den

/-- The 64-bit pattern of an `int64_t` value, in two's complement. -/
def bits64 (x : Int) : Nat := (x % 2 ^ 64).toNat

/-- The loop `while(fnorm >= 2.0) { fnorm /= 2.0; shift++; }` of `enc754`, for at most `fuel`
iterations. -/
def enc754_down : Nat → Dbl → Int → Dbl × Int
  | 0, fnorm, shift => (fnorm, shift)
  | fuel + 1, fnorm, shift =>
    if fnorm ≥ 2 then enc754_down fuel (fnorm / 2) (shift + 1) else (fnorm, shift)

/-- The loop `while(fnorm < 1.0) { fnorm *= 2.0; shift--; }` of `enc754`, for at most `fuel`
iterations. -/
def enc754_up : Nat → Dbl → Int → Dbl × Int
  | 0, fnorm, shift => (fnorm, shift)
  | fuel + 1, fnorm, shift =>
    if fnorm < 1 then enc754_up fuel (fnorm * 2) (shift - 1) else (fnorm, shift)

/-- Function `enc754` in exact arithmetic, each loop bounded by `fuel`. The shifts of the
`int64_t` values are taken in two's complement, and the result is the 64-bit pattern. The
factor `(1LL<<52) + 0.5f` is taken as 2^52 + 1/2; on a fraction of 52 bits the truncated
product is the same integer as with the factor rounded to 2^52. -/
def enc754 (fuel : Nat) (f : Dbl) : Nat :=
  if f = 0 then 0
  else
    let sign : Int := if f < 0 then 1 else 0
    let fnorm : Dbl := if f < 0 then -f else f
    let st := enc754_down fuel fnorm 0
    let st := enc754_up fuel st.1 st.2
    let fnorm := st.1 - 1
    let significand : Int := toInt64 (fnorm * (2 ^ 52 + 1 / 2))
    let exp : Int := st.2 + (2 ^ 10 - 1)
    bits64 (sign * 2 ^ 63) ||| bits64 (exp * 2 ^ 52) ||| bits64 significand

/-- Function `dec754` in exact arithmetic. Each loop runs `|shift|` times. -/
def dec754 (i : Nat) : Dbl :=
  if i = 0 then 0
  else
    let result : Dbl := ((i &&& (2 ^ 52 - 1) : Nat) : Dbl)
    let result := result / 2 ^ 52
    let result := result + 1
    let bias : Int := 2 ^ (11 - 1) - 1
    let shift : Int := (((i >>> 52) &&& (2 ^ 11 - 1) : Nat) : Int) - bias
    let result := (List.range shift.toNat).foldl (fun r _ => r * 2) result
    let result := (List.range (-shift).toNat).foldl (fun r _ => r / 2) result
    result * (if (i >>> 63) &&& 1 ≠ 0 then -1 else 1)

/-! ## serialize.c: local requests, and their dispatch in p2p-dprd.c -/

/-- The macro `LOCAL_ADDR_MAX_LENGTH` of io.h. -/
def LOCAL_ADDR_MAX_LENGTH : Nat := 512

/-- The call `snprintf(dst, LOCAL_ADDR_MAX_LENGTH, "%s", buff + o)`: the bytes stored before
the terminator, which are the bytes of the C string at `buff + o`, cut after
`LOCAL_ADDR_MAX_LENGTH - 1` of them. -/
def snprintf_s (buff : Nat → Nat) (o : Nat) : CString :=
  ((List.range (LOCAL_ADDR_MAX_LENGTH - 1)).map (fun i => rd buff (o + i))).takeWhile
    (fun c => c ≠ 0)

/-- Function `LocalRequest_unpack` for a buffer that is not NULL; `none` is the NULL result.
The request starts as `LocalRequest_new(-1, 0, 0, 0, " ")` and its type is overwritten at
once by the first byte; the comparison of the offset with `buff_size` only prints. -/
def LocalRequest_unpack (dec754 : Nat → Dbl) (buff : Nat → Nat) (buff_size : Int) :
    Option LocalRequest :=
  if buff_size > 0 then
    let lr : LocalRequest :=
      { type := unpacku8 buff 0, lat := 0, lon := 0, coord_range := 0, sock_addr := [32] }
    if lr.type = SET_POSITION then
      some { lr with lat := unpackdouble dec754 buff 1, lon := unpackdouble dec754 buff 9 }
    else if lr.type = SET_COORDINATION_RANGE then
      some { lr with coord_range := unpacku16 buff 1 }
    else if lr.type = SET_POS_AND_RANGE then
      none
    else if lr.type = SUB_CANDNODES then
      some { lr with sock_addr := snprintf_s buff 1 }
    else if lr.type = UNSUB_CANDNODES then
      some { lr with sock_addr := snprintf_s buff 1 }
    else some lr
  else none

/-- The request that the main loop of p2p-dprd.c passes to `LocalIO_handleRequest` after
`recv` on the local socket has filled `local_sock_buf` and returned `bytes`; `none` when
the handler is not called. -/
def main_localRequest (dec754 : Nat → Dbl) (local_sock_buf : Nat → Nat) (bytes : Int) :
    Option LocalRequest :=
  if bytes < 0 then none
  else if bytes > 0 then LocalRequest_unpack dec754 local_sock_buf bytes
  else none

/-- The branch of the main loop of p2p-dprd.c that serves the local socket: the
configuration and the subscribers afterwards. -/
def main_local (dec754 : Nat → Dbl) (junk : Subscriber) (local_sock_buf : Nat → Nat)
    (bytes : Int) (config : Config) (subs : SubscriberList) : Config × SubscriberList :=
  match main_localRequest dec754 local_sock_buf bytes with
  | some lr => (LocalIO_handleRequest junk lr config subs).2
  | none => (config, subs)

/-! ## Auxiliary notions and example values used in the statements -/

/-- The 38 bytes that one iteration of the loop of `NodeCollection_pack` writes. -/
def nodeBytes (enc754 : Dbl → Nat) (n : Node) : List Nat :=
  pack32 n.nodeID ++ packdouble enc754 n.lat ++ packdouble enc754 n.lon ++
    pack16 n.coordRange ++ pack32 n.ipAddr ++ pack16 n.port ++ pack32 n.radac_ip ++
    pack16 n.radac_port ++ pack32 n.timeStamp

/-- A node with the given ID and time stamp and every other field zero. -/
def exNode (nodeID timeStamp : Nat) : Node :=
  { nodeID := nodeID, lat := 0, lon := 0, coordRange := 0, ipAddr := 0, port := 0
    timeStamp := timeStamp, radac_ip := 0, radac_port := 0, utility := 0 }

/-- A configuration with the constants of the end-to-end scenarios: client 100, range 10,
N = 10, M = 30, K = 15, maximal age 10800. -/
def exConfig : Config :=
  { NETWORK_originPeerIP := 167772161, NETWORK_originPeerPort := 5000
    NETWORK_ownIP := 167772162, NETWORK_port := 5000
    CLIENT_id := 100, CLIENT_lat := 59, CLIENT_lon := 10, CLIENT_coordRange := 10
    PROTO_nodeMaxAge := 10800, PROTO_N := 10, PROTO_M := 30, PROTO_K := 15
    RADAC_ip := 0, RADAC_port := 0 }

/-- An instance of the open functions: the stable sort, a double codec that truncates to an
integer, a distance that is the difference of the latitudes, zeroed filler. -/
def exEnv : Env :=
  { q := stableQsort
    enc754 := fun d => d.num.toNat
    dec754 := fun i => (i : Dbl)
    geo := fun a _ b _ => a - b
    junk := exNode 0 0 }

/-- A two-node collection of type RND_REQ. -/
def exCollection : NodeCollection :=
  { versionID := 1, payloadType := 1, nodeCount := 2, maxNodeCount := 2
    nodes := [exNode 9 2000, exNode 7 1000] }

/-- Five entries stamped 11000 seconds before time 20000 and one stamped 1000 seconds before
it, in an array of eight slots. -/
def exStale : NodeCollection :=
  { versionID := 1, payloadType := 4, nodeCount := 6, maxNodeCount := 8
    nodes := [exNode 1 9000, exNode 2 9000, exNode 6 19000, exNode 3 9000, exNode 4 9000,
      exNode 5 9000, exNode 0 0, exNode 0 0] }

/-- A random list of capacity 20 that holds the given entries. -/
def exRandomList (entries : List Node) : NodeCollection :=
  { versionID := 1, payloadType := 4, nodeCount := entries.length, maxNodeCount := 20
    nodes := entries ++ List.replicate (20 - entries.length) (exNode 0 0) }

/-- A received collection of the given type that holds exactly the given entries. -/
def exPayload (type : Nat) (entries : List Node) : NodeCollection :=
  { versionID := 1, payloadType := type, nodeCount := entries.length
    maxNodeCount := entries.length, nodes := entries }

/-- A remote peer's own node: ID 7, address 10.0.0.3 port 5001, stamped 2000. -/
def exPeer : Node :=
  { nodeID := 7, lat := 0, lon := 0, coordRange := 10, ipAddr := 167772163, port := 5001
    timeStamp := 2000, radac_ip := 0, radac_port := 0, utility := 0 }

/-- The datagram in which the peer sends its own node with type RND_REQ. -/
def exBuffer : Nat → Nat :=
  bufOf ((NodeCollection_pack exEnv.enc754 exEnv.junk (exPayload 1 [exPeer])).1.getD [])

/-- A state whose random list holds one entry and whose important list is empty. -/
def exState : State :=
  { randomNodes := exRandomList [exNode 9 1000], importantNodes := exRandomList [] }

/-- Every live nodeID of `a` is 0 or a live nodeID of `b`. -/
def IdsWithin (a b : NodeCollection) : Prop :=
  ∀ n ∈ live a, n.nodeID = 0 ∨ ∃ m ∈ live b, m.nodeID = n.nodeID

/-- No live entry carries the given ID. -/
def NoId (id : Nat) (nc : NodeCollection) : Prop :=
  ∀ n ∈ live nc, n.nodeID ≠ id

/-- What one event preserves: both lists stay well formed, the capacity of the random list
is unchanged, the capacity of the important list stays within 10000, and no live entry with
the client's ID appears. -/
def Keeps (cfg : Config) (s s' : State) : Prop :=
  s'.randomNodes.WF ∧ s'.importantNodes.WF ∧
  s'.randomNodes.maxNodeCount = s.randomNodes.maxNodeCount ∧
  (s.importantNodes.maxNodeCount ≤ 10000 → s'.importantNodes.maxNodeCount ≤ 10000) ∧
  (cfg.CLIENT_id ≠ 0 → NoId cfg.CLIENT_id s.randomNodes → NoId cfg.CLIENT_id s.importantNodes →
    NoId cfg.CLIENT_id s'.randomNodes ∧ NoId cfg.CLIENT_id s'.importantNodes)

/-- A short run: the example datagram arrives at time 3000, then a tick at time 3010. -/
def exEvents : List Event :=
  [Event.receive exBuffer 43 3000, Event.timeout 3010 (fun _ => 0) (fun _ => 0)]

/-- A full list of 25 subscribers with the paths "/s0", "/s1", .. (the last byte counts up
from the digit 0). -/
def exFullSubs : SubscriberList :=
  { subscribers := (List.range 25).map (fun i => ({ socket_address := [47, 115, 48 + i]
                                                    address_length := 4 } : Subscriber))
    num_subs := 25, max_num_subs := 25 }

/-- A list with room for 25 subscribers that holds "/a", "/b", "/c" (bytes 47 97, 47 98, 47 99). -/
def exSubs : SubscriberList :=
  { subscribers := [⟨[47, 97], 3⟩, ⟨[47, 98], 3⟩, ⟨[47, 99], 3⟩] ++
      List.replicate 22 (⟨[], 0⟩ : Subscriber)
    num_subs := 3, max_num_subs := 25 }

/-- The configuration and the subscribers after a sequence of local requests handled by
`LocalIO_handleRequest`. -/
def runLocal (junk : Subscriber) (config : Config) (subs : SubscriberList)
    (reqs : List LocalRequest) : Config × SubscriberList :=
  reqs.foldl (fun st lr => (LocalIO_handleRequest junk lr st.1 st.2).2) (config, subs)

/-- The invariant of the list of subscribers: 25 slots, capacity 25, no path stored twice,
and every stored length is the one `LocalIO_handleRequest` computes for its path. -/
def SubsInv (subs : SubscriberList) : Prop :=
  subs.subscribers.length = 25 ∧ subs.max_num_subs = 25 ∧ subs.num_subs ≤ 25 ∧
  ((stored subs).map (fun s => s.socket_address)).Nodup ∧
  ∀ s ∈ stored subs, s.address_length = (s.socket_address.length + 1) % 2 ^ 32

/-- Twenty-five requests `SUB_CANDNODES` for the paths "/s0", "/s1", .. -/
def exSubRequests : List LocalRequest :=
  (List.range 25).map (fun i =>
    ({ type := SUB_CANDNODES, lat := 0, lon := 0, coord_range := 0
       sock_addr := [47, 115, 48 + i] } : LocalRequest))

/-- Three candidate nodes with the IDs 9, 7 and 5. -/
def exCandidates : NodeCollection :=
  exPayload 4 [exNode 9 2000, exNode 7 1000, exNode 5 1500]

/-- A candidate collection whose only entry has nodeID 0. -/
def exCandidatesZero : NodeCollection :=
  exPayload 4 [exNode 0 1000]

/-- A datagram of five bytes: version 1, type RND_NOREQ, nodeCount 0. -/
def exEmptyBuffer : Nat → Nat :=
  bufOf [0, 1, 0, 0, 0]

/-- Every live nodeID of `a` is 0 or a live nodeID of `b` or of `c`. -/
def IdsWithin2 (a b c : NodeCollection) : Prop :=
  ∀ n ∈ live a, n.nodeID = 0 ∨ (∃ m ∈ live b, m.nodeID = n.nodeID) ∨
    ∃ m ∈ live c, m.nodeID = n.nodeID

/-- A received collection of type RND_NOREQ whose only entry has nodeID 0. -/
def exZeroBuffer : Nat → Nat :=
  bufOf ((NodeCollection_pack exEnv.enc754 exEnv.junk (exPayload 0 [exNode 0 2000])).1.getD [])

/-- A node with ID 7 at the position of the example client (latitude 59, longitude 10). -/
def exPeerHere : Node :=
  { nodeID := 7, lat := 59, lon := 10, coordRange := 10, ipAddr := 167772163, port := 5001
    timeStamp := 2000, radac_ip := 0, radac_port := 0, utility := 0 }

/-- The datagram in which that node arrives with type IMP_NOREQ. -/
def exHereBuffer : Nat → Nat :=
  bufOf ((NodeCollection_pack exEnv.enc754 exEnv.junk (exPayload 2 [exPeerHere])).1.getD [])

/-- The value of the normal double with sign bit `sgn`, biased exponent `e` and fraction
bits `m`: plus or minus (2^52 + m) * 2^(e - 1075). -/
def normalDouble (sgn e m : Nat) : Dbl :=
  (if sgn = 0 then 1 else -1) * (((2 ^ 52 + m : Nat) : Dbl) * 2 ^ e / 2 ^ 1075)

/-- Three entries with the utilities 2, 0 and 1. -/
def exUtilities : NodeCollection :=
  exPayload 4 [{ exNode 9 2000 with utility := 2 }, { exNode 7 1000 with utility := 0 },
    { exNode 5 1500 with utility := 1 }]

/-- An important list of capacity 20 with the three entries 9, 7, 5 at the latitudes 3, 1
and 2. -/
def exImportant : NodeCollection :=
  exRandomList [{ exNode 9 2000 with lat := 3, coordRange := 1 },
    { exNode 7 1000 with lat := 1, coordRange := 1 },
    { exNode 5 1500 with lat := 2, coordRange := 1 }]

/-- The nodeIDs that the loop of `NodeCollection_removeDuplicateNodes` leaves, given the
nodeIDs before it: an ID equal to its successor is replaced by 0. -/
def markDup : List Nat → List Nat
  | [] => []
  | [a] => [a]
  | a :: b :: t => (if a = b then 0 else a) :: markDup (b :: t)

/-- The number of positions whose nodeID equals its successor: the number of times the loop
of `NodeCollection_removeDuplicateNodes` decrements `newNodeCount`. -/
def countDup : List Nat → Nat
  | [] => 0
  | [_] => 0
  | a :: b :: t => (if a = b then 1 else 0) + countDup (b :: t)

/-- A collection with the nodeIDs 9, 7, 9, 0, 7 in an array of six slots. -/
def exDuplicates : NodeCollection :=
  { versionID := 1, payloadType := 4, nodeCount := 5, maxNodeCount := 6
    nodes := [exNode 9 2000, exNode 7 1000, exNode 9 1000, exNode 0 500, exNode 7 3000,
      exNode 0 0] }

/-- The datagram in which the peer sends its own node with type INTERNAL. -/
def exInternalBuffer : Nat → Nat :=
  bufOf ((NodeCollection_pack exEnv.enc754 exEnv.junk (exPayload 4 [exPeer])).1.getD [])

/-- The request that `LocalRequest_unpack` builds before it reads anything but the tag. -/
def blankRequest (type : Nat) : LocalRequest :=
  { type := type, lat := 0, lon := 0, coord_range := 0, sock_addr := [32] }

/-- A deprecated request with position (1, 2) and range 3. -/
def exPosAndRange : LocalRequest :=
  { type := 2, lat := 1, lon := 2, coord_range := 3, sock_addr := [32] }

/-- A node at latitude 5 with coordination range 10 (the example peer is at latitude 0
with range 10). -/
def exNear : Node :=
  { nodeID := 8, lat := 5, lon := 0, coordRange := 10, ipAddr := 167772164, port := 5002
    timeStamp := 2000, radac_ip := 0, radac_port := 0, utility := 0 }

/-- The random list inside `Protocol_updateRandomNodes` right before the final call of
`NodeCollection_removeExcessNodes`: appended, de-duplicated and sorted by time stamp. -/
def updateRandomNodes_sorted (q : Qsort) (cfg : Config) (junk : Node)
    (nc rn : NodeCollection) : NodeCollection :=
  NodeCollection_sortByTimeStamp q (NodeCollection_removeDuplicateNodes q junk
    (NodeCollection_append junk rn nc cfg.CLIENT_id))

/-- The important list inside `Protocol_updateImportantNodes` right after the call of
`NodeCollection_sortByUtility`: appended, de-duplicated and sorted by utility. -/
def updateImportantNodes_sorted (q : Qsort) (geo : Dbl → Dbl → Dbl → Dbl → Dbl)
    (cfg : Config) (junk : Node) (now : Nat) (nc inl : NodeCollection) : NodeCollection :=
  NodeCollection_sortByUtility q (NodeCollection_removeDuplicateNodes q junk
    (NodeCollection_append junk inl
      (NodeCollection_calculateUtility geo junk nc
        (Node_new cfg.CLIENT_id cfg.CLIENT_lat cfg.CLIENT_lon cfg.CLIENT_coordRange
          0 0 0 0 now))
      cfg.CLIENT_id))

/-- A random list of capacity 4 that holds the given entries. -/
def exSmallList (entries : List Node) : NodeCollection :=
  { versionID := 1, payloadType := 4, nodeCount := entries.length, maxNodeCount := 4
    nodes := entries ++ List.replicate (4 - entries.length) (exNode 0 0) }

/-- Every time stamp among the first nodeCount entries of `nc` satisfies `P`. -/
def Stamps (P : Nat → Prop) (nc : NodeCollection) : Prop :=
  ∀ n ∈ live nc, P n.timeStamp

/-- The datagram of type RND_NOREQ in which a peer sends a node stamped 9999. -/
def exLateBuffer : Nat → Nat :=
  bufOf ((NodeCollection_pack exEnv.enc754 exEnv.junk
    (exPayload 0 [{ exPeer with timeStamp := 9999 }])).1.getD [])

/-- A list of 25 slots whose only subscriber has a path of 108 bytes ("/" followed by 107
times "a"), as a request SUB_CANDNODES stores it. -/
def exLongPathSubs : SubscriberList :=
  { subscribers := [⟨47 :: List.replicate 107 97, 109⟩] ++
      List.replicate 24 (⟨[], 0⟩ : Subscriber)
    num_subs := 1, max_num_subs := 25 }

/-- Two entries with nodeID 9, both stamped 1000, and one with nodeID 7. -/
def exTwins : NodeCollection :=
  exPayload 4 [exNode 9 1000, exNode 9 1000, exNode 7 500]

/-! ## Codec lemmas -/

theorem lor_eq_add (A i b : Nat) (h : b < 2 ^ i) : (2 ^ i * A) ||| b = 2 ^ i * A + b :=
  (Nat.mul_add_lt_is_or h A).symm

theorem be16 (a b : Nat) (hb : b < 256) : (a <<< 8) ||| b = a * 256 + b := by
  rw [Nat.shiftLeft_eq]
  have := lor_eq_add a 8 b (by omega)
  norm_num at this ⊢
  rw [Nat.mul_comm a 256, this]

theorem be32 (a b c d : Nat) (hb : b < 256) (hc : c < 256) (hd : d < 256) :
    (a <<< 24) ||| (b <<< 16) ||| (c <<< 8) ||| d = a * 16777216 + b * 65536 + c * 256 + d := by
  simp only [Nat.shiftLeft_eq]
  have h1 := lor_eq_add a 24 (b * 2 ^ 16) (by omega)
  have h2 := lor_eq_add (a * 256 + b) 16 (c * 2 ^ 8) (by omega)
  have h3 := lor_eq_add (a * 65536 + b * 256 + c) 8 d (by omega)
  norm_num at h1 h2 h3 ⊢
  have e1 : a * 16777216 = 16777216 * a := by omega
  rw [e1, h1]
  have e2 : 16777216 * a + b * 65536 = 65536 * (a * 256 + b) := by omega
  rw [e2, h2]
  have e3 : 65536 * (a * 256 + b) + c * 256 = 256 * (a * 65536 + b * 256 + c) := by omega
  rw [e3, h3]

theorem unpacku16_of_bytes (buf : Nat → Nat) (o x : Nat) (hx : x < 2 ^ 16)
    (h0 : buf o = (x >>> 8) % 256) (h1 : buf (o + 1) = x % 256) : unpacku16 buf o = x := by
  unfold unpacku16 rd
  rw [be16 _ _ (Nat.mod_lt _ (by norm_num)), h0, h1, Nat.shiftRight_eq_div_pow]
  omega

theorem unpacku32_of_bytes (buf : Nat → Nat) (o x : Nat) (hx : x < 2 ^ 32)
    (h0 : buf o = (x >>> 24) % 256) (h1 : buf (o + 1) = (x >>> 16) % 256)
    (h2 : buf (o + 2) = (x >>> 8) % 256) (h3 : buf (o + 3) = x % 256) :
    unpacku32 buf o = x := by
  unfold unpacku32 rd
  rw [be32 _ _ _ _ (Nat.mod_lt _ (by norm_num)) (Nat.mod_lt _ (by norm_num))
    (Nat.mod_lt _ (by norm_num)), h0, h1, h2, h3]
  simp only [Nat.shiftRight_eq_div_pow]
  omega

theorem unpacku16_lt (buf : Nat → Nat) (o : Nat) : unpacku16 buf o < 65536 := by
  unfold unpacku16
  exact Nat.mod_lt _ (by norm_num)

theorem nodeBytes_length (enc754 : Dbl → Nat) (n : Node) : (nodeBytes enc754 n).length = 38 := by
  simp [nodeBytes, pack32, pack16, packdouble, pack64]

theorem packNodeStep_eq (enc754 : Dbl → Nat) (junk : Node) (nc : NodeCollection)
    (st : List Nat × Nat) (i : Nat) :
    packNodeStep enc754 junk nc st i =
      (st.1 ++ nodeBytes enc754 (nodeAt junk nc i), st.2 + 38) := by
  simp [packNodeStep, nodeBytes, List.append_assoc, Nat.add_assoc]

theorem pack_fold (enc754 : Dbl → Nat) (junk : Node) (nc : NodeCollection) (k : Nat)
    (st : List Nat × Nat) :
    (List.range k).foldl (packNodeStep enc754 junk nc) st =
      (st.1 ++ (List.range k).flatMap (fun i => nodeBytes enc754 (nodeAt junk nc i)),
        st.2 + 38 * k) := by
  induction k with
  | zero => simp
  | succ k ih =>
    rw [List.range_succ, List.foldl_append, ih]
    simp [packNodeStep_eq, List.flatMap_append, List.append_assoc]
    omega

theorem flatMap_range_length (f : Nat → List Nat) (hlen : ∀ i, (f i).length = 38) (k : Nat) :
    ((List.range k).flatMap f).length = 38 * k := by
  induction k with
  | zero => simp
  | succ k ih =>
    rw [List.range_succ, List.flatMap_append, List.length_append, ih]
    simp [hlen]
    omega

theorem flatMap_range_get (f : Nat → List Nat) (hlen : ∀ i, (f i).length = 38) (k i j : Nat)
    (hi : i < k) (hj : j < 38) :
    ((List.range k).flatMap f)[38 * i + j]? = (f i)[j]? := by
  induction k with
  | zero => omega
  | succ k ih =>
    rw [List.range_succ, List.flatMap_append]
    by_cases h : i < k
    · rw [List.getElem?_append_left (by rw [flatMap_range_length f hlen]; omega)]
      exact ih h
    · have hik : i = k := by omega
      subst hik
      rw [List.getElem?_append_right (by rw [flatMap_range_length f hlen]; omega),
        flatMap_range_length f hlen]
      simp

theorem pack_eq (enc754 : Dbl → Nat) (junk : Node) (nc : NodeCollection) :
    NodeCollection_pack enc754 junk nc =
      (some (pack16 nc.versionID ++ pack8 nc.payloadType ++ pack16 nc.nodeCount ++
        (List.range nc.nodeCount).flatMap (fun i => nodeBytes enc754 (nodeAt junk nc i))),
        5 + 38 * nc.nodeCount) := by
  have hv : NodeCollection_isValid (some nc) = true := by
    simp only [NodeCollection_isValid, decide_eq_true_eq]
    omega
  simp only [NodeCollection_pack, hv, if_true, pack_fold, List.nil_append]

theorem unpack_fold (dec754 : Nat → Dbl) (junk : Node) (buff : Nat → Nat)
    (nc0 : NodeCollection) (k : Nat) :
    ((List.range k).foldl (unpackNodeStep dec754 junk buff) (nc0, 5)).2 = 5 + 38 * k ∧
    ((List.range k).foldl (unpackNodeStep dec754 junk buff) (nc0, 5)).1.versionID
      = nc0.versionID ∧
    ((List.range k).foldl (unpackNodeStep dec754 junk buff) (nc0, 5)).1.payloadType
      = nc0.payloadType ∧
    ((List.range k).foldl (unpackNodeStep dec754 junk buff) (nc0, 5)).1.nodeCount
      = nc0.nodeCount ∧
    ((List.range k).foldl (unpackNodeStep dec754 junk buff) (nc0, 5)).1.maxNodeCount
      = nc0.maxNodeCount ∧
    ((List.range k).foldl (unpackNodeStep dec754 junk buff) (nc0, 5)).1.nodes.length
      = nc0.nodes.length ∧
    (∀ i, i < k → i < nc0.nodes.length →
      ((List.range k).foldl (unpackNodeStep dec754 junk buff) (nc0, 5)).1.nodes[i]? =
        some (unpackNode dec754 buff (5 + 38 * i) (nodeAt junk nc0 i))) ∧
    (∀ i, k ≤ i →
      ((List.range k).foldl (unpackNodeStep dec754 junk buff) (nc0, 5)).1.nodes[i]? =
        nc0.nodes[i]?) := by
  induction k with
  | zero => simp
  | succ k ih =>
    obtain ⟨h2, hv, hp, hc, hm, hl, hlo, hhi⟩ := ih
    rw [List.range_succ, List.foldl_append]
    simp only [List.foldl_cons, List.foldl_nil]
    generalize (List.range k).foldl (unpackNodeStep dec754 junk buff) (nc0, 5) = st at *
    refine ⟨?_, hv, hp, hc, hm, ?_, ?_, ?_⟩
    · simp only [unpackNodeStep, h2]; omega
    · simp only [unpackNodeStep, List.length_set, hl]
    · intro i hi hil
      simp only [unpackNodeStep]
      by_cases hik : i = k
      · subst hik
        rw [List.getElem?_set_self (by omega)]
        have : nodeAt junk st.1 i = nodeAt junk nc0 i := by
          simp only [nodeAt, List.getD_eq_getElem?_getD, hhi i (Nat.le_refl i)]
        rw [this, h2]
      · rw [List.getElem?_set_ne (by omega)]
        exact hlo i (by omega) hil
    · intro i hi
      simp only [unpackNodeStep]
      rw [List.getElem?_set_ne (by omega)]
      exact hhi i (by omega)

theorem mem_at (mem : Nat → Nat) (i : Nat) (bytes : List Nat)
    (h : ∀ j, j < 38 → mem (5 + 38 * i + j) = bytes.getD j 0) (o j : Nat) (hj : o + j < 38) :
    mem (5 + 38 * i + o + j) = bytes.getD (o + j) 0 := by
  rw [Nat.add_assoc]
  exact h _ hj

theorem unpackNode_of_bytes (enc754 : Dbl → Nat) (dec754 : Nat → Dbl) (mem : Nat → Nat)
    (i : Nat) (n old : Node) (hn : n.InRange)
    (h : ∀ j, j < 38 → mem (5 + 38 * i + j) = (nodeBytes enc754 n).getD j 0) :
    (unpackNode dec754 mem (5 + 38 * i) old).nodeID = n.nodeID ∧
    (unpackNode dec754 mem (5 + 38 * i) old).coordRange = n.coordRange ∧
    (unpackNode dec754 mem (5 + 38 * i) old).ipAddr = n.ipAddr ∧
    (unpackNode dec754 mem (5 + 38 * i) old).port = n.port ∧
    (unpackNode dec754 mem (5 + 38 * i) old).radac_ip = n.radac_ip ∧
    (unpackNode dec754 mem (5 + 38 * i) old).radac_port = n.radac_port ∧
    (unpackNode dec754 mem (5 + 38 * i) old).timeStamp = n.timeStamp := by
  obtain ⟨h1, h2, h3, h4, h5, h6, h7⟩ := hn
  have m := mem_at mem i _ h
  refine ⟨?_, ?_, ?_, ?_, ?_, ?_, ?_⟩
  · exact unpacku32_of_bytes mem _ _ h1 (m 0 0 (by norm_num)) (m 0 1 (by norm_num))
      (m 0 2 (by norm_num)) (m 0 3 (by norm_num))
  · exact unpacku16_of_bytes mem _ _ h2 (m 20 0 (by norm_num)) (m 20 1 (by norm_num))
  · exact unpacku32_of_bytes mem _ _ h3 (m 22 0 (by norm_num)) (m 22 1 (by norm_num))
      (m 22 2 (by norm_num)) (m 22 3 (by norm_num))
  · exact unpacku16_of_bytes mem _ _ h4 (m 26 0 (by norm_num)) (m 26 1 (by norm_num))
  · exact unpacku32_of_bytes mem _ _ h5 (m 28 0 (by norm_num)) (m 28 1 (by norm_num))
      (m 28 2 (by norm_num)) (m 28 3 (by norm_num))
  · exact unpacku16_of_bytes mem _ _ h6 (m 32 0 (by norm_num)) (m 32 1 (by norm_num))
  · exact unpacku32_of_bytes mem _ _ h7 (m 34 0 (by norm_num)) (m 34 1 (by norm_num))
      (m 34 2 (by norm_num)) (m 34 3 (by norm_num))

/-! ## Codec theorems -/

/-- C1. For every collection with at most 1000 nodes, a payload type in 0..4 and fields that
fit their C types, unpacking the buffer and size that `NodeCollection_pack` produced (whatever
memory follows the buffer) gives a collection with the same versionID, payloadType and
nodeCount whose i-th node, for every i below nodeCount, has the nodeID, coordRange, ipAddr,
port, radac_ip, radac_port and timeStamp of the i-th node packed. -/
theorem C1_pack_unpack_roundtrip (enc754 : Dbl → Nat) (dec754 : Nat → Dbl) (junk : Node)
    (nc : NodeCollection) (hcount : nc.nodeCount ≤ 1000) (htype : nc.payloadType ≤ 4)
    (hver : nc.versionID < 65536) (hlen : nc.nodeCount ≤ nc.nodes.length)
    (hrange : ∀ n ∈ live nc, n.InRange) :
    ∃ buff, (NodeCollection_pack enc754 junk nc).1 = some buff ∧
      ∀ mem : Nat → Nat, (∀ i, i < buff.length → mem i = buff.getD i 0) →
      ∃ u, NodeCollection_unpack dec754 junk mem (NodeCollection_pack enc754 junk nc).2
          = some u ∧
        u.nc.versionID = nc.versionID ∧ u.nc.payloadType = nc.payloadType ∧
        u.nc.nodeCount = nc.nodeCount ∧
        ∀ i, i < nc.nodeCount → ∃ n m, nc.nodes[i]? = some n ∧ u.nc.nodes[i]? = some m ∧
          m.nodeID = n.nodeID ∧ m.coordRange = n.coordRange ∧ m.ipAddr = n.ipAddr ∧
          m.port = n.port ∧ m.radac_ip = n.radac_ip ∧ m.radac_port = n.radac_port ∧
          m.timeStamp = n.timeStamp := by
  rw [pack_eq]
  refine ⟨_, rfl, ?_⟩
  intro mem hmem
  have hblen : (pack16 nc.versionID ++ pack8 nc.payloadType ++ pack16 nc.nodeCount ++
      (List.range nc.nodeCount).flatMap (fun i => nodeBytes enc754 (nodeAt junk nc i))).length
      = 5 + 38 * nc.nodeCount := by
    rw [List.length_append, flatMap_range_length _ (fun i => nodeBytes_length enc754 _)]
    simp [pack16, pack8]
  rw [hblen] at hmem
  -- the header bytes
  have hh : ∀ j, j < 5 → mem j =
      (pack16 nc.versionID ++ pack8 nc.payloadType ++ pack16 nc.nodeCount).getD j 0 := by
    intro j hj
    rw [hmem j (by omega), List.getD_eq_getElem?_getD, List.getD_eq_getElem?_getD,
      List.getElem?_append_left (by simp [pack16, pack8]; omega)]
  -- the bytes of node i
  have hb : ∀ i, i < nc.nodeCount → ∀ j, j < 38 →
      mem (5 + 38 * i + j) = (nodeBytes enc754 (nodeAt junk nc i)).getD j 0 := by
    intro i hi j hj
    rw [hmem _ (by omega), List.getD_eq_getElem?_getD, List.getD_eq_getElem?_getD,
      List.getElem?_append_right (by simp [pack16, pack8]; omega)]
    have e : 5 + 38 * i + j -
        (pack16 nc.versionID ++ pack8 nc.payloadType ++ pack16 nc.nodeCount).length
        = 38 * i + j := by
      simp [pack16, pack8]; omega
    rw [e, flatMap_range_get _ (fun i => nodeBytes_length enc754 _) _ _ _ hi hj]
  have hv : unpacku16 mem 0 = nc.versionID :=
    unpacku16_of_bytes mem 0 _ hver (hh 0 (by norm_num)) (hh 1 (by norm_num))
  have hc : unpacku16 mem 3 = nc.nodeCount :=
    unpacku16_of_bytes mem 3 _ (by omega) (hh 3 (by norm_num)) (hh 4 (by norm_num))
  have ht : unpacku8 mem 2 = nc.payloadType := by
    have := hh 2 (by norm_num)
    simp only [unpacku8, rd, this]
    simp [pack16, pack8]
    omega
  have hpos : ((5 + 38 * nc.nodeCount : Nat) : Int) > 0 := by omega
  simp only [NodeCollection_unpack, hpos, if_true, hv, hc, ht]
  obtain ⟨-, f1, f2, f3, -, f5, f6, -⟩ := unpack_fold dec754 junk mem
    { NodeCollection_new junk nc.versionID nc.payloadType nc.nodeCount with
      nodeCount := nc.nodeCount } nc.nodeCount
  refine ⟨_, rfl, ?_, ?_, ?_, ?_⟩
  · rw [f1]; simp [NodeCollection_new]; omega
  · rw [f2]; simp [NodeCollection_new]
  · rw [f3]
  · intro i hi
    have hnew : (NodeCollection_new junk nc.versionID nc.payloadType nc.nodeCount).nodes.length
        = nc.nodeCount := by
      simp [NodeCollection_new]; omega
    have hget : nc.nodes[i]? = some (nodeAt junk nc i) := by
      simp only [nodeAt, List.getD_eq_getElem?_getD]
      rw [List.getElem?_eq_getElem (by omega)]
      simp
    have hin : (nodeAt junk nc i).InRange := by
      apply hrange
      rw [live, List.mem_iff_getElem?]
      exact ⟨i, by rw [List.getElem?_take_of_lt hi]; exact hget⟩
    refine ⟨_, _, hget, f6 i hi (by simpa [hnew] using hi), ?_⟩
    exact unpackNode_of_bytes enc754 dec754 mem i _ _ hin (hb i hi)

/-- C1 (witness). The two-node example collection meets the hypotheses of the round trip and
is recovered from its packed bytes. -/
theorem C1_pack_unpack_roundtrip_witness :
    ∃ buff, (NodeCollection_pack exEnv.enc754 exEnv.junk exCollection).1 = some buff ∧
      ∀ mem : Nat → Nat, (∀ i, i < buff.length → mem i = buff.getD i 0) →
      ∃ u, NodeCollection_unpack exEnv.dec754 exEnv.junk mem
          (NodeCollection_pack exEnv.enc754 exEnv.junk exCollection).2 = some u ∧
        u.nc.versionID = exCollection.versionID ∧
        u.nc.payloadType = exCollection.payloadType ∧
        u.nc.nodeCount = exCollection.nodeCount ∧
        ∀ i, i < exCollection.nodeCount → ∃ n m, exCollection.nodes[i]? = some n ∧
          u.nc.nodes[i]? = some m ∧
          m.nodeID = n.nodeID ∧ m.coordRange = n.coordRange ∧ m.ipAddr = n.ipAddr ∧
          m.port = n.port ∧ m.radac_ip = n.radac_ip ∧ m.radac_port = n.radac_port ∧
          m.timeStamp = n.timeStamp :=
  C1_pack_unpack_roundtrip exEnv.enc754 exEnv.dec754 exEnv.junk exCollection
    (by decide) (by decide) (by decide) (by decide) (by decide)

/-- C2 (counterexample). The one-node collection that `Protocol_bootstrap` builds packs into
43 bytes, not into 5 + 42 * 1 = 47. -/
theorem C2_wire_size_counterexample :
    (NodeCollection_pack exEnv.enc754 exEnv.junk
        (Protocol_bootstrap_nc exConfig exEnv.junk 1000)).2 = 43 ∧
    (NodeCollection_pack exEnv.enc754 exEnv.junk
        (Protocol_bootstrap_nc exConfig exEnv.junk 1000)).2 ≠
      5 + 42 * (Protocol_bootstrap_nc exConfig exEnv.junk 1000).nodeCount := by
  rw [pack_eq]
  decide

/-- C2 (amended). For every collection the size reported by `NodeCollection_pack` is
5 + 38 * nodeCount, which is also the length of the buffer; the one-node bootstrap payload is
handed to `IO_sendBytes` with size 43. -/
theorem C2_wire_size (enc754 : Dbl → Nat) (junk : Node) (nc : NodeCollection) (cfg : Config)
    (now ip port : Nat) :
    (NodeCollection_pack enc754 junk nc).2 = 5 + 38 * nc.nodeCount ∧
    (∃ buff, (NodeCollection_pack enc754 junk nc).1 = some buff ∧
      buff.length = 5 + 38 * nc.nodeCount) ∧
    (Protocol_bootstrap enc754 cfg junk now ip port).map (fun c => c.buff_size) = [43] := by
  refine ⟨by rw [pack_eq], ⟨_, by rw [pack_eq], ?_⟩, ?_⟩
  · rw [List.length_append, flatMap_range_length _ (fun i => nodeBytes_length enc754 _)]
    simp [pack16, pack8]
  · simp [Protocol_bootstrap, NodeCollection_sendToPeer, pack_eq, Protocol_bootstrap_nc]

/-- The only guard of `NodeCollection_unpack` is on the sign of `size`: it returns no
collection exactly when the size is not positive; for every positive size it returns a
collection with the node count declared at offsets 3 and 4 after reading the offsets below
5 + 38 * nodeCount, whether or not they lie below `size`. -/
theorem unpack_extent (dec754 : Nat → Dbl) (junk : Node) (buff : Nat → Nat) (size : Int) :
    (NodeCollection_unpack dec754 junk buff size = none ↔ size ≤ 0) ∧
    (NodeCollection_unpack dec754 junk buff size).map (fun u => (u.nc.nodeCount, u.num, u.o)) =
      if size > 0 then
        some (unpacku16 buff 3, unpacku16 buff 3, 5 + 38 * unpacku16 buff 3)
      else none := by
  by_cases h : size > 0
  · obtain ⟨f0, -, -, f3, -, -, -, -⟩ := unpack_fold dec754 junk buff
      { NodeCollection_new junk (unpacku16 buff 0) (unpacku8 buff 2) (unpacku16 buff 3) with
        nodeCount := unpacku16 buff 3 } (unpacku16 buff 3)
    simp only [NodeCollection_unpack, h, if_true, Option.map_some', f0, f3]
    constructor
    · constructor
      · intro hh; cases hh
      · intro hh; omega
    · trivial
  · simp only [NodeCollection_unpack, h, if_false, Option.map_none']
    constructor
    · constructor
      · intro _; omega
      · intro _; trivial
    · trivial

/-- C7. `NodeCollection_unpack` compares neither the header length nor the declared
nodeCount with `size`. A 3-byte datagram is not rejected: a collection is returned after
reading 5 bytes. A 5-byte datagram that declares two nodes is not rejected: 81 bytes are
read. A 5-byte datagram that declares 863 nodes makes the decoder read 32799 bytes, past the
MAX_PAYLOAD_BYTESIZE bytes that `Protocol_receiveFromPeer` allocates for the datagram. -/
theorem C7_reads_past_buffer :
    (NodeCollection_unpack exEnv.dec754 exEnv.junk (bufOf [0, 1, 1]) 3).map (fun u => u.o)
      = some 5 ∧
    (NodeCollection_unpack exEnv.dec754 exEnv.junk (bufOf [0, 1, 1, 0, 2]) 5).map
      (fun u => (u.nc.nodeCount, u.o)) = some (2, 81) ∧
    (NodeCollection_unpack exEnv.dec754 exEnv.junk (bufOf [0, 1, 0, 3, 95]) 5).map
      (fun u => (u.nc.nodeCount, u.num, u.o)) = some (863, 863, 32799) ∧
    MAX_PAYLOAD_BYTESIZE < 32799 := by
  refine ⟨by decide, by decide, ?_, by decide⟩
  rw [(unpack_extent exEnv.dec754 exEnv.junk (bufOf [0, 1, 0, 3, 95]) 5).2]
  decide

/-! ## Node store lemmas -/

theorem foldl_inv {α β : Type} (P : α → Prop) (f : α → β → α) (l : List β) (a : α)
    (h0 : P a) (hstep : ∀ a x, x ∈ l → P a → P (f a x)) : P (l.foldl f a) := by
  induction l generalizing a with
  | nil => exact h0
  | cons x xs ih =>
    simp only [List.foldl_cons]
    exact ih _ (hstep a x (List.mem_cons_self _ _) h0)
      (fun a y hy hp => hstep a y (List.mem_cons_of_mem _ hy) hp)

theorem mem_live_iff (nc : NodeCollection) (n : Node) :
    n ∈ live nc ↔ ∃ i, i < nc.nodeCount ∧ nc.nodes[i]? = some n := by
  rw [live, List.mem_iff_getElem?]
  constructor
  · rintro ⟨i, hi⟩
    rw [List.getElem?_take] at hi
    by_cases h : i < nc.nodeCount
    · rw [if_pos h] at hi; exact ⟨i, h, hi⟩
    · rw [if_neg h] at hi; cases hi
  · rintro ⟨i, h, hi⟩
    exact ⟨i, by rw [List.getElem?_take_of_lt h]; exact hi⟩

theorem live_qsortNodes (q : Qsort) (cmp : Node → Node → Int) (nc : NodeCollection) :
    live (qsortNodes q cmp nc) = q.sort cmp (live nc) := by
  simp only [live, qsortNodes]
  by_cases h : nc.nodeCount ≤ nc.nodes.length
  · apply List.take_left'
    rw [(q.perm cmp _).length_eq, List.length_take]
    omega
  · rw [List.drop_eq_nil_of_le (by omega), List.append_nil]
    apply List.take_of_length_le
    rw [(q.perm cmp _).length_eq, List.length_take]
    omega

theorem length_qsortNodes (q : Qsort) (cmp : Node → Node → Int) (nc : NodeCollection) :
    (qsortNodes q cmp nc).nodes.length = nc.nodes.length := by
  simp only [qsortNodes, List.length_append, (q.perm cmp _).length_eq, List.length_take,
    List.length_drop]
  omega

theorem qsortNodes_nodeCount (q : Qsort) (cmp : Node → Node → Int) (nc : NodeCollection) :
    (qsortNodes q cmp nc).nodeCount = nc.nodeCount := rfl

theorem qsortNodes_maxNodeCount (q : Qsort) (cmp : Node → Node → Int) (nc : NodeCollection) :
    (qsortNodes q cmp nc).maxNodeCount = nc.maxNodeCount := rfl

theorem qsortNodes_WF (q : Qsort) (cmp : Node → Node → Int) (nc : NodeCollection)
    (h : nc.WF) : (qsortNodes q cmp nc).WF := by
  obtain ⟨h1, h2, h3⟩ := h
  exact ⟨by rw [length_qsortNodes]; exact h1, h2, h3⟩

theorem mem_live_qsortNodes (q : Qsort) (cmp : Node → Node → Int) (nc : NodeCollection)
    (n : Node) : n ∈ live (qsortNodes q cmp nc) ↔ n ∈ live nc := by
  rw [live_qsortNodes]
  exact (q.perm cmp _).mem_iff

/-- Entries of a shorter prefix of the same array are entries of the longer prefix. -/
theorem mem_live_of_le (nc : NodeCollection) (k : Nat) (hk : k ≤ nc.nodeCount) (n : Node)
    (h : n ∈ live { nc with nodeCount := k }) : n ∈ live nc := by
  rw [mem_live_iff] at h ⊢
  obtain ⟨i, hi, he⟩ := h
  exact ⟨i, Nat.lt_of_lt_of_le hi hk, he⟩

theorem append_inv (junk : Node) (a b : NodeCollection) (ignoreNodeId : Nat) :
    (NodeCollection_append junk a b ignoreNodeId).maxNodeCount = a.maxNodeCount ∧
    (NodeCollection_append junk a b ignoreNodeId).nodes.length = a.nodes.length ∧
    a.nodeCount ≤ (NodeCollection_append junk a b ignoreNodeId).nodeCount ∧
    (a.nodeCount ≤ a.maxNodeCount →
      (NodeCollection_append junk a b ignoreNodeId).nodeCount ≤ a.maxNodeCount) ∧
    (∀ i, i < a.nodeCount →
      (NodeCollection_append junk a b ignoreNodeId).nodes[i]? = a.nodes[i]?) ∧
    (∀ i, a.nodeCount ≤ i → i < (NodeCollection_append junk a b ignoreNodeId).nodeCount →
      i < a.nodes.length → ∃ j, j < b.nodeCount ∧
        (NodeCollection_append junk a b ignoreNodeId).nodes[i]? = some (nodeAt junk b j) ∧
        (ignoreNodeId = 0 ∨ ignoreNodeId ≠ (nodeAt junk b j).nodeID)) := by
  unfold NodeCollection_append
  apply foldl_inv (fun a' : NodeCollection =>
    a'.maxNodeCount = a.maxNodeCount ∧ a'.nodes.length = a.nodes.length ∧
    a.nodeCount ≤ a'.nodeCount ∧ (a.nodeCount ≤ a.maxNodeCount → a'.nodeCount ≤ a.maxNodeCount) ∧
    (∀ i, i < a.nodeCount → a'.nodes[i]? = a.nodes[i]?) ∧
    (∀ i, a.nodeCount ≤ i → i < a'.nodeCount → i < a.nodes.length →
      ∃ j, j < b.nodeCount ∧ a'.nodes[i]? = some (nodeAt junk b j) ∧
        (ignoreNodeId = 0 ∨ ignoreNodeId ≠ (nodeAt junk b j).nodeID)))
  · exact ⟨rfl, rfl, Nat.le_refl _, fun h => h, fun _ _ => rfl, fun i h1 h2 _ => by omega⟩
  · intro a' x hx ⟨h1, h2, h3, h4, h5, h6⟩
    have hxb : x < b.nodeCount := List.mem_range.1 hx
    unfold appendStep
    by_cases hfull : a'.nodeCount < a'.maxNodeCount
    · rw [if_pos hfull]
      by_cases hk : ignoreNodeId = 0 ∨ ignoreNodeId ≠ (nodeAt junk b x).nodeID
      · rw [if_pos hk]
        refine ⟨h1, by simp only [List.length_set]; exact h2, by simp only; omega,
          fun _ => by simp only; omega, ?_, ?_⟩
        · intro i hi
          simp only
          rw [List.getElem?_set_ne (by omega)]
          exact h5 i hi
        · intro i hi1 hi2 hi3
          simp only at hi2 ⊢
          by_cases hie : i = a'.nodeCount
          · subst hie
            exact ⟨x, hxb, by rw [List.getElem?_set_self (by omega)], hk⟩
          · rw [List.getElem?_set_ne (by omega)]
            exact h6 i hi1 (by omega) hi3
      · rw [if_neg hk]
        exact ⟨h1, h2, h3, h4, h5, h6⟩
    · rw [if_neg hfull]
      exact ⟨h1, h2, h3, h4, h5, h6⟩

theorem append_WF (junk : Node) (a b : NodeCollection) (ignoreNodeId : Nat) (h : a.WF) :
    (NodeCollection_append junk a b ignoreNodeId).WF := by
  obtain ⟨h1, h2, h3⟩ := h
  obtain ⟨g1, g2, -, g4, -, -⟩ := append_inv junk a b ignoreNodeId
  exact ⟨by rw [g1, g2]; exact h1, by rw [g1]; exact g4 h2, by rw [g1]; exact h3⟩

/-- C8. For every destination whose array has `maxNodeCount` slots, every source and every
nonzero `ignoreNodeId`, each entry that `NodeCollection_append` adds (the slots from the old
`nodeCount` up to the new one) is an entry of the source whose nodeID differs from
`ignoreNodeId`. -/
theorem C8_append_filter (junk : Node) (a b : NodeCollection) (ignoreNodeId : Nat)
    (hig : ignoreNodeId ≠ 0) (halloc : a.nodes.length = a.maxNodeCount)
    (hcount : a.nodeCount ≤ a.maxNodeCount) (i : Nat) (hlo : a.nodeCount ≤ i)
    (hhi : i < (NodeCollection_append junk a b ignoreNodeId).nodeCount) :
    ∃ n, (NodeCollection_append junk a b ignoreNodeId).nodes[i]? = some n ∧
      n.nodeID ≠ ignoreNodeId ∧ ∃ j, j < b.nodeCount ∧ n = nodeAt junk b j := by
  obtain ⟨-, -, -, g4, -, g6⟩ := append_inv junk a b ignoreNodeId
  have hi : i < a.nodes.length := by
    have := g4 hcount
    omega
  obtain ⟨j, hj, he, hk⟩ := g6 i hlo hhi hi
  refine ⟨_, he, ?_, j, hj, rfl⟩
  rcases hk with hk | hk
  · exact absurd hk hig
  · exact fun h => hk h.symm

/-- C8 (witness). Appending the two-node example collection with ignored ID 7 to an empty
list of capacity 4 adds one entry, at index 0, whose nodeID is not 7. -/
theorem C8_append_filter_witness :
    ∃ n, (NodeCollection_append exEnv.junk (NodeCollection_new exEnv.junk 1 4 4)
        exCollection 7).nodes[0]? = some n ∧
      n.nodeID ≠ 7 ∧ ∃ j, j < exCollection.nodeCount ∧ n = nodeAt exEnv.junk exCollection j :=
  C8_append_filter exEnv.junk (NodeCollection_new exEnv.junk 1 4 4) exCollection 7
    (by decide) (by decide) (by decide) 0 (by decide) (by decide)

theorem comp_sort_id_le (a b : Node) : comp_sort_id a b ≤ 0 ↔ b.nodeID ≤ a.nodeID := by
  unfold comp_sort_id
  split_ifs <;> constructor <;> intro h <;> omega

theorem comp_sort_timestamp_le (a b : Node) :
    comp_sort_timestamp_h2l a b ≤ 0 ↔ b.timeStamp ≤ a.timeStamp := by
  unfold comp_sort_timestamp_h2l
  split_ifs <;> constructor <;> intro h <;> omega

theorem comp_sort_utility_le (a b : Node) :
    comp_sort_utility_h2l a b ≤ 0 ↔ b.utility ≤ a.utility := by
  unfold comp_sort_utility_h2l
  split_ifs with h1 h2
  · exact ⟨fun _ => le_of_lt h1, fun _ => by omega⟩
  · exact ⟨fun h => by omega, fun h => absurd h (not_le.2 h2)⟩
  · exact ⟨fun _ => not_lt.1 h2, fun _ => le_refl _⟩

theorem comp_sort_id_ok : CmpOK comp_sort_id := by
  constructor
  · intro a b
    rw [comp_sort_id_le, comp_sort_id_le]
    omega
  · intro a b c
    rw [comp_sort_id_le, comp_sort_id_le, comp_sort_id_le]
    omega

theorem comp_sort_timestamp_ok : CmpOK comp_sort_timestamp_h2l := by
  constructor
  · intro a b
    rw [comp_sort_timestamp_le, comp_sort_timestamp_le]
    omega
  · intro a b c
    rw [comp_sort_timestamp_le, comp_sort_timestamp_le, comp_sort_timestamp_le]
    omega

theorem comp_sort_utility_ok : CmpOK comp_sort_utility_h2l := by
  constructor
  · intro a b
    rw [comp_sort_utility_le, comp_sort_utility_le]
    exact le_total _ _
  · intro a b c
    rw [comp_sort_utility_le, comp_sort_utility_le, comp_sort_utility_le]
    exact fun h1 h2 => le_trans h2 h1

/-- In an array ordered by descending ID the entries with a nonzero ID form a prefix. -/
theorem sorted_nonzero_prefix (l : List Node)
    (h : l.Pairwise (fun a b => b.nodeID ≤ a.nodeID)) :
    l.take (l.filter (fun m => decide (m.nodeID ≠ 0))).length
      = l.filter (fun m => decide (m.nodeID ≠ 0)) := by
  induction l with
  | nil => rfl
  | cons a l ih =>
    obtain ⟨ha, hl⟩ := List.pairwise_cons.1 h
    by_cases hz : a.nodeID = 0
    · have hall : l.filter (fun m => decide (m.nodeID ≠ 0)) = [] := by
        rw [List.filter_eq_nil_iff]
        intro m hm
        have := ha m hm
        simp only [ne_eq, decide_eq_true_eq, Decidable.not_not]
        omega
      rw [List.filter_cons_of_neg (by simp [hz]), hall]
      rfl
    · rw [List.filter_cons_of_pos (by simp [hz]), List.length_cons, List.take_succ_cons,
        ih hl]

theorem removeExpired_fold (junk : Node) (cmprTime : Int) (l : List Node) (n : Int) (k : Nat)
    (hk : k ≤ l.length) :
    ((List.range k).foldl (removeExpiredStep junk cmprTime) (l, n, 0)).1.length = l.length ∧
    (∀ j, ((List.range k).foldl (removeExpiredStep junk cmprTime) (l, n, 0)).1[j]? =
      if j < k then l[j]?.map (fun m =>
        if (m.timeStamp : Int) ≤ cmprTime then Node_nullOutNode m else m) else l[j]?) ∧
    ((List.range k).foldl (removeExpiredStep junk cmprTime) (l, n, 0)).2.1 =
      n - ((l.take k).countP (fun m => decide ((m.timeStamp : Int) ≤ cmprTime)) : Nat) ∧
    ((List.range k).foldl (removeExpiredStep junk cmprTime) (l, n, 0)).2.2 =
      ((l.take k).countP (fun m => decide ((m.timeStamp : Int) ≤ cmprTime)) : Nat) := by
  induction k with
  | zero => simp
  | succ k ih =>
    obtain ⟨h1, h2, h3, h4⟩ := ih (by omega)
    rw [List.range_succ, List.foldl_append]
    simp only [List.foldl_cons, List.foldl_nil]
    generalize (List.range k).foldl (removeExpiredStep junk cmprTime) (l, n, 0) = st at *
    have hk' : k < l.length := by omega
    have hget : st.1.getD k junk = l[k] := by
      rw [List.getD_eq_getElem?_getD, h2 k, if_neg (by omega), List.getElem?_eq_getElem hk']
      rfl
    have htake : l.take (k + 1) = l.take k ++ [l[k]] := by
      rw [List.take_succ, List.getElem?_eq_getElem hk']
      rfl
    unfold removeExpiredStep
    rw [hget, htake, List.countP_append]
    by_cases he : (l[k].timeStamp : Int) ≤ cmprTime
    · rw [if_pos he]
      refine ⟨by simp only [List.length_set]; exact h1, ?_, ?_, ?_⟩
      · intro j
        by_cases hj : j = k
        · subst hj
          rw [List.getElem?_set_self (by omega), if_pos (by omega),
            List.getElem?_eq_getElem hk']
          simp [he]
        · rw [List.getElem?_set_ne (by omega), h2 j]
          by_cases hjk : j < k
          · rw [if_pos hjk, if_pos (by omega)]
          · rw [if_neg hjk, if_neg (by omega)]
      · simp only [h3, List.countP_cons, List.countP_nil, he, decide_True, if_true]
        push_cast
        omega
      · simp only [h4, List.countP_cons, List.countP_nil, he, decide_True, if_true]
        push_cast
        omega
    · rw [if_neg he]
      refine ⟨h1, ?_, ?_, ?_⟩
      · intro j
        rw [h2 j]
        by_cases hj : j = k
        · subst hj
          rw [if_neg (by omega), if_pos (by omega), List.getElem?_eq_getElem hk']
          simp [he]
        · by_cases hjk : j < k
          · rw [if_pos hjk, if_pos (by omega)]
          · rw [if_neg hjk, if_neg (by omega)]
      · simp only [h3, List.countP_cons, List.countP_nil, he, decide_False]
        simp
      · simp only [h4, List.countP_cons, List.countP_nil, he, decide_False]
        simp

theorem filter_nonzero_map_null (p : Node → Bool) (l : List Node)
    (hnz : ∀ m ∈ l, m.nodeID ≠ 0) :
    (l.map (fun m => if p m then Node_nullOutNode m else m)).filter
      (fun m => decide (m.nodeID ≠ 0)) = l.filter (fun m => !p m) := by
  induction l with
  | nil => rfl
  | cons a l ih =>
    have ha := hnz a (List.mem_cons_self _ _)
    have ih' := ih (fun m hm => hnz m (List.mem_cons_of_mem _ hm))
    rw [List.map_cons]
    by_cases hp : p a = true
    · rw [if_pos hp, List.filter_cons_of_neg (by simp [Node_nullOutNode]),
        List.filter_cons_of_neg (by simp [hp]), ih']
    · rw [if_neg hp, List.filter_cons_of_pos (by simp [ha]),
        List.filter_cons_of_pos (by simp [hp]), ih']

theorem length_filter_not (p : Node → Bool) (l : List Node) :
    (l.filter (fun m => !p m)).length + l.countP p = l.length := by
  induction l with
  | nil => rfl
  | cons a l ih =>
    by_cases hp : p a = true
    · rw [List.filter_cons_of_neg (by simp [hp]), List.countP_cons_of_pos _ _ hp,
        List.length_cons]
      omega
    · rw [List.filter_cons_of_pos (by simp [hp]), List.countP_cons_of_neg _ _ hp,
        List.length_cons, List.length_cons]
      omega

/-- C9. For every collection whose live entries all have a nonzero nodeID and every time
`now`, `NodeCollection_removeExpiredNodes` returns the number r of live entries with
timeStamp <= now - PROTO_nodeMaxAge, lowers nodeCount by exactly r, and leaves as live entries
a permutation of the input's live entries with timeStamp > now - PROTO_nodeMaxAge. -/
theorem C9_removeExpired (q : Qsort) (junk : Node) (cfg : Config) (now expire_time : Nat)
    (nc : NodeCollection) (hlen : nc.nodeCount ≤ nc.nodes.length)
    (h16 : nc.nodeCount < 65536) (hnz : ∀ n ∈ live nc, n.nodeID ≠ 0) :
    (NodeCollection_removeExpiredNodes q junk cfg now nc expire_time).2 =
      ((live nc).countP (fun m =>
        decide ((m.timeStamp : Int) ≤ (now : Int) - (cfg.PROTO_nodeMaxAge : Int))) : Nat) ∧
    (NodeCollection_removeExpiredNodes q junk cfg now nc expire_time).1.nodeCount +
      (live nc).countP (fun m =>
        decide ((m.timeStamp : Int) ≤ (now : Int) - (cfg.PROTO_nodeMaxAge : Int)))
      = nc.nodeCount ∧
    (live (NodeCollection_removeExpiredNodes q junk cfg now nc expire_time).1).Perm
      ((live nc).filter (fun m =>
        decide ((m.timeStamp : Int) > (now : Int) - (cfg.PROTO_nodeMaxAge : Int)))) := by
  obtain ⟨f1, f2, f3, f4⟩ := removeExpired_fold junk
    ((now : Int) - (cfg.PROTO_nodeMaxAge : Int)) nc.nodes (nc.nodeCount : Int) nc.nodeCount hlen
  have hnz' : ∀ n ∈ nc.nodes.take nc.nodeCount, n.nodeID ≠ 0 := hnz
  simp only [NodeCollection_removeExpiredNodes, NodeCollection_sortByNodeID, qsortNodes, live]
  generalize hst : (List.range nc.nodeCount).foldl
    (removeExpiredStep junk ((now : Int) - (cfg.PROTO_nodeMaxAge : Int)))
    (nc.nodes, (nc.nodeCount : Int), 0) = st at *
  have hsort := q.sorted comp_sort_id (st.1.take nc.nodeCount) comp_sort_id_ok
  have hperm := q.perm comp_sort_id (st.1.take nc.nodeCount)
  generalize q.sort comp_sort_id (st.1.take nc.nodeCount) = S at *
  generalize hL : nc.nodes.take nc.nodeCount = L at *
  generalize hr : L.countP (fun m =>
    decide ((m.timeStamp : Int) ≤ (now : Int) - (cfg.PROTO_nodeMaxAge : Int))) = r at *
  have hLlen : L.length = nc.nodeCount := by
    rw [← hL, List.length_take]; omega
  have hrle : r ≤ nc.nodeCount := by
    rw [← hr, ← hLlen]; exact List.countP_le_length _
  have hcnt : ((st.2.1 % 65536).toNat) = nc.nodeCount - r := by
    rw [f3]; omega
  -- the first nodeCount slots after the loop
  have htake : st.1.take nc.nodeCount = L.map (fun m =>
      if decide ((m.timeStamp : Int) ≤ (now : Int) - (cfg.PROTO_nodeMaxAge : Int)) = true
      then Node_nullOutNode m else m) := by
    apply List.ext_getElem?
    intro j
    rw [List.getElem?_take, List.getElem?_map, ← hL, List.getElem?_take, f2 j]
    by_cases hj : j < nc.nodeCount
    · simp only [hj, if_true, decide_eq_true_eq]
    · simp only [hj, if_false, Option.map_none']
  have hsort' : S.Pairwise (fun a b => b.nodeID ≤ a.nodeID) :=
    hsort.imp (fun h => (comp_sort_id_le _ _).1 h)
  have hfilt : (S.filter (fun m => decide (m.nodeID ≠ 0))).Perm
      (L.filter (fun m =>
        !decide ((m.timeStamp : Int) ≤ (now : Int) - (cfg.PROTO_nodeMaxAge : Int)))) := by
    have := hperm.filter (fun m => decide (m.nodeID ≠ 0))
    rw [htake, filter_nonzero_map_null _ _ hnz'] at this
    exact this
  have hflen : (S.filter (fun m => decide (m.nodeID ≠ 0))).length = nc.nodeCount - r := by
    have := length_filter_not (fun m =>
      decide ((m.timeStamp : Int) ≤ (now : Int) - (cfg.PROTO_nodeMaxAge : Int))) L
    rw [hfilt.length_eq]
    omega
  have hSlen : S.length = nc.nodeCount := by
    rw [hperm.length_eq, List.length_take, f1]; omega
  refine ⟨f4, by omega, ?_⟩
  rw [hcnt, List.take_append_of_le_length (by omega), ← hflen, sorted_nonzero_prefix S hsort']
  refine hfilt.trans ?_
  apply List.Perm.of_eq
  apply List.filter_congr
  intro m _
  by_cases h : (m.timeStamp : Int) ≤ (now : Int) - (cfg.PROTO_nodeMaxAge : Int)
  · have h' : ¬ ((m.timeStamp : Int) > (now : Int) - (cfg.PROTO_nodeMaxAge : Int)) := by omega
    simp only [h, h', decide_True, decide_False, Bool.not_true]
  · have h' : (m.timeStamp : Int) > (now : Int) - (cfg.PROTO_nodeMaxAge : Int) := by omega
    simp only [h, h', decide_True, decide_False, Bool.not_false]

/-- C9 (witness). With maximal age 10800 at time 20000, the five entries of the example
stamped 9000 (11000 seconds old) are counted and dropped and the entry stamped 19000 stays. -/
theorem C9_removeExpired_witness :
    (NodeCollection_removeExpiredNodes stableQsort exEnv.junk exConfig 20000 exStale 10800).2 =
      ((live exStale).countP (fun m =>
        decide ((m.timeStamp : Int) ≤ (20000 : Int) - (exConfig.PROTO_nodeMaxAge : Int))) : Nat) ∧
    (NodeCollection_removeExpiredNodes stableQsort exEnv.junk exConfig 20000 exStale
        10800).1.nodeCount +
      (live exStale).countP (fun m =>
        decide ((m.timeStamp : Int) ≤ (20000 : Int) - (exConfig.PROTO_nodeMaxAge : Int)))
      = exStale.nodeCount ∧
    (live (NodeCollection_removeExpiredNodes stableQsort exEnv.junk exConfig 20000 exStale
        10800).1).Perm
      ((live exStale).filter (fun m =>
        decide ((m.timeStamp : Int) > (20000 : Int) - (exConfig.PROTO_nodeMaxAge : Int)))) :=
  C9_removeExpired stableQsort exEnv.junk exConfig 20000 10800 exStale
    (by decide) (by decide) (by decide)

/-! ## Duplicate removal and random-list messages at concrete inputs -/

/-- C3 (the code at the failing input). With a sort that keeps equal IDs in place, removing
duplicates from [{ID 9, ts 2000}, {ID 9, ts 1000}] leaves the single live entry
{ID 9, ts 1000}; and when RandomList holds {ID 9, ts 2000} and the payload brings
{ID 9, ts 1000}, `Protocol_updateRandomNodes` leaves the single live entry {ID 9, ts 1000}.
In the opposite order of arrival the entry stamped 2000 survives. -/
theorem C3_dedupe_survivor_is_last :
    live (NodeCollection_removeDuplicateNodes stableQsort exEnv.junk
      (exPayload 0 [exNode 9 2000, exNode 9 1000])) = [exNode 9 1000] ∧
    live (Protocol_updateRandomNodes stableQsort exConfig exEnv.junk
      (exPayload 0 [exNode 9 1000]) (exRandomList [exNode 9 2000])) = [exNode 9 1000] ∧
    live (Protocol_updateRandomNodes stableQsort exConfig exEnv.junk
      (exPayload 0 [exNode 9 2000]) (exRandomList [exNode 9 1000])) = [exNode 9 2000] := by
  decide

/-- C6 (the code at the failing input). For a RandomList holding the single entry {ID 7} the
collection that `Protocol_sendRandomNodes` builds has nodeCount 1 and holds the own Node
only; for a RandomList holding IDs 7, 8, 6 it has nodeCount 3 and holds the own Node and the
entries 7 and 8, without the last entry. -/
theorem C6_sendRandomNodes_drops_last :
    live (Protocol_sendRandomNodes_nc exConfig exEnv.junk 5000
      (exRandomList [exNode 7 2000]) RND_REQ) = [Node_createOwnNode exConfig 5000] ∧
    live (Protocol_sendRandomNodes_nc exConfig exEnv.junk 5000
      (exRandomList [exNode 7 2000, exNode 8 1000, exNode 6 500]) RND_REQ) =
      [Node_createOwnNode exConfig 5000, exNode 7 2000, exNode 8 1000] := by
  decide

/-! ## Receiving -/

theorem unpack_some (dec754 : Nat → Dbl) (junk : Node) (buff : Nat → Nat) (size : Int)
    (u : Unpacked) (hu : NodeCollection_unpack dec754 junk buff size = some u) :
    u.nc.nodeCount = unpacku16 buff 3 ∧ u.nc.payloadType = unpacku8 buff 2 ∧
    u.nc.maxNodeCount = u.nc.nodeCount ∧ u.nc.nodes.length = u.nc.nodeCount ∧
    u.nc.nodeCount < 65536 ∧
    (∀ i, i < u.nc.nodeCount →
      u.nc.nodes[i]? = some (unpackNode dec754 buff (5 + 38 * i) junk)) := by
  unfold NodeCollection_unpack at hu
  by_cases h : size > 0
  · rw [if_pos h] at hu
    obtain ⟨-, -, f2, f3, f4, f5, f6, -⟩ := unpack_fold dec754 junk buff
      { NodeCollection_new junk (unpacku16 buff 0) (unpacku8 buff 2) (unpacku16 buff 3) with
        nodeCount := unpacku16 buff 3 } (unpacku16 buff 3)
    have hlt := unpacku16_lt buff 3
    have hmod : unpacku16 buff 3 % 65536 = unpacku16 buff 3 := Nat.mod_eq_of_lt hlt
    simp only [Option.some.injEq] at hu
    subst hu
    simp only at f2 f3 f4 f5 f6 ⊢
    refine ⟨f3, f2, ?_, ?_, ?_, ?_⟩
    · rw [f4, f3]; simp [NodeCollection_new, hmod]
    · rw [f5, f3]; simp [NodeCollection_new, hmod]
    · rw [f3]; exact hlt
    · intro i hi
      rw [f3] at hi
      rw [f6 i hi (by simp [NodeCollection_new, hmod]; exact hi)]
      simp [nodeAt, NodeCollection_new, hmod, List.getD_eq_getElem?_getD, hi]
  · rw [if_neg h] at hu
    cases hu

theorem isValid_some (nc : NodeCollection) : NodeCollection_isValid (some nc) = true := by
  simp only [NodeCollection_isValid, decide_eq_true_eq]
  omega

theorem IdsWithin.noId {a b : NodeCollection} (h : IdsWithin a b) (id : Nat) (hid : id ≠ 0)
    (hb : NoId id b) : NoId id a := by
  intro n hn
  rcases h n hn with h0 | ⟨m, hm, he⟩
  · omega
  · have := hb m hm
    omega

theorem IdsWithin.trans {a b c : NodeCollection} (h1 : IdsWithin a b) (h2 : IdsWithin b c) :
    IdsWithin a c := by
  intro n hn
  rcases h1 n hn with h0 | ⟨m, hm, he⟩
  · exact Or.inl h0
  · rcases h2 m hm with h0 | ⟨m', hm', he'⟩
    · exact Or.inl (by omega)
    · exact Or.inr ⟨m', hm', by omega⟩

theorem idsWithin_of_sub (a b : NodeCollection) (h : ∀ n ∈ live a, n ∈ live b) :
    IdsWithin a b :=
  fun n hn => Or.inr ⟨n, h n hn, rfl⟩

theorem removeDuplicate_fold (junk : Node) (l : List Node) (n k : Nat) (hn : n ≤ l.length)
    (hk : k + 1 ≤ n ∨ k = 0) :
    ((List.range k).foldl (removeDuplicateStep junk) (l, (n : Int))).1.length = l.length ∧
    (∀ j m, j < n →
      ((List.range k).foldl (removeDuplicateStep junk) (l, (n : Int))).1[j]? = some m →
      m.nodeID = 0 ∨ ∃ m0 ∈ l.take n, m0.nodeID = m.nodeID) ∧
    ((List.range k).foldl (removeDuplicateStep junk) (l, (n : Int))).2 ≤ n ∧
    (n : Int) - k ≤ ((List.range k).foldl (removeDuplicateStep junk) (l, (n : Int))).2 := by
  induction k with
  | zero =>
    refine ⟨rfl, ?_, by simp, by simp⟩
    intro j m hj hm
    refine Or.inr ⟨m, ?_, rfl⟩
    rw [List.mem_iff_getElem?]
    exact ⟨j, by rw [List.getElem?_take_of_lt hj]; exact hm⟩
  | succ k ih =>
    have hk' : k + 2 ≤ n := by omega
    obtain ⟨h1, h2, h3, h4⟩ := ih (Or.inl (by omega))
    rw [List.range_succ, List.foldl_append]
    simp only [List.foldl_cons, List.foldl_nil]
    generalize (List.range k).foldl (removeDuplicateStep junk) (l, (n : Int)) = st at *
    have hg0 : st.1[k]? = some (st.1.getD k junk) := by
      rw [List.getD_eq_getElem?_getD, List.getElem?_eq_getElem (by omega)]
      rfl
    have hg1 : st.1[k + 1]? = some (st.1.getD (k + 1) junk) := by
      rw [List.getD_eq_getElem?_getD, List.getElem?_eq_getElem (by omega)]
      rfl
    unfold removeDuplicateStep
    simp only
    split_ifs with hid hts
    · refine ⟨by simp only [List.length_set]; exact h1, ?_, by simp only; omega,
        by simp only; push_cast; omega⟩
      intro j m hj hm
      simp only at hm
      by_cases hjk : j = k
      · subst hjk
        rw [List.getElem?_set_self (by omega)] at hm
        simp only [Option.some.injEq] at hm
        subst hm
        exact Or.inl rfl
      · rw [List.getElem?_set_ne (by omega)] at hm
        exact h2 j m hj hm
    · refine ⟨by simp only [List.length_set]; exact h1, ?_, by simp only; omega,
        by simp only; push_cast; omega⟩
      intro j m hj hm
      simp only [Node_swapPointers, Node_nullOutNode] at hm
      by_cases hjk1 : j = k + 1
      · subst hjk1
        rw [List.getElem?_set_self (by simp only [List.length_set]; omega)] at hm
        simp only [Option.some.injEq] at hm
        subst hm
        exact h2 k (st.1.getD k junk) (by omega) hg0
      · rw [List.getElem?_set_ne (by omega)] at hm
        by_cases hjk : j = k
        · subst hjk
          rw [List.getElem?_set_self (by omega)] at hm
          simp only [Option.some.injEq] at hm
          subst hm
          exact Or.inl rfl
        · rw [List.getElem?_set_ne (by omega)] at hm
          exact h2 j m hj hm
    · exact ⟨h1, h2, by omega, by push_cast; omega⟩

theorem removeDuplicateNodes_keeps (q : Qsort) (junk : Node) (nc : NodeCollection)
    (h : nc.WF) :
    (NodeCollection_removeDuplicateNodes q junk nc).WF ∧
    (NodeCollection_removeDuplicateNodes q junk nc).maxNodeCount = nc.maxNodeCount ∧
    (NodeCollection_removeDuplicateNodes q junk nc).nodeCount ≤ nc.nodeCount ∧
    IdsWithin (NodeCollection_removeDuplicateNodes q junk nc) nc := by
  have hwf1 := qsortNodes_WF q comp_sort_id nc h
  obtain ⟨w1, w2, w3⟩ := hwf1
  have hcnt : (qsortNodes q comp_sort_id nc).nodeCount = nc.nodeCount := rfl
  have hmax : (qsortNodes q comp_sort_id nc).maxNodeCount = nc.maxNodeCount := rfl
  obtain ⟨f1, f2, f3, f4⟩ := removeDuplicate_fold junk (qsortNodes q comp_sort_id nc).nodes
    nc.nodeCount (nc.nodeCount - 1) (by omega) (by omega)
  simp only [NodeCollection_removeDuplicateNodes, NodeCollection_sortByNodeID, hcnt]
  generalize (List.range (nc.nodeCount - 1)).foldl (removeDuplicateStep junk)
    ((qsortNodes q comp_sort_id nc).nodes, (nc.nodeCount : Int)) = st at *
  have hc : (st.2 % 65536).toNat ≤ nc.nodeCount := by omega
  have hwf2 : (qsortNodes q comp_sort_id
      { qsortNodes q comp_sort_id nc with nodes := st.1 }).WF :=
    qsortNodes_WF q comp_sort_id _ ⟨by simp only; omega, w2, w3⟩
  refine ⟨⟨hwf2.1, ?_, hwf2.2.2⟩, rfl, hc, ?_⟩
  · show (st.2 % 65536).toNat ≤ nc.maxNodeCount
    omega
  · intro n hn
    have hn2 := mem_live_of_le (qsortNodes q comp_sort_id
      { qsortNodes q comp_sort_id nc with nodes := st.1 }) _ hc n hn
    rw [mem_live_qsortNodes, mem_live_iff] at hn2
    obtain ⟨j, hj, hjm⟩ := hn2
    rcases f2 j n hj hjm with h0 | ⟨m0, hm0, he⟩
    · exact Or.inl h0
    · refine Or.inr ⟨m0, ?_, he⟩
      have : m0 ∈ live (qsortNodes q comp_sort_id nc) := hm0
      rwa [mem_live_qsortNodes] at this

theorem removeExcess_fold (junk : Node) (l : List Node) (floor k : Nat) :
    ((List.range' floor k).foldl (removeExcessStep junk) (l, 0)).1.length = l.length ∧
    ∀ j, j < floor →
      ((List.range' floor k).foldl (removeExcessStep junk) (l, 0)).1[j]? = l[j]? := by
  apply foldl_inv (fun st : List Node × Int =>
    st.1.length = l.length ∧ ∀ j, j < floor → st.1[j]? = l[j]?)
  · exact ⟨rfl, fun _ _ => rfl⟩
  · intro st x hx ⟨h1, h2⟩
    have hx' := (List.mem_range'_1.1 hx).1
    refine ⟨by simp only [removeExcessStep, List.length_set]; exact h1, ?_⟩
    intro j hj
    simp only [removeExcessStep]
    rw [List.getElem?_set_ne (by omega)]
    exact h2 j hj

theorem removeExcessNodes_keeps (junk : Node) (nc : NodeCollection) (floor_value : Nat)
    (h : nc.WF) :
    (NodeCollection_removeExcessNodes junk nc floor_value).1.WF ∧
    (NodeCollection_removeExcessNodes junk nc floor_value).1.maxNodeCount = nc.maxNodeCount ∧
    (NodeCollection_removeExcessNodes junk nc floor_value).1.nodeCount ≤ nc.nodeCount ∧
    (∀ n ∈ live (NodeCollection_removeExcessNodes junk nc floor_value).1, n ∈ live nc) := by
  obtain ⟨w1, w2, w3⟩ := h
  unfold NodeCollection_removeExcessNodes
  by_cases hc : nc.nodeCount > floor_value
  · rw [if_pos hc]
    obtain ⟨f1, f2⟩ := removeExcess_fold junk nc.nodes floor_value
      (nc.maxNodeCount - floor_value)
    have hmod : floor_value % 65536 = floor_value := Nat.mod_eq_of_lt (by omega)
    simp only [hmod]
    refine ⟨⟨by simp only; omega, by simp only; omega, w3⟩, trivial, by omega, ?_⟩
    intro n hn
    rw [mem_live_iff] at hn ⊢
    obtain ⟨j, hj, hjn⟩ := hn
    simp only at hj hjn
    rw [f2 j hj] at hjn
    exact ⟨j, by omega, hjn⟩
  · rw [if_neg hc]
    exact ⟨⟨w1, w2, w3⟩, rfl, Nat.le_refl _, fun n hn => hn⟩

theorem grow_keeps (junk : Node) (nc : NodeCollection) (grow_amount : Nat) (h : nc.WF)
    (hg : grow_amount < 65536) :
    (NodeCollection_grow junk nc grow_amount).WF ∧
    (NodeCollection_grow junk nc grow_amount).nodeCount = nc.nodeCount ∧
    nc.maxNodeCount ≤ (NodeCollection_grow junk nc grow_amount).maxNodeCount ∧
    (nc.maxNodeCount ≤ 10000 → (NodeCollection_grow junk nc grow_amount).maxNodeCount ≤ 10000) ∧
    live (NodeCollection_grow junk nc grow_amount) = live nc := by
  obtain ⟨w1, w2, w3⟩ := h
  unfold NodeCollection_grow P2PDPRD_NODES_MAX_SIZE
  have hmod : (nc.maxNodeCount + grow_amount) % 2 ^ 32 = nc.maxNodeCount + grow_amount :=
    Nat.mod_eq_of_lt (by omega)
  rw [hmod]
  by_cases hc : nc.maxNodeCount + grow_amount ≤ 10000
  · rw [if_pos hc]
    have hmod2 : (nc.maxNodeCount + grow_amount) % 65536 = nc.maxNodeCount + grow_amount :=
      Nat.mod_eq_of_lt (by omega)
    simp only [hmod2]
    refine ⟨⟨by simp only [List.length_append, List.length_replicate]; omega,
      by simp only; omega, by simp only; omega⟩, trivial, by omega, fun _ => by omega, ?_⟩
    simp only [live]
    rw [List.take_append_of_le_length (by omega)]
  · rw [if_neg hc]
    exact ⟨⟨w1, w2, w3⟩, rfl, Nat.le_refl _, fun h => h, rfl⟩

theorem removeExpiredNodes_keeps (q : Qsort) (junk : Node) (cfg : Config) (now e : Nat)
    (nc : NodeCollection) (h : nc.WF) :
    (NodeCollection_removeExpiredNodes q junk cfg now nc e).1.WF ∧
    (NodeCollection_removeExpiredNodes q junk cfg now nc e).1.maxNodeCount
      = nc.maxNodeCount ∧
    (NodeCollection_removeExpiredNodes q junk cfg now nc e).1.nodeCount ≤ nc.nodeCount ∧
    IdsWithin (NodeCollection_removeExpiredNodes q junk cfg now nc e).1 nc := by
  obtain ⟨w1, w2, w3⟩ := h
  obtain ⟨f1, f2, f3, -⟩ := removeExpired_fold junk
    ((now : Int) - (cfg.PROTO_nodeMaxAge : Int)) nc.nodes (nc.nodeCount : Int) nc.nodeCount
    (by omega)
  simp only [NodeCollection_removeExpiredNodes, NodeCollection_sortByNodeID]
  generalize (List.range nc.nodeCount).foldl
    (removeExpiredStep junk ((now : Int) - (cfg.PROTO_nodeMaxAge : Int)))
    (nc.nodes, (nc.nodeCount : Int), 0) = st at *
  have hcp := List.countP_le_length (fun m : Node =>
    decide ((m.timeStamp : Int) ≤ (now : Int) - (cfg.PROTO_nodeMaxAge : Int)))
    (l := nc.nodes.take nc.nodeCount)
  rw [List.length_take] at hcp
  have hc : (st.2.1 % 65536).toNat ≤ nc.nodeCount := by omega
  have hwf2 : (qsortNodes q comp_sort_id { nc with nodes := st.1 }).WF :=
    qsortNodes_WF q comp_sort_id _ ⟨by simp only; omega, w2, w3⟩
  refine ⟨⟨hwf2.1, ?_, hwf2.2.2⟩, rfl, hc, ?_⟩
  · show (st.2.1 % 65536).toNat ≤ nc.maxNodeCount
    omega
  · intro n hn
    have hn2 := mem_live_of_le (qsortNodes q comp_sort_id { nc with nodes := st.1 }) _ hc n hn
    rw [mem_live_qsortNodes, mem_live_iff] at hn2
    obtain ⟨j, hj, hjm⟩ := hn2
    simp only at hj hjm
    rw [f2 j, if_pos hj] at hjm
    cases hl : nc.nodes[j]? with
    | none => rw [hl] at hjm; cases hjm
    | some m0 =>
      rw [hl] at hjm
      simp only [Option.map_some', Option.some.injEq] at hjm
      have hm0 : m0 ∈ live nc := (mem_live_iff nc m0).2 ⟨j, hj, hl⟩
      by_cases hexp : (m0.timeStamp : Int) ≤ (now : Int) - (cfg.PROTO_nodeMaxAge : Int)
      · rw [if_pos hexp] at hjm
        subst hjm
        exact Or.inl rfl
      · rw [if_neg hexp] at hjm
        subst hjm
        exact Or.inr ⟨m0, hm0, rfl⟩

theorem calculateUtility_keeps (geo : Dbl → Dbl → Dbl → Dbl → Dbl) (junk : Node)
    (nc : NodeCollection) (n : Node) :
    (NodeCollection_calculateUtility geo junk nc n).nodes.length = nc.nodes.length ∧
    (NodeCollection_calculateUtility geo junk nc n).nodeCount = nc.nodeCount ∧
    (NodeCollection_calculateUtility geo junk nc n).maxNodeCount = nc.maxNodeCount ∧
    (∀ (j : Nat) (m : Node), (NodeCollection_calculateUtility geo junk nc n).nodes[j]? = some m →
      ∃ m0, nc.nodes[j]? = some m0 ∧ m0.nodeID = m.nodeID) := by
  simp only [NodeCollection_calculateUtility]
  refine ⟨?_, trivial, trivial, ?_⟩
  · apply foldl_inv (fun nodes : List Node => nodes.length = nc.nodes.length)
    · rfl
    · intro a x _ ha
      simp only [List.length_set]; exact ha
  · apply foldl_inv (fun nodes : List Node => ∀ (j : Nat) (m : Node), nodes[j]? = some m →
      ∃ m0, nc.nodes[j]? = some m0 ∧ m0.nodeID = m.nodeID)
    · intro j m hm
      exact ⟨m, hm, rfl⟩
    · intro a x _ ha j m hm
      by_cases hjx : x = j
      · subst hjx
        by_cases hlen : x < a.length
        · rw [List.getElem?_set_self hlen] at hm
          simp only [Option.some.injEq] at hm
          subst hm
          have hg : a[x]? = some (a.getD x junk) := by
            rw [List.getD_eq_getElem?_getD, List.getElem?_eq_getElem hlen]
            rfl
          exact ha x (a.getD x junk) hg
        · rw [List.set_eq_of_length_le (by omega)] at hm
          exact ha x m hm
      · rw [List.getElem?_set_ne hjx] at hm
        exact ha j m hm

theorem append_noId (junk : Node) (a b : NodeCollection) (id : Nat) (hid : id ≠ 0)
    (h : a.WF) (ha : NoId id a) : NoId id (NodeCollection_append junk a b id) := by
  obtain ⟨w1, w2, w3⟩ := h
  obtain ⟨-, -, -, g4, g5, g6⟩ := append_inv junk a b id
  intro n hn
  rw [mem_live_iff] at hn
  obtain ⟨i, hi, hin⟩ := hn
  by_cases hlt : i < a.nodeCount
  · rw [g5 i hlt] at hin
    exact ha n ((mem_live_iff a n).2 ⟨i, hlt, hin⟩)
  · have hcap := g4 w2
    obtain ⟨j, -, he, hk⟩ := g6 i (by omega) hi (by omega)
    rw [he] at hin
    simp only [Option.some.injEq] at hin
    subst hin
    rcases hk with hk | hk
    · exact absurd hk hid
    · exact fun hh => hk hh.symm

theorem sortBy_noId (q : Qsort) (cmp : Node → Node → Int) (nc : NodeCollection) (id : Nat)
    (h : NoId id nc) : NoId id (qsortNodes q cmp nc) :=
  fun n hn => h n ((mem_live_qsortNodes q cmp nc n).1 hn)

theorem updateRandomNodes_keeps (q : Qsort) (cfg : Config) (junk : Node)
    (nc rn : NodeCollection) (h : rn.WF) :
    (Protocol_updateRandomNodes q cfg junk nc rn).WF ∧
    (Protocol_updateRandomNodes q cfg junk nc rn).maxNodeCount = rn.maxNodeCount ∧
    (cfg.CLIENT_id ≠ 0 → NoId cfg.CLIENT_id rn →
      NoId cfg.CLIENT_id (Protocol_updateRandomNodes q cfg junk nc rn)) := by
  have a1 := append_WF junk rn nc cfg.CLIENT_id h
  have a2 := (append_inv junk rn nc cfg.CLIENT_id).1
  obtain ⟨d1, d2, -, d4⟩ := removeDuplicateNodes_keeps q junk _ a1
  have s1 := qsortNodes_WF q comp_sort_timestamp_h2l _ d1
  obtain ⟨e1, e2, -, e4⟩ := removeExcessNodes_keeps junk _
    ((NodeCollection_sortByTimeStamp q (NodeCollection_removeDuplicateNodes q junk
      (NodeCollection_append junk rn nc cfg.CLIENT_id))).maxNodeCount / 2) s1
  refine ⟨e1, ?_, ?_⟩
  · exact e2.trans (d2.trans a2)
  · intro hid hno
    have n1 := append_noId junk rn nc cfg.CLIENT_id hid h hno
    have n2 := d4.noId cfg.CLIENT_id hid n1
    have n3 := sortBy_noId q comp_sort_timestamp_h2l _ cfg.CLIENT_id n2
    intro n hn
    exact n3 n (e4 n hn)

theorem calculateUtility_WF (geo : Dbl → Dbl → Dbl → Dbl → Dbl) (junk : Node)
    (nc : NodeCollection) (n : Node) (h : nc.WF) :
    (NodeCollection_calculateUtility geo junk nc n).WF := by
  obtain ⟨w1, w2, w3⟩ := h
  obtain ⟨c1, c2, c3, -⟩ := calculateUtility_keeps geo junk nc n
  exact ⟨by rw [c1, c3]; exact w1, by rw [c2, c3]; exact w2, by rw [c3]; exact w3⟩

theorem calculateUtility_noId (geo : Dbl → Dbl → Dbl → Dbl → Dbl) (junk : Node)
    (nc : NodeCollection) (n : Node) (id : Nat) (h : NoId id nc) :
    NoId id (NodeCollection_calculateUtility geo junk nc n) := by
  obtain ⟨-, c2, -, c4⟩ := calculateUtility_keeps geo junk nc n
  intro m hm
  rw [mem_live_iff] at hm
  obtain ⟨j, hj, hjm⟩ := hm
  obtain ⟨m0, h0, he⟩ := c4 j m hjm
  have := h m0 ((mem_live_iff nc m0).2 ⟨j, by rw [← c2]; exact hj, h0⟩)
  omega

theorem updateImportantNodes_keeps (q : Qsort) (geo : Dbl → Dbl → Dbl → Dbl → Dbl)
    (cfg : Config) (junk : Node) (now : Nat) (nc inl : NodeCollection) (h : inl.WF)
    (hK : cfg.PROTO_K < 65536) :
    (Protocol_updateImportantNodes q geo cfg junk now nc inl).2.WF ∧
    (inl.maxNodeCount ≤ 10000 →
      (Protocol_updateImportantNodes q geo cfg junk now nc inl).2.maxNodeCount ≤ 10000) ∧
    (cfg.CLIENT_id ≠ 0 → NoId cfg.CLIENT_id inl →
      NoId cfg.CLIENT_id (Protocol_updateImportantNodes q geo cfg junk now nc inl).2) ∧
    (nc.WF → (Protocol_updateImportantNodes q geo cfg junk now nc inl).1.WF) ∧
    (Protocol_updateImportantNodes q geo cfg junk now nc inl).1.maxNodeCount
      = nc.maxNodeCount ∧
    (NoId cfg.CLIENT_id nc →
      NoId cfg.CLIENT_id (Protocol_updateImportantNodes q geo cfg junk now nc inl).1) := by
  simp only [Protocol_updateImportantNodes]
  generalize Node_new cfg.CLIENT_id cfg.CLIENT_lat cfg.CLIENT_lon cfg.CLIENT_coordRange
    0 0 0 0 now = ownNode
  generalize hnc' : NodeCollection_calculateUtility geo junk nc ownNode = nc'
  have a1 := append_WF junk inl nc' cfg.CLIENT_id h
  have a2 := (append_inv junk inl nc' cfg.CLIENT_id).1
  obtain ⟨d1, d2, -, d4⟩ := removeDuplicateNodes_keeps q junk _ a1
  have s1 : (NodeCollection_sortByUtility q (NodeCollection_removeDuplicateNodes q junk
      (NodeCollection_append junk inl nc' cfg.CLIENT_id))).WF :=
    qsortNodes_WF q comp_sort_utility_h2l _ d1
  generalize hB : NodeCollection_sortByUtility q (NodeCollection_removeDuplicateNodes q junk
    (NodeCollection_append junk inl nc' cfg.CLIENT_id)) = B at *
  have hBmax : B.maxNodeCount = inl.maxNodeCount := by
    rw [← hB]
    exact d2.trans a2
  have hBno : cfg.CLIENT_id ≠ 0 → NoId cfg.CLIENT_id inl → NoId cfg.CLIENT_id B := by
    intro hid hno
    have n1 := append_noId junk inl nc' cfg.CLIENT_id hid h hno
    have n2 := d4.noId cfg.CLIENT_id hid n1
    rw [← hB]
    exact sortBy_noId q comp_sort_utility_h2l _ cfg.CLIENT_id n2
  have hBwf : B.WF := s1
  -- the growth step
  have hG : ∀ G : NodeCollection,
      G = (if NodeCollection_countCandidateNodes junk B >
          (B.maxNodeCount : Int) - (cfg.PROTO_K : Int)
        then NodeCollection_grow junk B cfg.PROTO_K else B) →
      G.WF ∧ (inl.maxNodeCount ≤ 10000 → G.maxNodeCount ≤ 10000) ∧ live G = live B := by
    intro G hGe
    obtain ⟨g1, -, -, g4, g5⟩ := grow_keeps junk B cfg.PROTO_K hBwf hK
    by_cases hc : NodeCollection_countCandidateNodes junk B >
        (B.maxNodeCount : Int) - (cfg.PROTO_K : Int)
    · rw [if_pos hc] at hGe
      subst hGe
      exact ⟨g1, fun h' => g4 (by omega), g5⟩
    · rw [if_neg hc] at hGe
      subst hGe
      exact ⟨hBwf, fun h' => by omega, rfl⟩
  obtain ⟨G1, G2, G3⟩ := hG _ rfl
  generalize (if NodeCollection_countCandidateNodes junk B >
      (B.maxNodeCount : Int) - (cfg.PROTO_K : Int)
    then NodeCollection_grow junk B cfg.PROTO_K else B) = G at *
  obtain ⟨e1, e2, -, e4⟩ := removeExcessNodes_keeps junk G
    (((G.maxNodeCount : Int) - (cfg.PROTO_K : Int)) % 2 ^ 32).toNat G1
  have hlast : ∀ R : NodeCollection,
      R = (if (G.nodeCount : Int) > (G.maxNodeCount : Int) - (cfg.PROTO_K : Int) then
          (NodeCollection_removeExcessNodes junk G
            (((G.maxNodeCount : Int) - (cfg.PROTO_K : Int)) % 2 ^ 32).toNat).1
        else G) →
      R.WF ∧ R.maxNodeCount = G.maxNodeCount ∧ ∀ n ∈ live R, n ∈ live G := by
    intro R hR
    by_cases hc : (G.nodeCount : Int) > (G.maxNodeCount : Int) - (cfg.PROTO_K : Int)
    · rw [if_pos hc] at hR
      subst hR
      exact ⟨e1, e2, e4⟩
    · rw [if_neg hc] at hR
      subst hR
      exact ⟨G1, rfl, fun n hn => hn⟩
  obtain ⟨R1, R2, R3⟩ := hlast _ rfl
  refine ⟨R1, fun h' => by rw [R2]; exact G2 h', ?_, ?_, ?_, ?_⟩
  · intro hid hno n hn
    have := R3 n hn
    rw [G3] at this
    exact hBno hid hno n this
  · intro hw
    rw [← hnc']
    exact calculateUtility_WF geo junk nc ownNode hw
  · rw [← hnc']
    exact (calculateUtility_keeps geo junk nc ownNode).2.2.1
  · intro hno
    rw [← hnc']
    exact calculateUtility_noId geo junk nc ownNode _ hno

/-! ## Invariants of the main loop -/

theorem keeps_refl (cfg : Config) (s : State) (h1 : s.randomNodes.WF)
    (h2 : s.importantNodes.WF) : Keeps cfg s s :=
  ⟨h1, h2, rfl, fun h => h, fun _ a b => ⟨a, b⟩⟩

theorem keeps_random (q : Qsort) (geo : Dbl → Dbl → Dbl → Dbl → Dbl) (cfg : Config)
    (junk : Node) (now : Nat) (nc : NodeCollection) (s : State) (hK : cfg.PROTO_K < 65536)
    (h1 : s.randomNodes.WF) (h2 : s.importantNodes.WF) :
    Keeps cfg s
      { randomNodes := (Protocol_updateImportantNodes q geo cfg junk now
          (Protocol_updateRandomNodes q cfg junk nc s.randomNodes) s.importantNodes).1
        importantNodes := (Protocol_updateImportantNodes q geo cfg junk now
          (Protocol_updateRandomNodes q cfg junk nc s.randomNodes) s.importantNodes).2 } := by
  obtain ⟨r1, r2, r3⟩ := updateRandomNodes_keeps q cfg junk nc s.randomNodes h1
  obtain ⟨i1, i2, i3, i4, i5, i6⟩ := updateImportantNodes_keeps q geo cfg junk now
    (Protocol_updateRandomNodes q cfg junk nc s.randomNodes) s.importantNodes h2 hK
  exact ⟨i4 r1, i1, i5.trans r2, i2, fun hid a b => ⟨i6 (r3 hid a), i3 hid b⟩⟩

theorem keeps_important (q : Qsort) (geo : Dbl → Dbl → Dbl → Dbl → Dbl) (cfg : Config)
    (junk : Node) (now : Nat) (nc : NodeCollection) (s : State) (hK : cfg.PROTO_K < 65536)
    (h1 : s.randomNodes.WF) (h2 : s.importantNodes.WF) :
    Keeps cfg s
      { s with importantNodes := (Protocol_updateImportantNodes q geo cfg junk now nc
          s.importantNodes).2 } := by
  obtain ⟨i1, i2, i3, -, -, -⟩ := updateImportantNodes_keeps q geo cfg junk now
    nc s.importantNodes h2 hK
  exact ⟨h1, i1, rfl, i2, fun hid a b => ⟨a, i3 hid b⟩⟩

theorem receiveFromPeer_keeps (enc754 : Dbl → Nat) (dec754 : Nat → Dbl) (q : Qsort)
    (geo : Dbl → Dbl → Dbl → Dbl → Dbl) (cfg : Config) (junk : Node) (now : Nat)
    (buffer : Nat → Nat) (payloadSize : Int) (s : State) (hK : cfg.PROTO_K < 65536)
    (h1 : s.randomNodes.WF) (h2 : s.importantNodes.WF) :
    Keeps cfg s
      (Protocol_receiveFromPeer enc754 dec754 q geo cfg junk now buffer payloadSize s).1 := by
  unfold Protocol_receiveFromPeer
  cases hu : NodeCollection_unpack dec754 junk buffer payloadSize with
  | none =>
    simp only [Option.map_none', NodeCollection_isValid]
    exact keeps_refl cfg s h1 h2
  | some r =>
    simp only [Option.map_some', isValid_some, if_true]
    split_ifs
    · exact keeps_random q geo cfg junk now r.nc s hK h1 h2
    · exact keeps_random q geo cfg junk now r.nc s hK h1 h2
    · exact keeps_important q geo cfg junk now r.nc s hK h1 h2
    · exact keeps_important q geo cfg junk now r.nc s hK h1 h2
    · exact keeps_refl cfg s h1 h2

theorem timeout_keeps (enc754 : Dbl → Nat) (q : Qsort) (geo : Dbl → Dbl → Dbl → Dbl → Dbl)
    (cfg : Config) (junk : Node) (now : Nat) (draws1 draws2 : Nat → Nat) (s : State)
    (h1 : s.randomNodes.WF) (h2 : s.importantNodes.WF) :
    Keeps cfg s (Protocol_timeout enc754 q geo cfg junk now draws1 draws2 s).1 := by
  obtain ⟨a1, a2, -, a4⟩ := removeExpiredNodes_keeps q junk cfg now cfg.PROTO_nodeMaxAge
    s.randomNodes h1
  obtain ⟨b1, b2, -, b4⟩ := removeExpiredNodes_keeps q junk cfg now cfg.PROTO_nodeMaxAge
    s.importantNodes h2
  simp only [Protocol_timeout]
  refine ⟨a1, qsortNodes_WF q comp_sort_utility_h2l _ b1, a2, ?_, ?_⟩
  · intro h
    show (NodeCollection_removeExpiredNodes q junk cfg now s.importantNodes
      cfg.PROTO_nodeMaxAge).1.maxNodeCount ≤ 10000
    rw [b2]; exact h
  · intro hid n1 n2
    exact ⟨a4.noId cfg.CLIENT_id hid n1,
      sortBy_noId q comp_sort_utility_h2l _ cfg.CLIENT_id (b4.noId cfg.CLIENT_id hid n2)⟩

theorem step_keeps (env : Env) (cfg : Config) (s : State) (ev : Event)
    (hK : cfg.PROTO_K < 65536) (h1 : s.randomNodes.WF) (h2 : s.importantNodes.WF) :
    Keeps cfg s (step env cfg s ev).1 := by
  cases ev with
  | receive buffer payloadSize now =>
    exact receiveFromPeer_keeps env.enc754 env.dec754 env.q env.geo cfg env.junk now buffer
      payloadSize s hK h1 h2
  | timeout now draws1 draws2 =>
    exact timeout_keeps env.enc754 env.q env.geo cfg env.junk now draws1 draws2 s h1 h2

theorem run_keeps (env : Env) (cfg : Config) (evs : List Event) (s : State)
    (hK : cfg.PROTO_K < 65536) (h1 : s.randomNodes.WF) (h2 : s.importantNodes.WF) :
    Keeps cfg s (run env cfg s evs) := by
  induction evs generalizing s with
  | nil => exact keeps_refl cfg s h1 h2
  | cons ev evs ih =>
    obtain ⟨k1, k2, k3, k4, k5⟩ := step_keeps env cfg s ev hK h1 h2
    obtain ⟨j1, j2, j3, j4, j5⟩ := ih (step env cfg s ev).1 k1 k2
    refine ⟨j1, j2, j3.trans k3, fun h => j4 (k4 h), ?_⟩
    intro hid a b
    obtain ⟨a', b'⟩ := k5 hid a b
    exact j5 hid a' b'

/-- C4. For every nonzero CLIENT_id, starting from well-formed lists that hold no live entry
with nodeID == CLIENT_id, after any sequence of received datagrams and ticks no live entry of
either list has nodeID == CLIENT_id. -/
theorem C4_own_node_exclusion (env : Env) (cfg : Config) (s : State) (evs : List Event)
    (hid : cfg.CLIENT_id ≠ 0) (hK : cfg.PROTO_K < 65536)
    (hrn : s.randomNodes.WF) (hin : s.importantNodes.WF)
    (h1 : ∀ n ∈ live s.randomNodes, n.nodeID ≠ cfg.CLIENT_id)
    (h2 : ∀ n ∈ live s.importantNodes, n.nodeID ≠ cfg.CLIENT_id) :
    (∀ n ∈ live (run env cfg s evs).randomNodes, n.nodeID ≠ cfg.CLIENT_id) ∧
    (∀ n ∈ live (run env cfg s evs).importantNodes, n.nodeID ≠ cfg.CLIENT_id) :=
  (run_keeps env cfg evs s hK hrn hin).2.2.2.2 hid h1 h2

/-- C5. Starting from the empty lists that `main` allocates with capacities 2N and M+K, both
at most 10000, after any sequence of received datagrams and ticks RandomList.nodeCount <= 2N
and ImportantList.nodeCount <= ImportantList.maxNodeCount <= 10000. -/
theorem C5_capacity (env : Env) (cfg : Config) (evs : List Event)
    (hN : cfg.PROTO_N * 2 ≤ 10000) (hMK : cfg.PROTO_M + cfg.PROTO_K ≤ 10000) :
    (run env cfg (initialState cfg env.junk) evs).randomNodes.nodeCount ≤ 2 * cfg.PROTO_N ∧
    (run env cfg (initialState cfg env.junk) evs).importantNodes.nodeCount ≤
      (run env cfg (initialState cfg env.junk) evs).importantNodes.maxNodeCount ∧
    (run env cfg (initialState cfg env.junk) evs).importantNodes.maxNodeCount ≤ 10000 := by
  have hm1 : (cfg.PROTO_N * 2) % 65536 = cfg.PROTO_N * 2 := Nat.mod_eq_of_lt (by omega)
  have hm2 : (cfg.PROTO_M + cfg.PROTO_K) % 65536 = cfg.PROTO_M + cfg.PROTO_K :=
    Nat.mod_eq_of_lt (by omega)
  have w1 : (initialState cfg env.junk).randomNodes.WF := by
    refine ⟨?_, ?_, ?_⟩ <;>
      simp only [initialState, NodeCollection_new, List.length_replicate, hm1] <;> omega
  have w2 : (initialState cfg env.junk).importantNodes.WF := by
    refine ⟨?_, ?_, ?_⟩ <;>
      simp only [initialState, NodeCollection_new, List.length_replicate, hm2] <;> omega
  obtain ⟨k1, k2, k3, k4, -⟩ := run_keeps env cfg evs (initialState cfg env.junk)
    (by omega) w1 w2
  have hmax : (initialState cfg env.junk).randomNodes.maxNodeCount = cfg.PROTO_N * 2 := by
    simp only [initialState, NodeCollection_new, hm1]
  have himax : (initialState cfg env.junk).importantNodes.maxNodeCount ≤ 10000 := by
    simp only [initialState, NodeCollection_new, hm2]
    exact hMK
  refine ⟨?_, k2.2.1, k4 himax⟩
  have := k1.2.1
  rw [k3, hmax] at this
  omega

/-- C4 (witness). The example state holds no entry with the client's ID 100, and none appears
in the example run. -/
theorem C4_own_node_exclusion_witness :
    (∀ n ∈ live (run exEnv exConfig exState exEvents).randomNodes,
      n.nodeID ≠ exConfig.CLIENT_id) ∧
    (∀ n ∈ live (run exEnv exConfig exState exEvents).importantNodes,
      n.nodeID ≠ exConfig.CLIENT_id) :=
  C4_own_node_exclusion exEnv exConfig exState exEvents (by decide) (by decide) (by decide)
    (by decide) (by decide) (by decide)

/-- C5 (witness). With N = 10, M = 30, K = 15 the capacities are 20 and 45, and the bounds
hold after the example run. -/
theorem C5_capacity_witness :
    (run exEnv exConfig (initialState exConfig exEnv.junk) exEvents).randomNodes.nodeCount
      ≤ 2 * exConfig.PROTO_N ∧
    (run exEnv exConfig (initialState exConfig exEnv.junk) exEvents).importantNodes.nodeCount ≤
      (run exEnv exConfig (initialState exConfig exEnv.junk)
        exEvents).importantNodes.maxNodeCount ∧
    (run exEnv exConfig (initialState exConfig exEnv.junk)
      exEvents).importantNodes.maxNodeCount ≤ 10000 :=
  C5_capacity exEnv exConfig exEvents (by decide) (by decide)

/-! ## Byte order -/

theorem be64 (a b c d e f g h : Nat) (hb : b < 256) (hc : c < 256) (hd : d < 256)
    (he : e < 256) (hf : f < 256) (hg : g < 256) (hh : h < 256) :
    (a <<< 56) ||| (b <<< 48) ||| (c <<< 40) ||| (d <<< 32) ||| (e <<< 24) ||| (f <<< 16) |||
      (g <<< 8) ||| h =
      a * 72057594037927936 + b * 281474976710656 + c * 1099511627776 + d * 4294967296
        + e * 16777216 + f * 65536 + g * 256 + h := by
  simp only [Nat.shiftLeft_eq]
  have h1 := lor_eq_add a 56 (b * 2 ^ 48) (by omega)
  have h2 := lor_eq_add (a * 2 ^ 8 + b) 48 (c * 2 ^ 40) (by omega)
  have h3 := lor_eq_add (a * 2 ^ 16 + b * 2 ^ 8 + c) 40 (d * 2 ^ 32) (by omega)
  have h4 := lor_eq_add (a * 2 ^ 24 + b * 2 ^ 16 + c * 2 ^ 8 + d) 32 (e * 2 ^ 24) (by omega)
  have h5 := lor_eq_add (a * 2 ^ 32 + b * 2 ^ 24 + c * 2 ^ 16 + d * 2 ^ 8 + e) 24 (f * 2 ^ 16)
    (by omega)
  have h6 := lor_eq_add (a * 2 ^ 40 + b * 2 ^ 32 + c * 2 ^ 24 + d * 2 ^ 16 + e * 2 ^ 8 + f) 16
    (g * 2 ^ 8) (by omega)
  have h7 := lor_eq_add
    (a * 2 ^ 48 + b * 2 ^ 40 + c * 2 ^ 32 + d * 2 ^ 24 + e * 2 ^ 16 + f * 2 ^ 8 + g) 8 h
    (by omega)
  norm_num at h1 h2 h3 h4 h5 h6 h7 ⊢
  have e1 : a * 72057594037927936 = 72057594037927936 * a := by omega
  rw [e1, h1]
  have e2 : 72057594037927936 * a + b * 281474976710656
      = 281474976710656 * (a * 256 + b) := by omega
  rw [e2, h2]
  have e3 : 281474976710656 * (a * 256 + b) + c * 1099511627776
      = 1099511627776 * (a * 65536 + b * 256 + c) := by omega
  rw [e3, h3]
  have e4 : 1099511627776 * (a * 65536 + b * 256 + c) + d * 4294967296
      = 4294967296 * (a * 16777216 + b * 65536 + c * 256 + d) := by omega
  rw [e4, h4]
  have e5 : 4294967296 * (a * 16777216 + b * 65536 + c * 256 + d) + e * 16777216
      = 16777216 * (a * 4294967296 + b * 16777216 + c * 65536 + d * 256 + e) := by omega
  rw [e5, h5]
  have e6 : 16777216 * (a * 4294967296 + b * 16777216 + c * 65536 + d * 256 + e) + f * 65536
      = 65536 * (a * 1099511627776 + b * 4294967296 + c * 16777216 + d * 65536 + e * 256 + f)
      := by omega
  rw [e6, h6]
  have e7 : 65536 * (a * 1099511627776 + b * 4294967296 + c * 16777216 + d * 65536 + e * 256
      + f) + g * 256
      = 256 * (a * 281474976710656 + b * 1099511627776 + c * 4294967296 + d * 16777216
        + e * 65536 + f * 256 + g) := by omega
  rw [e7, h7]

set_option maxHeartbeats 400000 in

theorem unpacku64_of_bytes (buf : Nat → Nat) (o x : Nat) (hx : x < 2 ^ 64)
    (h0 : buf o = (x >>> 56) % 256) (h1 : buf (o + 1) = (x >>> 48) % 256)
    (h2 : buf (o + 2) = (x >>> 40) % 256) (h3 : buf (o + 3) = (x >>> 32) % 256)
    (h4 : buf (o + 4) = (x >>> 24) % 256) (h5 : buf (o + 5) = (x >>> 16) % 256)
    (h6 : buf (o + 6) = (x >>> 8) % 256) (h7 : buf (o + 7) = x % 256) :
    unpacku64 buf o = x := by
  have hlt : ∀ y : Nat, y % 256 < 256 := fun y => Nat.mod_lt _ (by norm_num)
  have hb := be64 (buf o % 256) (buf (o + 1) % 256) (buf (o + 2) % 256) (buf (o + 3) % 256)
    (buf (o + 4) % 256) (buf (o + 5) % 256) (buf (o + 6) % 256) (buf (o + 7) % 256)
    (hlt _) (hlt _) (hlt _) (hlt _) (hlt _) (hlt _) (hlt _)
  unfold unpacku64 rd
  rw [hb, h0, h1, h2, h3, h4, h5, h6, h7]
  simp only [Nat.shiftRight_eq_div_pow]
  norm_num at hx ⊢
  clear hb h0 h1 h2 h3 h4 h5 h6 h7 hlt
  omega

/-- C20. `pack16`, `pack32` and `pack64` write the most significant byte first: the value
with bytes a, b (a, b, c, d; a, .., h) from the most significant to the least is written as
exactly these bytes in this order, each byte being the shifted value masked with 0xFF; so the
IPv4 address a.b.c.d held as the integer a * 2^24 + b * 2^16 + c * 2^8 + d is emitted as
a, b, c, d. -/
theorem C20_most_significant_byte_first (a b c d e f g h x : Nat) (ha : a < 256)
    (hb : b < 256) (hc : c < 256) (hd : d < 256) (he : e < 256) (hf : f < 256) (hg : g < 256)
    (hh : h < 256) :
    pack16 (a * 2 ^ 8 + b) = [a, b] ∧
    pack32 (a * 2 ^ 24 + b * 2 ^ 16 + c * 2 ^ 8 + d) = [a, b, c, d] ∧
    pack64 (a * 2 ^ 56 + b * 2 ^ 48 + c * 2 ^ 40 + d * 2 ^ 32 + e * 2 ^ 24 + f * 2 ^ 16
      + g * 2 ^ 8 + h) = [a, b, c, d, e, f, g, h] ∧
    pack32 x = [(x >>> 24) &&& 0xFF, (x >>> 16) &&& 0xFF, (x >>> 8) &&& 0xFF, x &&& 0xFF] := by
  have hand : ∀ y : Nat, y &&& 0xFF = y % 256 := fun y => Nat.and_pow_two_sub_one_eq_mod y 8
  refine ⟨?_, ?_, ?_, ?_⟩
  · simp only [pack16, Nat.shiftRight_eq_div_pow, List.cons.injEq, and_true]
    constructor <;> omega
  · simp only [pack32, Nat.shiftRight_eq_div_pow, List.cons.injEq, and_true]
    refine ⟨?_, ?_, ?_, ?_⟩ <;> omega
  · simp only [pack64, Nat.shiftRight_eq_div_pow, List.cons.injEq, and_true]
    refine ⟨?_, ?_, ?_, ?_, ?_, ?_, ?_, ?_⟩ <;> omega
  · simp only [pack32, hand]

/-- C20 (witness). The address 10.0.0.3, held as 167772163, is emitted as 10, 0, 0, 3. -/
theorem C20_most_significant_byte_first_witness :
    pack16 (10 * 2 ^ 8 + 0) = [10, 0] ∧
    pack32 (10 * 2 ^ 24 + 0 * 2 ^ 16 + 0 * 2 ^ 8 + 3) = [10, 0, 0, 3] ∧
    pack64 (10 * 2 ^ 56 + 0 * 2 ^ 48 + 0 * 2 ^ 40 + 3 * 2 ^ 32 + 5 * 2 ^ 24 + 6 * 2 ^ 16
      + 7 * 2 ^ 8 + 8) = [10, 0, 0, 3, 5, 6, 7, 8] ∧
    pack32 167772163 = [(167772163 >>> 24) &&& 0xFF, (167772163 >>> 16) &&& 0xFF,
      (167772163 >>> 8) &&& 0xFF, 167772163 &&& 0xFF] :=
  C20_most_significant_byte_first 10 0 0 3 5 6 7 8 167772163 (by decide) (by decide)
    (by decide) (by decide) (by decide) (by decide) (by decide) (by decide)

/-! ## Subscribers -/

theorem mem_stored_iff (subs : SubscriberList) (s : Subscriber) :
    s ∈ stored subs ↔ ∃ i, i < subs.num_subs ∧ subs.subscribers[i]? = some s := by
  rw [stored, List.mem_iff_getElem?]
  constructor
  · rintro ⟨i, hi⟩
    rw [List.getElem?_take] at hi
    by_cases h : i < subs.num_subs
    · rw [if_pos h] at hi; exact ⟨i, h, hi⟩
    · rw [if_neg h] at hi; cases hi
  · rintro ⟨i, h, hi⟩
    exact ⟨i, by rw [List.getElem?_take_of_lt h]; exact hi⟩

/-- C14 (counterexample). On the full list of 25 subscribers, adding the stored path "/s3"
again returns 0, not -1. -/
theorem C14_full_list_counterexample :
    (SubscriberList_addSub ⟨[], 0⟩ exFullSubs ⟨[47, 115, 51], 4⟩).1 = 0 ∧
    (∃ s ∈ stored exFullSubs, s = ⟨[47, 115, 51], 4⟩) ∧
    (SubscriberList_addSub ⟨[], 0⟩ exFullSubs ⟨[47, 115, 51], 4⟩).1 ≠ -1 := by
  decide

/-- C14 (amended). For every list that already stores a subscriber with the path and the
length of `new_sub`, `SubscriberList_addSub` leaves the list unchanged; it returns -1 when
the list is not full and 0 when it is full. -/
theorem C14_addSub_duplicate (junk : Subscriber) (subs : SubscriberList)
    (new_sub : Subscriber)
    (hdup : ∃ s ∈ stored subs, s.socket_address = new_sub.socket_address ∧
      s.address_length = new_sub.address_length) :
    (SubscriberList_addSub junk subs new_sub).2 = subs ∧
    (subs.num_subs < subs.max_num_subs → (SubscriberList_addSub junk subs new_sub).1 = -1) ∧
    (¬ subs.num_subs < subs.max_num_subs →
      (SubscriberList_addSub junk subs new_sub).1 = 0) := by
  obtain ⟨s, hs, hp, hl⟩ := hdup
  obtain ⟨i, hi, hget⟩ := (mem_stored_iff subs s).1 hs
  have hany : (List.range subs.num_subs).any (addSubMatches junk subs new_sub) = true := by
    rw [List.any_eq_true]
    refine ⟨i, List.mem_range.2 hi, ?_⟩
    simp only [addSubMatches, List.getD_eq_getElem?_getD, hget, Option.getD_some, hp, hl,
      decide_True, Bool.and_self]
  unfold SubscriberList_addSub
  by_cases hfull : subs.num_subs < subs.max_num_subs
  · simp only [hfull, if_true, hany]
    refine ⟨?_, fun _ => ?_, fun h => absurd trivial h⟩ <;> simp
  · simp only [hfull, if_false]
    exact ⟨trivial, fun h => absurd h (by simp), fun _ => trivial⟩

/-- C14 (witness). The example list stores "/b" with length 3 and is not full: adding it
again returns -1 and changes nothing. -/
theorem C14_addSub_duplicate_witness :
    (SubscriberList_addSub ⟨[], 0⟩ exSubs ⟨[47, 98], 3⟩).2 = exSubs ∧
    (exSubs.num_subs < exSubs.max_num_subs →
      (SubscriberList_addSub ⟨[], 0⟩ exSubs ⟨[47, 98], 3⟩).1 = -1) ∧
    (¬ exSubs.num_subs < exSubs.max_num_subs →
      (SubscriberList_addSub ⟨[], 0⟩ exSubs ⟨[47, 98], 3⟩).1 = 0) :=
  C14_addSub_duplicate ⟨[], 0⟩ exSubs ⟨[47, 98], 3⟩ (by decide)

theorem removeSub_index (P : Nat → Prop) [DecidablePred P] (n : Nat) :
    ((List.range n).foldl (fun (index : Int) i => if P i then (i : Int) else index) (-1) = -1 ∧
      ∀ i, i < n → ¬ P i) ∨
    (∃ k, k < n ∧ P k ∧
      (List.range n).foldl (fun (index : Int) i => if P i then (i : Int) else index) (-1)
        = (k : Int)) := by
  induction n with
  | zero => exact Or.inl ⟨rfl, fun i hi => absurd hi (Nat.not_lt_zero i)⟩
  | succ n ih =>
    rw [List.range_succ, List.foldl_append]
    simp only [List.foldl_cons, List.foldl_nil]
    by_cases hp : P n
    · rw [if_pos hp]
      exact Or.inr ⟨n, Nat.lt_succ_self n, hp, rfl⟩
    · rw [if_neg hp]
      rcases ih with ⟨h1, h2⟩ | ⟨k, hk, hpk, he⟩
      · refine Or.inl ⟨h1, fun i hi => ?_⟩
        by_cases hin : i = n
        · subst hin; exact hp
        · exact h2 i (by omega)
      · exact Or.inr ⟨k, by omega, hpk, he⟩

theorem removeSub_shift (junk : Subscriber) (l : List Subscriber) (idx m : Nat)
    (hm : idx + m + 1 ≤ l.length ∨ m = 0) :
    ((List.range' idx m).foldl
      (fun (slots : List Subscriber) k => slots.set k (slots.getD (k + 1) junk)) l).length
      = l.length ∧
    ∀ j : Nat, ((List.range' idx m).foldl
      (fun (slots : List Subscriber) k => slots.set k (slots.getD (k + 1) junk)) l)[j]? =
      if idx ≤ j ∧ j < idx + m then l[j + 1]? else l[j]? := by
  induction m with
  | zero =>
    refine ⟨rfl, fun j => ?_⟩
    rw [if_neg (by omega)]
    rfl
  | succ m ih =>
    have hm' : idx + m + 2 ≤ l.length := by omega
    obtain ⟨h1, h2⟩ := ih (Or.inl (by omega))
    rw [List.range'_concat, List.foldl_append]
    simp only [List.foldl_cons, List.foldl_nil, Nat.one_mul]
    generalize (List.range' idx m).foldl
      (fun (slots : List Subscriber) k => slots.set k (slots.getD (k + 1) junk)) l = st at *
    refine ⟨by rw [List.length_set]; exact h1, fun j => ?_⟩
    have hnext : st.getD (idx + m + 1) junk = l[idx + m + 1] := by
      rw [List.getD_eq_getElem?_getD, h2, if_neg (by omega),
        List.getElem?_eq_getElem (by omega)]
      rfl
    by_cases hj : j = idx + m
    · subst hj
      rw [List.getElem?_set_self (by omega), hnext, if_pos (by omega),
        List.getElem?_eq_getElem (by omega)]
    · rw [List.getElem?_set_ne (by omega), h2 j]
      by_cases hc : idx ≤ j ∧ j < idx + m
      · rw [if_pos hc, if_pos (by omega)]
      · rw [if_neg hc, if_neg (by omega)]

theorem removeSub_spec (junk : Subscriber) (subs : SubscriberList) (rmv_sub : Subscriber)
    (hlen : subs.num_subs ≤ subs.subscribers.length) :
    (SubscriberList_removeSub junk subs rmv_sub).2.subscribers.length
      = subs.subscribers.length ∧
    ((∀ s ∈ stored subs, s.socket_address ≠ rmv_sub.socket_address) →
      SubscriberList_removeSub junk subs rmv_sub = (0, subs)) ∧
    ((∃ s ∈ stored subs, s.socket_address = rmv_sub.socket_address) →
      (SubscriberList_removeSub junk subs rmv_sub).1 = 1 ∧
      (SubscriberList_removeSub junk subs rmv_sub).2.num_subs + 1 = subs.num_subs ∧
      (SubscriberList_removeSub junk subs rmv_sub).2.max_num_subs = subs.max_num_subs ∧
      ∃ idx s, (stored subs)[idx]? = some s ∧ s.socket_address = rmv_sub.socket_address ∧
        stored (SubscriberList_removeSub junk subs rmv_sub).2 = (stored subs).eraseIdx idx) := by
  have hidx := removeSub_index
    (fun i => (subs.subscribers.getD i junk).socket_address = rmv_sub.socket_address)
    subs.num_subs
  have hgetD : ∀ i, i < subs.num_subs →
      subs.subscribers[i]? = some (subs.subscribers.getD i junk) := by
    intro i hi
    rw [List.getD_eq_getElem?_getD, List.getElem?_eq_getElem (by omega)]
    rfl
  refine ⟨?_, ?_, ?_⟩
  · rcases hidx with ⟨h1, -⟩ | ⟨k, hk, hpk, he⟩
    · simp only [SubscriberList_removeSub, h1]
      rfl
    · have hpos : ((k : Int) > -1) := by omega
      simp only [SubscriberList_removeSub, he, hpos, if_true, Int.toNat_ofNat]
      exact (removeSub_shift junk subs.subscribers k (subs.num_subs - 1 - k)
        (Or.inl (by omega))).1
  · intro hno
    rcases hidx with ⟨h1, -⟩ | ⟨k, hk, hpk, -⟩
    · simp only [SubscriberList_removeSub, h1]
      rfl
    · exact absurd hpk (hno _ ((mem_stored_iff subs _).2 ⟨k, hk, hgetD k hk⟩))
  · rintro ⟨s, hs, hp⟩
    obtain ⟨i, hi, hget⟩ := (mem_stored_iff subs s).1 hs
    rcases hidx with ⟨-, h2⟩ | ⟨k, hk, hpk, he⟩
    · exfalso
      apply h2 i hi
      simp only [List.getD_eq_getElem?_getD, hget, Option.getD_some, hp]
    · obtain ⟨f1, f2⟩ := removeSub_shift junk subs.subscribers k (subs.num_subs - 1 - k)
        (Or.inl (by omega))
      have hpos : ((k : Int) > -1) := by omega
      simp only [SubscriberList_removeSub, he, hpos, if_true, Int.toNat_ofNat]
      refine ⟨trivial, by omega, trivial, k, subs.subscribers.getD k junk, ?_, hpk, ?_⟩
      · rw [stored, List.getElem?_take_of_lt hk]
        exact hgetD k hk
      · apply List.ext_getElem?
        intro j
        simp only [stored]
        rw [List.getElem?_take, f2 j, List.getElem?_eraseIdx, List.getElem?_take,
          List.getElem?_take]
        by_cases hj1 : j < subs.num_subs - 1
        · rw [if_pos hj1]
          by_cases hjk : j < k
          · rw [if_neg (by omega), if_pos hjk, if_pos (by omega)]
          · rw [if_pos (by omega), if_neg hjk, if_pos (by omega)]
        · rw [if_neg hj1]
          by_cases hjk : j < k
          · omega
          · rw [if_neg hjk, if_neg (by omega)]

/-- C15. For every list whose `num_subs` stored subscribers lie within the array, and every
path: when no stored subscriber has the path, `SubscriberList_removeSub` returns 0 and
leaves the list unchanged; otherwise it returns 1, lowers `num_subs` by exactly one, and the
stored subscribers afterwards are those before with one subscriber of that path taken out,
in the same order. -/
theorem C15_removeSub (junk : Subscriber) (subs : SubscriberList) (rmv_sub : Subscriber)
    (hlen : subs.num_subs ≤ subs.subscribers.length) :
    ((∀ s ∈ stored subs, s.socket_address ≠ rmv_sub.socket_address) →
      SubscriberList_removeSub junk subs rmv_sub = (0, subs)) ∧
    ((∃ s ∈ stored subs, s.socket_address = rmv_sub.socket_address) →
      (SubscriberList_removeSub junk subs rmv_sub).1 = 1 ∧
      (SubscriberList_removeSub junk subs rmv_sub).2.num_subs + 1 = subs.num_subs ∧
      (SubscriberList_removeSub junk subs rmv_sub).2.max_num_subs = subs.max_num_subs ∧
      ∃ idx s, (stored subs)[idx]? = some s ∧ s.socket_address = rmv_sub.socket_address ∧
        stored (SubscriberList_removeSub junk subs rmv_sub).2 = (stored subs).eraseIdx idx) :=
  (removeSub_spec junk subs rmv_sub hlen).2

/-- C15 (witness). Removing "/b" from the example list leaves "/a", "/c"; the example list
stores three subscribers in an array of 25 slots. -/
theorem C15_removeSub_witness :
    ((∀ s ∈ stored exSubs, s.socket_address ≠ [47, 98]) →
      SubscriberList_removeSub ⟨[], 0⟩ exSubs ⟨[47, 98], 2⟩ = (0, exSubs)) ∧
    ((∃ s ∈ stored exSubs, s.socket_address = [47, 98]) →
      (SubscriberList_removeSub ⟨[], 0⟩ exSubs ⟨[47, 98], 2⟩).1 = 1 ∧
      (SubscriberList_removeSub ⟨[], 0⟩ exSubs ⟨[47, 98], 2⟩).2.num_subs + 1
        = exSubs.num_subs ∧
      (SubscriberList_removeSub ⟨[], 0⟩ exSubs ⟨[47, 98], 2⟩).2.max_num_subs
        = exSubs.max_num_subs ∧
      ∃ idx s, (stored exSubs)[idx]? = some s ∧ s.socket_address = [47, 98] ∧
        stored (SubscriberList_removeSub ⟨[], 0⟩ exSubs ⟨[47, 98], 2⟩).2
          = (stored exSubs).eraseIdx idx) :=
  C15_removeSub ⟨[], 0⟩ exSubs ⟨[47, 98], 2⟩ (by decide)

theorem take_set_of_le {α : Type} (l : List α) (n m : Nat) (a : α) (h : m ≤ n) :
    (l.set n a).take m = l.take m := by
  apply List.ext_getElem?
  intro j
  rw [List.getElem?_take, List.getElem?_take]
  by_cases hj : j < m
  · rw [if_pos hj, if_pos hj, List.getElem?_set_ne (by omega)]
  · rw [if_neg hj, if_neg hj]

theorem addSub_inv (junk : Subscriber) (subs : SubscriberList) (p : CString)
    (h : SubsInv subs) :
    SubsInv (SubscriberList_addSub junk subs (Subscriber_new p (p.length + 1))).2 := by
  obtain ⟨h1, h2, h3, h4, h5⟩ := h
  by_cases hfull : subs.num_subs < subs.max_num_subs
  · by_cases hany : (List.range subs.num_subs).any
        (addSubMatches junk subs (Subscriber_new p (p.length + 1))) = true
    · have hres : SubscriberList_addSub junk subs (Subscriber_new p (p.length + 1))
          = (-1, subs) := by
        simp [SubscriberList_addSub, hfull, hany]
      rw [hres]
      exact ⟨h1, h2, h3, h4, h5⟩
    · have hres : SubscriberList_addSub junk subs (Subscriber_new p (p.length + 1))
          = (1, { subs with
            subscribers := subs.subscribers.set subs.num_subs
              (Subscriber_new p (p.length + 1))
            num_subs := subs.num_subs + 1 }) := by
        simp [SubscriberList_addSub, hfull, hany]
      rw [hres]
      have hlt : subs.num_subs < subs.subscribers.length := by omega
      have hst : stored { subs with
          subscribers := subs.subscribers.set subs.num_subs (Subscriber_new p (p.length + 1))
          num_subs := subs.num_subs + 1 } =
          stored subs ++ [Subscriber_new p (p.length + 1)] := by
        simp only [stored]
        rw [List.take_succ, List.getElem?_set_self hlt,
          take_set_of_le _ _ _ _ (Nat.le_refl _)]
        rfl
      have hnew : p ∉ (stored subs).map (fun s => s.socket_address) := by
        intro hmem
        obtain ⟨s, hs, hsp⟩ := List.mem_map.1 hmem
        obtain ⟨i, hi, hget⟩ := (mem_stored_iff subs s).1 hs
        apply hany
        rw [List.any_eq_true]
        refine ⟨i, List.mem_range.2 hi, ?_⟩
        have hl := h5 s hs
        simp only [addSubMatches, List.getD_eq_getElem?_getD, hget, Option.getD_some,
          Subscriber_new, hl, hsp, decide_True, Bool.and_self]
      refine ⟨by simp only [List.length_set]; exact h1, h2, by simp only; omega, ?_, ?_⟩
      · rw [hst, List.map_append, List.nodup_append]
        refine ⟨h4, by simp, ?_⟩
        rw [List.map_singleton, List.disjoint_singleton]
        exact hnew
      · rw [hst]
        intro s hs
        rcases List.mem_append.1 hs with hs | hs
        · exact h5 s hs
        · rw [List.mem_singleton] at hs
          subst hs
          rfl
  · have hres : SubscriberList_addSub junk subs (Subscriber_new p (p.length + 1))
        = (0, subs) := by
      simp [SubscriberList_addSub, hfull]
    rw [hres]
    exact ⟨h1, h2, h3, h4, h5⟩

theorem removeSub_inv (junk : Subscriber) (subs : SubscriberList) (rmv_sub : Subscriber)
    (h : SubsInv subs) : SubsInv (SubscriberList_removeSub junk subs rmv_sub).2 := by
  obtain ⟨h1, h2, h3, h4, h5⟩ := h
  obtain ⟨c0, c1, c2⟩ := removeSub_spec junk subs rmv_sub (by omega)
  by_cases hex : ∃ s ∈ stored subs, s.socket_address = rmv_sub.socket_address
  · obtain ⟨-, d2, d3, idx, s, -, -, d6⟩ := c2 hex
    refine ⟨?_, by rw [d3]; exact h2, by omega, ?_, ?_⟩
    · exact c0.trans h1
    · rw [d6]
      exact List.Nodup.sublist ((List.eraseIdx_sublist _ _).map _) h4
    · rw [d6]
      exact fun s hs => h5 s (List.mem_of_mem_eraseIdx hs)
  · have hno : ∀ s ∈ stored subs, s.socket_address ≠ rmv_sub.socket_address :=
      fun s hs hp => hex ⟨s, hs, hp⟩
    rw [c1 hno]
    exact ⟨h1, h2, h3, h4, h5⟩

theorem new_inv (junk : Subscriber) : SubsInv (SubscriberList_new junk MAX_NUM_SUBSCRIBERS) := by
  refine ⟨by simp [SubscriberList_new, MAX_NUM_SUBSCRIBERS], by
    simp [SubscriberList_new, MAX_NUM_SUBSCRIBERS], by simp [SubscriberList_new], ?_, ?_⟩
  · simp [stored, SubscriberList_new]
  · simp [stored, SubscriberList_new]

theorem handleRequest_inv (junk : Subscriber) (lr : LocalRequest) (config : Config)
    (subs : SubscriberList) (h : SubsInv subs) :
    SubsInv (LocalIO_handleRequest junk lr config subs).2.2 := by
  unfold LocalIO_handleRequest
  split_ifs
  · exact h
  · exact h
  · exact h
  · exact addSub_inv junk subs lr.sock_addr h
  · exact removeSub_inv junk subs _ h
  · exact h

theorem runLocal_inv (junk : Subscriber) (reqs : List LocalRequest) (config : Config)
    (subs : SubscriberList) (h : SubsInv subs) :
    SubsInv (runLocal junk config subs reqs).2 := by
  induction reqs generalizing config subs with
  | nil => exact h
  | cons lr rest ih =>
    simp only [runLocal, List.foldl_cons]
    exact ih _ _ (handleRequest_inv junk lr config subs h)

/-- Claim C16. From the empty list of subscribers with capacity 25, after any sequence of
local requests handled by `LocalIO_handleRequest` the list holds at most 25 subscribers and
no path twice; and when it holds 25, `SubscriberList_addSub` returns 0 for every further
subscriber and a request `SUB_CANDNODES` leaves the list as it is. -/
theorem C16_subscriber_list_invariant (junk : Subscriber) (config : Config)
    (reqs : List LocalRequest) :
    (runLocal junk config (SubscriberList_new junk MAX_NUM_SUBSCRIBERS) reqs).2.num_subs ≤ 25 ∧
    ((stored (runLocal junk config (SubscriberList_new junk MAX_NUM_SUBSCRIBERS) reqs).2).map
      (fun s => s.socket_address)).Nodup ∧
    ((runLocal junk config (SubscriberList_new junk MAX_NUM_SUBSCRIBERS) reqs).2.num_subs = 25 →
      (∀ new_sub : Subscriber,
        SubscriberList_addSub junk
          (runLocal junk config (SubscriberList_new junk MAX_NUM_SUBSCRIBERS) reqs).2 new_sub =
        (0, (runLocal junk config (SubscriberList_new junk MAX_NUM_SUBSCRIBERS) reqs).2)) ∧
      ∀ (lr : LocalRequest) (cfg : Config), lr.type = SUB_CANDNODES →
        (LocalIO_handleRequest junk lr cfg
          (runLocal junk config (SubscriberList_new junk MAX_NUM_SUBSCRIBERS) reqs).2).2.2 =
        (runLocal junk config (SubscriberList_new junk MAX_NUM_SUBSCRIBERS) reqs).2) := by
  obtain ⟨h1, h2, h3, h4, h5⟩ := runLocal_inv junk reqs config _ (new_inv junk)
  refine ⟨h3, h4, fun hfull => ?_⟩
  have hadd : ∀ new_sub : Subscriber,
      SubscriberList_addSub junk
        (runLocal junk config (SubscriberList_new junk MAX_NUM_SUBSCRIBERS) reqs).2 new_sub =
      (0, (runLocal junk config (SubscriberList_new junk MAX_NUM_SUBSCRIBERS) reqs).2) := by
    intro new_sub
    unfold SubscriberList_addSub
    rw [if_neg (by omega)]
  refine ⟨hadd, fun lr cfg ht => ?_⟩
  simp only [LocalIO_handleRequest, ht, SUB_CANDNODES, SET_POSITION, SET_COORDINATION_RANGE,
    SET_POS_AND_RANGE, hadd]
  simp

/-- Twenty-five subscriptions from the empty list fill it; the 26th path is refused. -/
theorem C16_subscriber_list_invariant_witness :
    (runLocal ⟨[], 0⟩ exConfig (SubscriberList_new ⟨[], 0⟩ MAX_NUM_SUBSCRIBERS)
      exSubRequests).2.num_subs = 25 ∧
    SubscriberList_addSub ⟨[], 0⟩
      (runLocal ⟨[], 0⟩ exConfig (SubscriberList_new ⟨[], 0⟩ MAX_NUM_SUBSCRIBERS)
        exSubRequests).2 ⟨[47, 122], 3⟩ =
      (0, (runLocal ⟨[], 0⟩ exConfig (SubscriberList_new ⟨[], 0⟩ MAX_NUM_SUBSCRIBERS)
        exSubRequests).2) :=
  ⟨by decide,
   ((C16_subscriber_list_invariant ⟨[], 0⟩ exConfig exSubRequests).2.2 (by decide)).1
     ⟨[47, 122], 3⟩⟩

/-! ## Local delivery of the candidate nodes -/

theorem live_set_append (a : NodeCollection) (x : Node) (h : a.nodeCount < a.nodes.length) :
    live { a with nodes := a.nodes.set a.nodeCount x, nodeCount := a.nodeCount + 1 } =
      live a ++ [x] := by
  simp only [live]
  rw [List.take_succ, List.getElem?_set_self h, take_set_of_le _ _ _ _ (Nat.le_refl _)]
  rfl

theorem length_live (a : NodeCollection) (h : a.nodeCount ≤ a.nodes.length) :
    (live a).length = a.nodeCount := by
  simp only [live, List.length_take]
  omega

theorem append_prefix (junk : Node) (a b : NodeCollection) (ignoreNodeId : Nat)
    (ha1 : a.nodes.length = a.maxNodeCount) (ha2 : a.nodeCount ≤ a.maxNodeCount)
    (k : Nat) (hk : k ≤ b.nodes.length) :
    ((List.range k).foldl (appendStep junk b ignoreNodeId) a).maxNodeCount = a.maxNodeCount ∧
    ((List.range k).foldl (appendStep junk b ignoreNodeId) a).nodes.length = a.maxNodeCount ∧
    ((List.range k).foldl (appendStep junk b ignoreNodeId) a).nodeCount ≤ a.maxNodeCount ∧
    ((List.range k).foldl (appendStep junk b ignoreNodeId) a).versionID = a.versionID ∧
    ((List.range k).foldl (appendStep junk b ignoreNodeId) a).payloadType = a.payloadType ∧
    live ((List.range k).foldl (appendStep junk b ignoreNodeId) a) =
      (live a ++ (b.nodes.take k).filter
        (fun n => decide (ignoreNodeId = 0 ∨ ignoreNodeId ≠ n.nodeID))).take a.maxNodeCount := by
  induction k with
  | zero =>
    refine ⟨rfl, ha1, ha2, rfl, rfl, ?_⟩
    simp only [List.range_zero, List.foldl_nil, List.take_zero, List.filter_nil,
      List.append_nil]
    refine (List.take_of_length_le ?_).symm
    rw [length_live a (by omega)]
    exact ha2
  | succ k ih =>
    obtain ⟨h1, h2, h3, h4, h5, h6⟩ := ih (by omega)
    rw [List.range_succ, List.foldl_append]
    simp only [List.foldl_cons, List.foldl_nil]
    generalize (List.range k).foldl (appendStep junk b ignoreNodeId) a = a' at h1 h2 h3 h4 h5 h6 ⊢
    have hkb : k < b.nodes.length := by omega
    have hat : nodeAt junk b k = b.nodes[k] := by
      simp only [nodeAt, List.getD_eq_getElem?_getD, List.getElem?_eq_getElem hkb,
        Option.getD_some]
    have htk : b.nodes.take (k + 1) = b.nodes.take k ++ [b.nodes[k]] := by
      rw [List.take_succ, List.getElem?_eq_getElem hkb]
      rfl
    have hlen := length_live a' (by omega)
    rw [h6, List.length_take, List.length_append] at hlen
    unfold appendStep
    rw [hat, htk, List.filter_append]
    by_cases hfull : a'.nodeCount < a'.maxNodeCount
    · rw [if_pos hfull]
      have hw : (live a ++ (b.nodes.take k).filter
          (fun n => decide (ignoreNodeId = 0 ∨ ignoreNodeId ≠ n.nodeID))).length
            < a.maxNodeCount := by
        rw [List.length_append]; omega
      have h6' : live a' = live a ++ (b.nodes.take k).filter
          (fun n => decide (ignoreNodeId = 0 ∨ ignoreNodeId ≠ n.nodeID)) := by
        rw [h6]
        exact List.take_of_length_le (by omega)
      by_cases hp : ignoreNodeId = 0 ∨ ignoreNodeId ≠ b.nodes[k].nodeID
      · rw [if_pos hp]
        refine ⟨h1, by simp only [List.length_set]; exact h2, by simp only; omega, h4, h5, ?_⟩
        rw [live_set_append a' _ (by omega), h6']
        have hf : [b.nodes[k]].filter
            (fun n => decide (ignoreNodeId = 0 ∨ ignoreNodeId ≠ n.nodeID)) = [b.nodes[k]] := by
          simp only [List.filter_cons, List.filter_nil, hp, decide_True, if_true]
        rw [hf, ← List.append_assoc]
        refine (List.take_of_length_le ?_).symm
        rw [List.length_append, List.length_singleton]
        omega
      · rw [if_neg hp]
        have hf : [b.nodes[k]].filter
            (fun n => decide (ignoreNodeId = 0 ∨ ignoreNodeId ≠ n.nodeID)) = [] := by
          simp only [List.filter_cons, List.filter_nil, hp, decide_False]
          rfl
        rw [hf, List.append_nil]
        exact ⟨h1, h2, h3, h4, h5, h6⟩
    · rw [if_neg hfull]
      refine ⟨h1, h2, h3, h4, h5, ?_⟩
      rw [h6, ← List.append_assoc]
      refine (List.take_append_of_le_length ?_).symm
      rw [List.length_append]
      omega

theorem append_live (junk : Node) (a b : NodeCollection) (ignoreNodeId : Nat)
    (ha1 : a.nodes.length = a.maxNodeCount) (ha2 : a.nodeCount ≤ a.maxNodeCount)
    (hb : b.nodeCount ≤ b.nodes.length) :
    (NodeCollection_append junk a b ignoreNodeId).maxNodeCount = a.maxNodeCount ∧
    (NodeCollection_append junk a b ignoreNodeId).nodes.length = a.maxNodeCount ∧
    (NodeCollection_append junk a b ignoreNodeId).nodeCount ≤ a.maxNodeCount ∧
    (NodeCollection_append junk a b ignoreNodeId).versionID = a.versionID ∧
    (NodeCollection_append junk a b ignoreNodeId).payloadType = a.payloadType ∧
    live (NodeCollection_append junk a b ignoreNodeId) =
      (live a ++ (live b).filter
        (fun n => decide (ignoreNodeId = 0 ∨ ignoreNodeId ≠ n.nodeID))).take a.maxNodeCount :=
  append_prefix junk a b ignoreNodeId ha1 ha2 b.nodeCount hb

theorem map_getD_range {α : Type} (l : List α) (d : α) (n : Nat) (h : n ≤ l.length) :
    (List.range n).map (fun i => l.getD i d) = l.take n := by
  induction n with
  | zero => rfl
  | succ n ih =>
    rw [List.range_succ, List.map_append, ih (by omega), List.take_succ]
    simp only [List.map_cons, List.map_nil, List.getD_eq_getElem?_getD,
      List.getElem?_eq_getElem (show n < l.length by omega), Option.getD_some]
    rfl

theorem takeWhile_all (p : Nat → Bool) (n : Nat) (h : ∀ i, i < n → p i = true) :
    (List.range n).takeWhile p = List.range n :=
  List.takeWhile_eq_self_iff.2 (fun i hi => h i (List.mem_range.1 hi))

/-- C13 (counterexample). With own nodeID 0 the filter of `NodeCollection_append` is off: a
candidate with nodeID 0, equal to the own ID, follows the own node in the collection that is
packed. -/
theorem C13_own_id_zero_counterexample :
    live (LocalIO_sendCandidateNodes_nc (exNode 0 0) exCandidatesZero (exNode 0 3000)) =
      [exNode 0 3000, exNode 0 1000] ∧
    (exNode 0 1000).nodeID = (exNode 0 3000).nodeID := by
  decide

theorem sendCandidateLoop_fits (junkSub : Subscriber) (sockOk : Nat → Bool)
    (subs : SubscriberList) (data : Option (List Nat)) (data_size : Nat) (l : List Nat)
    (h : ∀ i ∈ l, (subs.subscribers.getD i junkSub).socket_address.length < UNIX_PATH_MAX) :
    sendCandidateLoop junkSub sockOk subs data data_size l =
      some ((l.takeWhile sockOk).map (fun i =>
        { path := (subs.subscribers.getD i junkSub).socket_address
          data := data, data_size := data_size })) := by
  induction l with
  | nil => rfl
  | cons i rest ih =>
    have hi : (subs.subscribers.getD i junkSub).socket_address.length + 1 ≤ UNIX_PATH_MAX :=
      h i (List.mem_cons_self i rest)
    have ih' := ih (fun k hk => h k (List.mem_cons_of_mem i hk))
    simp only [sendCandidateLoop, if_pos hi]
    by_cases hok : sockOk i = true
    · rw [if_pos hok, ih', List.takeWhile_cons_of_pos hok]
      rfl
    · rw [if_neg hok, List.takeWhile_cons_of_neg hok]
      rfl

/-- A stored path of 108 bytes does not fit into `addr.sun_path` with its terminator: the
`strcpy` of `LocalIO_sendCandidateNodes` writes past the array. -/
theorem sendCandidateNodes_path_overflow :
    (stored exLongPathSubs).map (fun s => s.socket_address.length) = [108] ∧
    LocalIO_sendCandidateNodes exEnv.enc754 (exNode 0 0) ⟨[], 0⟩ (fun _ => true) exCandidates
      exLongPathSubs (exNode 100 3000) = none := by
  decide

/-- C13 (amended). For a candidate collection of fewer than 65535 entries, the collection
that `LocalIO_sendCandidateNodes` packs has versionID 1 and payloadType INTERNAL; its live
entries are the own node followed by the candidates in their order, those with the own ID
left out when the own ID is nonzero; when no candidate has the own ID its nodeCount is the
candidates' count plus one. When every stored path is shorter than the UNIX_PATH_MAX bytes
of `sun_path`, the calls of `sendto` are defined, every call carries the same packed buffer
and size, and when every call of `socket` succeeds the destinations are the stored paths in
order. -/
theorem C13_sendCandidateNodes (enc754 : Dbl → Nat) (junk : Node) (junkSub : Subscriber)
    (sockOk : Nat → Bool) (cn : NodeCollection) (subs : SubscriberList) (ownNode : Node)
    (hcn : cn.nodeCount ≤ cn.nodes.length) (hc : cn.nodeCount < 65535)
    (hs : subs.num_subs ≤ subs.subscribers.length)
    (hp : ∀ s ∈ stored subs, s.socket_address.length < UNIX_PATH_MAX) :
    (LocalIO_sendCandidateNodes_nc junk cn ownNode).versionID = 1 ∧
    (LocalIO_sendCandidateNodes_nc junk cn ownNode).payloadType = INTERNAL ∧
    live (LocalIO_sendCandidateNodes_nc junk cn ownNode) =
      ownNode :: (live cn).filter
        (fun n => decide (ownNode.nodeID = 0 ∨ ownNode.nodeID ≠ n.nodeID)) ∧
    ((∀ n ∈ live cn, n.nodeID ≠ ownNode.nodeID) →
      (LocalIO_sendCandidateNodes_nc junk cn ownNode).nodeCount = cn.nodeCount + 1) ∧
    ∃ sends, LocalIO_sendCandidateNodes enc754 junk junkSub sockOk cn subs ownNode
        = some sends ∧
      (∀ s ∈ sends,
        s.data = (NodeCollection_pack enc754 junk
          (LocalIO_sendCandidateNodes_nc junk cn ownNode)).1 ∧
        s.data_size = (NodeCollection_pack enc754 junk
          (LocalIO_sendCandidateNodes_nc junk cn ownNode)).2) ∧
      ((∀ i, i < subs.num_subs → sockOk i = true) →
        sends.map (fun s => s.path) = (stored subs).map (fun s => s.socket_address)) := by
  have hmod : (cn.nodeCount + 1) % 65536 = cn.nodeCount + 1 := Nat.mod_eq_of_lt (by omega)
  obtain ⟨a1, a2, a3, a4, a5, a6⟩ := append_live junk
    { NodeCollection_new junk P2PDPRD_VERSION_ID INTERNAL (cn.nodeCount + 1) with
      nodes := (NodeCollection_new junk P2PDPRD_VERSION_ID INTERNAL
        (cn.nodeCount + 1)).nodes.set 0 ownNode
      nodeCount := 1 } cn ownNode.nodeID
    (by simp only [NodeCollection_new, List.length_set, List.length_replicate])
    (by simp only [NodeCollection_new, hmod]; omega) hcn
  have hlive0 : live { NodeCollection_new junk P2PDPRD_VERSION_ID INTERNAL (cn.nodeCount + 1) with
      nodes := (NodeCollection_new junk P2PDPRD_VERSION_ID INTERNAL
        (cn.nodeCount + 1)).nodes.set 0 ownNode
      nodeCount := 1 } = [ownNode] := by
    simp only [live, NodeCollection_new, hmod, List.replicate_succ, List.set_cons_zero,
      List.take_succ_cons, List.take_zero]
  have hfl : ((live cn).filter
      (fun n => decide (ownNode.nodeID = 0 ∨ ownNode.nodeID ≠ n.nodeID))).length
        ≤ cn.nodeCount :=
    (List.length_filter_le _ _).trans (by rw [length_live cn hcn])
  have hlive : live (LocalIO_sendCandidateNodes_nc junk cn ownNode) =
      ownNode :: (live cn).filter
        (fun n => decide (ownNode.nodeID = 0 ∨ ownNode.nodeID ≠ n.nodeID)) := by
    show live (NodeCollection_append junk _ cn ownNode.nodeID) = _
    rw [a6, hlive0]
    simp only [NodeCollection_new, hmod, List.singleton_append]
    exact List.take_of_length_le (by simp only [List.length_cons]; omega)
  have hfit : ∀ i ∈ List.range subs.num_subs,
      (subs.subscribers.getD i junkSub).socket_address.length < UNIX_PATH_MAX := by
    intro i hi
    have hi' := List.mem_range.1 hi
    apply hp
    rw [mem_stored_iff]
    refine ⟨i, hi', ?_⟩
    rw [List.getD_eq_getElem?_getD, List.getElem?_eq_getElem (by omega)]
    rfl
  refine ⟨a4, a5, hlive, fun hno => ?_, _, sendCandidateLoop_fits junkSub sockOk subs _ _ _ hfit,
    fun s hs => ?_, fun hok => ?_⟩
  · have hl := length_live (LocalIO_sendCandidateNodes_nc junk cn ownNode)
      (a3.trans (le_of_eq a2.symm))
    rw [hlive, List.length_cons, List.filter_eq_self.2, length_live cn hcn] at hl
    · exact hl.symm
    · intro n hn
      exact decide_eq_true (Or.inr (fun h => hno n hn h.symm))
  · simp only [List.mem_map] at hs
    obtain ⟨i, -, rfl⟩ := hs
    exact ⟨rfl, rfl⟩
  · simp only [takeWhile_all sockOk subs.num_subs hok, List.map_map, stored]
    rw [← map_getD_range subs.subscribers junkSub subs.num_subs hs, List.map_map]
    rfl

/-- C13 (witness). Own node 100 and the three candidates 9, 7, 5 give a collection of four
entries, sent to the three stored paths, each of two bytes. -/
theorem C13_sendCandidateNodes_witness :
    (LocalIO_sendCandidateNodes_nc (exNode 0 0) exCandidates (exNode 100 3000)).nodeCount = 4 ∧
    live (LocalIO_sendCandidateNodes_nc (exNode 0 0) exCandidates (exNode 100 3000)) =
      [exNode 100 3000, exNode 9 2000, exNode 7 1000, exNode 5 1500] ∧
    (LocalIO_sendCandidateNodes exEnv.enc754 (exNode 0 0) ⟨[], 0⟩ (fun _ => true) exCandidates
      exSubs (exNode 100 3000)).map (fun sends => sends.map (fun s => s.path))
      = some [[47, 97], [47, 98], [47, 99]] :=
  ⟨(C13_sendCandidateNodes exEnv.enc754 (exNode 0 0) ⟨[], 0⟩ (fun _ => true) exCandidates
      exSubs (exNode 100 3000) (by decide) (by decide) (by decide) (by decide)).2.2.2.1
      (by decide),
    by decide, by decide⟩

/-! ## Empty collections -/

theorem append_empty (junk : Node) (a b : NodeCollection) (id : Nat) (h : b.nodeCount = 0) :
    NodeCollection_append junk a b id = a := by
  unfold NodeCollection_append
  rw [h]
  rfl

theorem append_mem (junk : Node) (a b : NodeCollection) (id : Nat) (h : a.WF)
    (hb : b.nodeCount ≤ b.nodes.length) :
    ∀ n ∈ live (NodeCollection_append junk a b id), n ∈ live a ∨ n ∈ live b := by
  intro n hn
  rw [(append_live junk a b id h.1 h.2.1 hb).2.2.2.2.2] at hn
  rcases List.mem_append.1 (List.mem_of_mem_take hn) with h1 | h1
  · exact Or.inl h1
  · exact Or.inr (List.mem_of_mem_filter h1)

theorem updateRandomNodes_ids (q : Qsort) (cfg : Config) (junk : Node)
    (nc rn : NodeCollection) (h : rn.WF) :
    IdsWithin (Protocol_updateRandomNodes q cfg junk nc rn)
      (NodeCollection_append junk rn nc cfg.CLIENT_id) ∧
    (Protocol_updateRandomNodes q cfg junk nc rn).nodeCount ≤
      (NodeCollection_append junk rn nc cfg.CLIENT_id).nodeCount := by
  have a1 := append_WF junk rn nc cfg.CLIENT_id h
  obtain ⟨d1, -, d3, d4⟩ := removeDuplicateNodes_keeps q junk _ a1
  have s1 := qsortNodes_WF q comp_sort_timestamp_h2l _ d1
  obtain ⟨-, -, e3, e4⟩ := removeExcessNodes_keeps junk _
    ((NodeCollection_sortByTimeStamp q (NodeCollection_removeDuplicateNodes q junk
      (NodeCollection_append junk rn nc cfg.CLIENT_id))).maxNodeCount / 2) s1
  refine ⟨?_, e3.trans d3⟩
  intro n hn
  exact d4 n ((mem_live_qsortNodes q comp_sort_timestamp_h2l _ n).1 (e4 n hn))

theorem updateImportantNodes_ids (q : Qsort) (geo : Dbl → Dbl → Dbl → Dbl → Dbl)
    (cfg : Config) (junk : Node) (now : Nat) (nc inl : NodeCollection) (h : inl.WF)
    (hK : cfg.PROTO_K < 65536) :
    IdsWithin (Protocol_updateImportantNodes q geo cfg junk now nc inl).2
      (NodeCollection_append junk inl (Protocol_updateImportantNodes q geo cfg junk now nc inl).1
        cfg.CLIENT_id) ∧
    (Protocol_updateImportantNodes q geo cfg junk now nc inl).2.nodeCount ≤
      (NodeCollection_append junk inl (Protocol_updateImportantNodes q geo cfg junk now nc inl).1
        cfg.CLIENT_id).nodeCount := by
  simp only [Protocol_updateImportantNodes]
  generalize NodeCollection_calculateUtility geo junk nc (Node_new cfg.CLIENT_id cfg.CLIENT_lat
    cfg.CLIENT_lon cfg.CLIENT_coordRange 0 0 0 0 now) = nc'
  have a1 := append_WF junk inl nc' cfg.CLIENT_id h
  obtain ⟨d1, -, d3, d4⟩ := removeDuplicateNodes_keeps q junk _ a1
  have s1 : (NodeCollection_sortByUtility q (NodeCollection_removeDuplicateNodes q junk
      (NodeCollection_append junk inl nc' cfg.CLIENT_id))).WF :=
    qsortNodes_WF q comp_sort_utility_h2l _ d1
  have hBid : IdsWithin (NodeCollection_sortByUtility q (NodeCollection_removeDuplicateNodes q
      junk (NodeCollection_append junk inl nc' cfg.CLIENT_id)))
      (NodeCollection_append junk inl nc' cfg.CLIENT_id) :=
    fun n hn => d4 n ((mem_live_qsortNodes q comp_sort_utility_h2l _ n).1 hn)
  have hBc : (NodeCollection_sortByUtility q (NodeCollection_removeDuplicateNodes q
      junk (NodeCollection_append junk inl nc' cfg.CLIENT_id))).nodeCount ≤
      (NodeCollection_append junk inl nc' cfg.CLIENT_id).nodeCount := d3
  generalize NodeCollection_sortByUtility q (NodeCollection_removeDuplicateNodes q junk
    (NodeCollection_append junk inl nc' cfg.CLIENT_id)) = B at *
  generalize NodeCollection_append junk inl nc' cfg.CLIENT_id = A at *
  obtain ⟨g1, g2, -, -, g5⟩ := grow_keeps junk B cfg.PROTO_K s1 hK
  have hG : ∀ G : NodeCollection,
      G = (if NodeCollection_countCandidateNodes junk B >
          (B.maxNodeCount : Int) - (cfg.PROTO_K : Int)
        then NodeCollection_grow junk B cfg.PROTO_K else B) →
      G.WF ∧ G.nodeCount = B.nodeCount ∧ live G = live B := by
    intro G hGe
    by_cases hc : NodeCollection_countCandidateNodes junk B >
        (B.maxNodeCount : Int) - (cfg.PROTO_K : Int)
    · rw [if_pos hc] at hGe
      subst hGe
      exact ⟨g1, g2, g5⟩
    · rw [if_neg hc] at hGe
      subst hGe
      exact ⟨s1, rfl, rfl⟩
  obtain ⟨G1, G2, G3⟩ := hG _ rfl
  generalize (if NodeCollection_countCandidateNodes junk B >
      (B.maxNodeCount : Int) - (cfg.PROTO_K : Int)
    then NodeCollection_grow junk B cfg.PROTO_K else B) = G at *
  obtain ⟨-, -, e3, e4⟩ := removeExcessNodes_keeps junk G
    (((G.maxNodeCount : Int) - (cfg.PROTO_K : Int)) % 2 ^ 32).toNat G1
  by_cases hc : (G.nodeCount : Int) > (G.maxNodeCount : Int) - (cfg.PROTO_K : Int)
  · rw [if_pos hc]
    refine ⟨fun n hn => hBid n ?_, by omega⟩
    rw [← G3]
    exact e4 n hn
  · rw [if_neg hc]
    refine ⟨fun n hn => hBid n ?_, by omega⟩
    rw [← G3]
    exact hn

theorem calculateUtility_ids (geo : Dbl → Dbl → Dbl → Dbl → Dbl) (junk : Node)
    (nc : NodeCollection) (n : Node) :
    IdsWithin (NodeCollection_calculateUtility geo junk nc n) nc := by
  obtain ⟨-, c2, -, c4⟩ := calculateUtility_keeps geo junk nc n
  intro m hm
  rw [mem_live_iff] at hm
  obtain ⟨j, hj, hjm⟩ := hm
  obtain ⟨m0, h0, he⟩ := c4 j m hjm
  exact Or.inr ⟨m0, (mem_live_iff nc m0).2 ⟨j, by rw [← c2]; exact hj, h0⟩, he⟩

theorem updateImportantNodes_fst (q : Qsort) (geo : Dbl → Dbl → Dbl → Dbl → Dbl)
    (cfg : Config) (junk : Node) (now : Nat) (nc inl : NodeCollection) :
    (Protocol_updateImportantNodes q geo cfg junk now nc inl).1 =
      NodeCollection_calculateUtility geo junk nc (Node_new cfg.CLIENT_id cfg.CLIENT_lat
        cfg.CLIENT_lon cfg.CLIENT_coordRange 0 0 0 0 now) := rfl

theorem empty_important (q : Qsort) (geo : Dbl → Dbl → Dbl → Dbl → Dbl)
    (cfg : Config) (junk : Node) (now : Nat) (nc inl : NodeCollection) (h : inl.WF)
    (hK : cfg.PROTO_K < 65536) (h0 : nc.nodeCount = 0) :
    IdsWithin (Protocol_updateImportantNodes q geo cfg junk now nc inl).2 inl ∧
    (Protocol_updateImportantNodes q geo cfg junk now nc inl).2.nodeCount ≤ inl.nodeCount := by
  have h1 := updateImportantNodes_ids q geo cfg junk now nc inl h hK
  have hc : (Protocol_updateImportantNodes q geo cfg junk now nc inl).1.nodeCount = 0 := by
    rw [updateImportantNodes_fst, (calculateUtility_keeps geo junk nc _).2.1, h0]
  rw [append_empty junk inl _ cfg.CLIENT_id hc] at h1
  exact h1

theorem empty_random (q : Qsort) (geo : Dbl → Dbl → Dbl → Dbl → Dbl)
    (cfg : Config) (junk : Node) (now : Nat) (nc rn inl : NodeCollection) (hrn : rn.WF)
    (hin : inl.WF) (hK : cfg.PROTO_K < 65536) (h0 : nc.nodeCount = 0) :
    IdsWithin (Protocol_updateImportantNodes q geo cfg junk now
      (Protocol_updateRandomNodes q cfg junk nc rn) inl).1 rn ∧
    (Protocol_updateImportantNodes q geo cfg junk now
      (Protocol_updateRandomNodes q cfg junk nc rn) inl).1.nodeCount ≤ rn.nodeCount ∧
    IdsWithin2 (Protocol_updateImportantNodes q geo cfg junk now
      (Protocol_updateRandomNodes q cfg junk nc rn) inl).2 inl rn := by
  obtain ⟨r1, r2⟩ := updateRandomNodes_ids q cfg junk nc rn hrn
  rw [append_empty junk rn nc cfg.CLIENT_id h0] at r1 r2
  obtain ⟨k1, -, -⟩ := updateRandomNodes_keeps q cfg junk nc rn hrn
  generalize Protocol_updateRandomNodes q cfg junk nc rn = rn' at *
  obtain ⟨-, -, -, u4, -, -⟩ := updateImportantNodes_keeps q geo cfg junk now rn' inl hin hK
  have hwf1 := u4 k1
  have hid1 : IdsWithin (Protocol_updateImportantNodes q geo cfg junk now rn' inl).1 rn := by
    rw [updateImportantNodes_fst]
    exact (calculateUtility_ids geo junk rn' _).trans r1
  have hc1 : (Protocol_updateImportantNodes q geo cfg junk now rn' inl).1.nodeCount
      = rn'.nodeCount := by
    rw [updateImportantNodes_fst]
    exact (calculateUtility_keeps geo junk rn' _).2.1
  refine ⟨hid1, by omega, ?_⟩
  obtain ⟨i1, -⟩ := updateImportantNodes_ids q geo cfg junk now rn' inl hin hK
  intro n hn
  rcases i1 n hn with hz | ⟨m, hm, he⟩
  · exact Or.inl hz
  · rcases append_mem junk inl _ cfg.CLIENT_id hin (by
        have := hwf1.1
        have := hwf1.2.1
        omega) m hm with hm1 | hm1
    · exact Or.inr (Or.inl ⟨m, hm1, he⟩)
    · rcases hid1 m hm1 with hz | ⟨m', hm', he'⟩
      · exact Or.inl (by omega)
      · exact Or.inr (Or.inr ⟨m', hm', by omega⟩)

/-- C11 (counterexample). A datagram that holds an empty collection of type RND_NOREQ is not
discarded: from a state whose ImportantList is empty and whose RandomList holds node 9, the
ImportantList afterwards holds node 9. -/
theorem C11_empty_collection_counterexample :
    (NodeCollection_unpack exEnv.dec754 exEnv.junk exEmptyBuffer 5).map
      (fun u => (u.nc.payloadType, u.nc.nodeCount)) = some (RND_NOREQ, 0) ∧
    live exState.importantNodes = [] ∧
    (live (Protocol_receiveFromPeer exEnv.enc754 exEnv.dec754 exEnv.q exEnv.geo exConfig
      exEnv.junk 3000 exEmptyBuffer 5 exState).1.importantNodes).map (fun n => n.nodeID)
      = [9] := by
  decide!

/-- C11 (amended). For a received collection with nodeCount 0 and well-formed lists: a
payloadType outside the four gossip types leaves both lists unchanged and sends nothing; with
RND_NOREQ nothing is sent, no nodeID enters RandomList, its nodeCount does not grow, and
every nodeID of ImportantList afterwards is 0 or was live in one of the two lists; with
IMP_NOREQ nothing is sent, RandomList is unchanged, no nodeID enters ImportantList and its
nodeCount does not grow. -/
theorem C11_empty_collection (enc754 : Dbl → Nat) (dec754 : Nat → Dbl) (q : Qsort)
    (geo : Dbl → Dbl → Dbl → Dbl → Dbl) (cfg : Config) (junk : Node) (now : Nat)
    (buffer : Nat → Nat) (payloadSize : Int) (s : State) (u : Unpacked)
    (hu : NodeCollection_unpack dec754 junk buffer payloadSize = some u)
    (h0 : u.nc.nodeCount = 0) (hrn : s.randomNodes.WF) (hin : s.importantNodes.WF)
    (hK : cfg.PROTO_K < 65536) :
    (u.nc.payloadType ≠ RND_NOREQ → u.nc.payloadType ≠ RND_REQ →
      u.nc.payloadType ≠ IMP_NOREQ → u.nc.payloadType ≠ IMP_REQ →
      Protocol_receiveFromPeer enc754 dec754 q geo cfg junk now buffer payloadSize s
        = (s, [])) ∧
    (u.nc.payloadType = RND_NOREQ →
      (Protocol_receiveFromPeer enc754 dec754 q geo cfg junk now buffer payloadSize s).2 = [] ∧
      IdsWithin (Protocol_receiveFromPeer enc754 dec754 q geo cfg junk now buffer payloadSize
        s).1.randomNodes s.randomNodes ∧
      (Protocol_receiveFromPeer enc754 dec754 q geo cfg junk now buffer payloadSize
        s).1.randomNodes.nodeCount ≤ s.randomNodes.nodeCount ∧
      IdsWithin2 (Protocol_receiveFromPeer enc754 dec754 q geo cfg junk now buffer payloadSize
        s).1.importantNodes s.importantNodes s.randomNodes) ∧
    (u.nc.payloadType = IMP_NOREQ →
      (Protocol_receiveFromPeer enc754 dec754 q geo cfg junk now buffer payloadSize s).2 = [] ∧
      (Protocol_receiveFromPeer enc754 dec754 q geo cfg junk now buffer payloadSize
        s).1.randomNodes = s.randomNodes ∧
      IdsWithin (Protocol_receiveFromPeer enc754 dec754 q geo cfg junk now buffer payloadSize
        s).1.importantNodes s.importantNodes ∧
      (Protocol_receiveFromPeer enc754 dec754 q geo cfg junk now buffer payloadSize
        s).1.importantNodes.nodeCount ≤ s.importantNodes.nodeCount) := by
  refine ⟨fun t0 t1 t2 t3 => ?_, fun ht => ?_, fun ht => ?_⟩
  · simp only [Protocol_receiveFromPeer, hu, Option.map_some', isValid_some, if_true,
      if_neg t0, if_neg t1, if_neg t2, if_neg t3]
  · obtain ⟨e1, e2, e3⟩ := empty_random q geo cfg junk now u.nc s.randomNodes s.importantNodes
      hrn hin hK h0
    simp only [Protocol_receiveFromPeer, hu, Option.map_some', isValid_some, if_true, ht]
    exact ⟨trivial, e1, e2, e3⟩
  · obtain ⟨e1, e2⟩ := empty_important q geo cfg junk now u.nc s.importantNodes hin hK h0
    have t0 : u.nc.payloadType ≠ RND_NOREQ := by rw [ht]; decide
    have t1 : u.nc.payloadType ≠ RND_REQ := by rw [ht]; decide
    simp only [Protocol_receiveFromPeer, hu, Option.map_some', isValid_some, if_true,
      if_neg t0, if_neg t1, if_pos ht]
    exact ⟨trivial, trivial, e1, e2⟩

/-- C11 (witness). The empty RND_NOREQ datagram on the example state: nothing is sent and
the RandomList keeps at most its one entry. -/
theorem C11_empty_collection_witness :
    (Protocol_receiveFromPeer exEnv.enc754 exEnv.dec754 exEnv.q exEnv.geo exConfig exEnv.junk
      3000 exEmptyBuffer 5 exState).2 = [] ∧
    (Protocol_receiveFromPeer exEnv.enc754 exEnv.dec754 exEnv.q exEnv.geo exConfig exEnv.junk
      3000 exEmptyBuffer 5 exState).1.randomNodes.nodeCount ≤ exState.randomNodes.nodeCount :=
  ⟨((C11_empty_collection exEnv.enc754 exEnv.dec754 exEnv.q exEnv.geo exConfig exEnv.junk
      3000 exEmptyBuffer 5 exState
      { nc := { versionID := 1, payloadType := 0, nodeCount := 0, maxNodeCount := 0,
                nodes := [] }, num := 0, o := 5 }
      (by decide) (by decide) (by decide) (by decide) (by decide)).2.1 (by decide)).1,
   ((C11_empty_collection exEnv.enc754 exEnv.dec754 exEnv.q exEnv.geo exConfig exEnv.junk
      3000 exEmptyBuffer 5 exState
      { nc := { versionID := 1, payloadType := 0, nodeCount := 0, maxNodeCount := 0,
                nodes := [] }, num := 0, o := 5 }
      (by decide) (by decide) (by decide) (by decide) (by decide)).2.1 (by decide)).2.2.1⟩

/-! ## The sentinel nodeID 0 -/

theorem getD_set_ne {α : Type} (l : List α) (i j : Nat) (a d : α) (h : i ≠ j) :
    (l.set i a).getD j d = l.getD j d := by
  rw [List.getD_eq_getElem?_getD, List.getD_eq_getElem?_getD, List.getElem?_set_ne h]

theorem getD_set_self {α : Type} (l : List α) (i : Nat) (a d : α) (h : i < l.length) :
    (l.set i a).getD i d = a := by
  rw [List.getD_eq_getElem?_getD, List.getElem?_set_self h]
  rfl

theorem take_succ_getD {α : Type} (l : List α) (k : Nat) (d : α) (h : k < l.length) :
    l.take (k + 1) = l.take k ++ [l.getD k d] := by
  rw [List.take_succ, List.getD_eq_getElem?_getD, List.getElem?_eq_getElem h]
  rfl

theorem removeDuplicate_zero_fold (junk : Node) (l : List Node) (n k : Nat)
    (hn : n ≤ l.length) (hk : k + 1 ≤ n ∨ k = 0)
    (hnz : ∀ j, j < n → (l.getD j junk).nodeID ≠ 0) :
    ((List.range k).foldl (removeDuplicateStep junk) (l, (n : Int))).1.length = l.length ∧
    (∀ j, k ≤ j →
      (((List.range k).foldl (removeDuplicateStep junk) (l, (n : Int))).1.getD j junk).nodeID
        = (l.getD j junk).nodeID) ∧
    (((((List.range k).foldl (removeDuplicateStep junk) (l, (n : Int))).1.take k).filter
      (fun m => decide (m.nodeID ≠ 0))).length : Int) + ((n : Int) - (k : Int)) =
      ((List.range k).foldl (removeDuplicateStep junk) (l, (n : Int))).2 := by
  induction k with
  | zero =>
    refine ⟨rfl, fun j _ => rfl, ?_⟩
    simp
  | succ k ih =>
    have hk' : k + 2 ≤ n := by omega
    obtain ⟨h1, h2, h3⟩ := ih (Or.inl (by omega))
    rw [List.range_succ, List.foldl_append]
    simp only [List.foldl_cons, List.foldl_nil]
    generalize (List.range k).foldl (removeDuplicateStep junk) (l, (n : Int)) = st at *
    have hk0 : (st.1.getD k junk).nodeID ≠ 0 := by
      rw [h2 k (Nat.le_refl _)]
      exact hnz k (by omega)
    have hz : ∀ x : Node, x.nodeID = 0 →
        [x].filter (fun m => decide (m.nodeID ≠ 0)) = [] := by
      intro x hx
      simp [hx]
    unfold removeDuplicateStep
    simp only
    split_ifs with hid hts
    · refine ⟨by simp only [List.length_set]; exact h1, ?_, ?_⟩
      · intro j hj
        simp only
        rw [getD_set_ne _ _ _ _ _ (by omega)]
        exact h2 j (by omega)
      · simp only
        rw [take_succ_getD _ k junk (by simp only [List.length_set]; omega),
          take_set_of_le _ _ _ _ (Nat.le_refl _), getD_set_self _ _ _ _ (by omega),
          List.filter_append]
        rw [hz _ rfl, List.append_nil]
        push_cast
        omega
    · refine ⟨by simp only [List.length_set]; exact h1, ?_, ?_⟩
      · intro j hj
        simp only
        by_cases hj1 : j = k + 1
        · subst hj1
          rw [getD_set_self _ _ _ _ (by simp only [List.length_set]; omega)]
          simp only [Node_swapPointers]
          rw [hid]
          exact h2 (k + 1) (by omega)
        · rw [getD_set_ne _ _ _ _ _ (by omega), getD_set_ne _ _ _ _ _ (by omega)]
          exact h2 j (by omega)
      · simp only
        rw [take_succ_getD _ k junk (by simp only [List.length_set]; omega),
          take_set_of_le _ _ _ _ (Nat.le_succ _), take_set_of_le _ _ _ _ (Nat.le_refl _),
          getD_set_ne _ _ _ _ _ (by omega), getD_set_self _ _ _ _ (by omega),
          List.filter_append]
        rw [hz _ rfl, List.append_nil]
        push_cast
        omega
    · refine ⟨h1, fun j hj => h2 j (by omega), ?_⟩
      rw [take_succ_getD _ k junk (by omega), List.filter_append]
      have hf : [st.1.getD k junk].filter (fun m => decide (m.nodeID ≠ 0))
          = [st.1.getD k junk] := by
        simp only [List.filter_cons, List.filter_nil, ne_eq, hk0, not_false_eq_true,
          decide_True, if_true]
      rw [hf, List.length_append, List.length_singleton]
      push_cast
      omega

theorem removeDuplicate_core (q : Qsort) (junk : Node) (l : List Node) (n : Nat)
    (hn : n ≤ l.length) (h16 : n < 65536)
    (hnz : ∀ j, j < n → (l.getD j junk).nodeID ≠ 0) :
    ∀ m ∈ (q.sort comp_sort_id
        (((List.range (n - 1)).foldl (removeDuplicateStep junk) (l, (n : Int))).1.take n) ++
        ((List.range (n - 1)).foldl (removeDuplicateStep junk) (l, (n : Int))).1.drop n).take
        ((((List.range (n - 1)).foldl (removeDuplicateStep junk) (l, (n : Int))).2
          % 65536).toNat),
      m.nodeID ≠ 0 := by
  obtain ⟨f1, f2, f3⟩ := removeDuplicate_zero_fold junk l n (n - 1) hn (by omega) hnz
  obtain ⟨-, -, g3, g4⟩ := removeDuplicate_fold junk l n (n - 1) hn (by omega)
  generalize (List.range (n - 1)).foldl (removeDuplicateStep junk) (l, (n : Int)) = st at *
  have hfl : (((st.1.take n).filter (fun m => decide (m.nodeID ≠ 0))).length : Int)
      = st.2 := by
    by_cases hz : n = 0
    · subst hz
      simpa using f3
    · obtain ⟨k, rfl⟩ : ∃ k, n = k + 1 := ⟨n - 1, by omega⟩
      simp only [Nat.add_sub_cancel] at f2 f3
      have hk0 : (st.1.getD k junk).nodeID ≠ 0 := by
        rw [f2 k (Nat.le_refl _)]
        exact hnz k (by omega)
      have hlast : [st.1.getD k junk].filter
          (fun m => decide (m.nodeID ≠ 0)) = [st.1.getD k junk] := by
        simp only [List.filter_cons, List.filter_nil, ne_eq, hk0, not_false_eq_true,
          decide_True, if_true]
      rw [take_succ_getD _ _ junk (by omega), List.filter_append, hlast,
        List.length_append, List.length_singleton]
      push_cast at f3 ⊢
      omega
  have hsort := q.sorted comp_sort_id (st.1.take n) comp_sort_id_ok
  have hperm := q.perm comp_sort_id (st.1.take n)
  generalize q.sort comp_sort_id (st.1.take n) = S at *
  have hsort' : S.Pairwise (fun a b => b.nodeID ≤ a.nodeID) :=
    hsort.imp (fun h => (comp_sort_id_le _ _).1 h)
  have hflen : (S.filter (fun m => decide (m.nodeID ≠ 0))).length = (st.2 % 65536).toNat := by
    rw [(hperm.filter _).length_eq]
    omega
  have hSlen : S.length = n := by
    rw [hperm.length_eq, List.length_take]
    omega
  intro m hm
  rw [List.take_append_of_le_length (by omega), ← hflen, sorted_nonzero_prefix S hsort'] at hm
  have := (List.mem_filter.1 hm).2
  simpa using this

theorem removeDuplicateNodes_noZero (q : Qsort) (junk : Node) (nc : NodeCollection)
    (h : nc.WF) (hno : NoId 0 nc) : NoId 0 (NodeCollection_removeDuplicateNodes q junk nc) := by
  obtain ⟨w1, w2, w3⟩ := qsortNodes_WF q comp_sort_id nc h
  have hcnt : (qsortNodes q comp_sort_id nc).nodeCount = nc.nodeCount := rfl
  have hmax : (qsortNodes q comp_sort_id nc).maxNodeCount = nc.maxNodeCount := rfl
  have hnz : ∀ j, j < nc.nodeCount →
      ((qsortNodes q comp_sort_id nc).nodes.getD j junk).nodeID ≠ 0 := by
    intro j hj
    apply hno
    rw [← mem_live_qsortNodes q comp_sort_id nc, mem_live_iff]
    refine ⟨j, hj, ?_⟩
    rw [List.getD_eq_getElem?_getD, List.getElem?_eq_getElem (by omega)]
    rfl
  intro m hm
  exact removeDuplicate_core q junk (qsortNodes q comp_sort_id nc).nodes nc.nodeCount
    (by omega) (by omega) hnz m hm

theorem append_noZero (junk : Node) (a b : NodeCollection) (id : Nat) (h : a.WF)
    (hb : b.nodeCount ≤ b.nodes.length) (ha0 : NoId 0 a) (hb0 : NoId 0 b) :
    NoId 0 (NodeCollection_append junk a b id) := by
  intro n hn
  rcases append_mem junk a b id h hb n hn with h1 | h1
  · exact ha0 n h1
  · exact hb0 n h1

theorem updateRandomNodes_noZero (q : Qsort) (cfg : Config) (junk : Node)
    (nc rn : NodeCollection) (h : rn.WF) (hb : nc.nodeCount ≤ nc.nodes.length)
    (h0 : NoId 0 rn) (hn0 : NoId 0 nc) :
    NoId 0 (Protocol_updateRandomNodes q cfg junk nc rn) := by
  have a1 := append_WF junk rn nc cfg.CLIENT_id h
  have a0 := append_noZero junk rn nc cfg.CLIENT_id h hb h0 hn0
  obtain ⟨d1, -, -, -⟩ := removeDuplicateNodes_keeps q junk _ a1
  have d0 := removeDuplicateNodes_noZero q junk _ a1 a0
  have s1 := qsortNodes_WF q comp_sort_timestamp_h2l _ d1
  obtain ⟨-, -, -, e4⟩ := removeExcessNodes_keeps junk _
    ((NodeCollection_sortByTimeStamp q (NodeCollection_removeDuplicateNodes q junk
      (NodeCollection_append junk rn nc cfg.CLIENT_id))).maxNodeCount / 2) s1
  intro n hn
  exact d0 n ((mem_live_qsortNodes q comp_sort_timestamp_h2l _ n).1 (e4 n hn))

theorem updateImportantNodes_noZero (q : Qsort) (geo : Dbl → Dbl → Dbl → Dbl → Dbl)
    (cfg : Config) (junk : Node) (now : Nat) (nc inl : NodeCollection) (h : inl.WF)
    (hK : cfg.PROTO_K < 65536) (hb : nc.nodeCount ≤ nc.nodes.length)
    (h0 : NoId 0 inl) (hn0 : NoId 0 nc) :
    NoId 0 (Protocol_updateImportantNodes q geo cfg junk now nc inl).1 ∧
    NoId 0 (Protocol_updateImportantNodes q geo cfg junk now nc inl).2 := by
  have hc0 := calculateUtility_noId geo junk nc (Node_new cfg.CLIENT_id cfg.CLIENT_lat
    cfg.CLIENT_lon cfg.CLIENT_coordRange 0 0 0 0 now) 0 hn0
  obtain ⟨c1, c2, -, -⟩ := calculateUtility_keeps geo junk nc (Node_new cfg.CLIENT_id
    cfg.CLIENT_lat cfg.CLIENT_lon cfg.CLIENT_coordRange 0 0 0 0 now)
  refine ⟨hc0, ?_⟩
  simp only [Protocol_updateImportantNodes]
  generalize NodeCollection_calculateUtility geo junk nc (Node_new cfg.CLIENT_id cfg.CLIENT_lat
    cfg.CLIENT_lon cfg.CLIENT_coordRange 0 0 0 0 now) = nc' at *
  have a1 := append_WF junk inl nc' cfg.CLIENT_id h
  have a0 := append_noZero junk inl nc' cfg.CLIENT_id h (by omega) h0 hc0
  obtain ⟨d1, -, -, -⟩ := removeDuplicateNodes_keeps q junk _ a1
  have d0 := removeDuplicateNodes_noZero q junk _ a1 a0
  have s1 : (NodeCollection_sortByUtility q (NodeCollection_removeDuplicateNodes q junk
      (NodeCollection_append junk inl nc' cfg.CLIENT_id))).WF :=
    qsortNodes_WF q comp_sort_utility_h2l _ d1
  have hB0 : NoId 0 (NodeCollection_sortByUtility q (NodeCollection_removeDuplicateNodes q
      junk (NodeCollection_append junk inl nc' cfg.CLIENT_id))) :=
    sortBy_noId q comp_sort_utility_h2l _ 0 d0
  generalize NodeCollection_sortByUtility q (NodeCollection_removeDuplicateNodes q junk
    (NodeCollection_append junk inl nc' cfg.CLIENT_id)) = B at *
  obtain ⟨g1, -, -, -, g5⟩ := grow_keeps junk B cfg.PROTO_K s1 hK
  have hG : ∀ G : NodeCollection,
      G = (if NodeCollection_countCandidateNodes junk B >
          (B.maxNodeCount : Int) - (cfg.PROTO_K : Int)
        then NodeCollection_grow junk B cfg.PROTO_K else B) →
      G.WF ∧ live G = live B := by
    intro G hGe
    by_cases hc : NodeCollection_countCandidateNodes junk B >
        (B.maxNodeCount : Int) - (cfg.PROTO_K : Int)
    · rw [if_pos hc] at hGe
      subst hGe
      exact ⟨g1, g5⟩
    · rw [if_neg hc] at hGe
      subst hGe
      exact ⟨s1, rfl⟩
  obtain ⟨G1, G3⟩ := hG _ rfl
  generalize (if NodeCollection_countCandidateNodes junk B >
      (B.maxNodeCount : Int) - (cfg.PROTO_K : Int)
    then NodeCollection_grow junk B cfg.PROTO_K else B) = G at *
  obtain ⟨-, -, -, e4⟩ := removeExcessNodes_keeps junk G
    (((G.maxNodeCount : Int) - (cfg.PROTO_K : Int)) % 2 ^ 32).toNat G1
  by_cases hc : (G.nodeCount : Int) > (G.maxNodeCount : Int) - (cfg.PROTO_K : Int)
  · rw [if_pos hc]
    intro n hn
    apply hB0
    rw [← G3]
    exact e4 n hn
  · rw [if_neg hc]
    intro n hn
    apply hB0
    rw [← G3]
    exact hn

/-- C12. A datagram of type RND_NOREQ whose only entry has nodeID 0, the value that node.h
reserves for invalid nodes, received with empty lists: afterwards RandomList and
ImportantList each have one live entry and its nodeID is 0. -/
theorem C12_sentinel_becomes_live :
    (live (Protocol_receiveFromPeer exEnv.enc754 exEnv.dec754 exEnv.q exEnv.geo exConfig
      exEnv.junk 3000 exZeroBuffer 43
      { randomNodes := exRandomList [], importantNodes := exRandomList [] }).1.randomNodes).map
      (fun n => n.nodeID) = [0] ∧
    (live (Protocol_receiveFromPeer exEnv.enc754 exEnv.dec754 exEnv.q exEnv.geo exConfig
      exEnv.junk 3000 exZeroBuffer 43
      { randomNodes := exRandomList [], importantNodes := exRandomList [] }).1.importantNodes).map
      (fun n => n.nodeID) = [0] := by
  decide!

/-- When no entry of the received payload and no live entry of RandomList or ImportantList
has nodeID 0, after `Protocol_receiveFromPeer` no live entry of RandomList or ImportantList
has nodeID 0: the receive path creates no entry with nodeID 0 among the live ones. -/
theorem receiveFromPeer_noZero (enc754 : Dbl → Nat) (dec754 : Nat → Dbl) (q : Qsort)
    (geo : Dbl → Dbl → Dbl → Dbl → Dbl) (cfg : Config) (junk : Node) (now : Nat)
    (buffer : Nat → Nat) (payloadSize : Int) (s : State)
    (hrn : s.randomNodes.WF) (hin : s.importantNodes.WF) (hK : cfg.PROTO_K < 65536)
    (hpay : ∀ u, NodeCollection_unpack dec754 junk buffer payloadSize = some u → NoId 0 u.nc)
    (hr0 : NoId 0 s.randomNodes) (hi0 : NoId 0 s.importantNodes) :
    NoId 0 (Protocol_receiveFromPeer enc754 dec754 q geo cfg junk now buffer payloadSize
      s).1.randomNodes ∧
    NoId 0 (Protocol_receiveFromPeer enc754 dec754 q geo cfg junk now buffer payloadSize
      s).1.importantNodes := by
  unfold Protocol_receiveFromPeer
  cases hu : NodeCollection_unpack dec754 junk buffer payloadSize with
  | none =>
    simp only [Option.map_none', NodeCollection_isValid]
    exact ⟨hr0, hi0⟩
  | some r =>
    obtain ⟨-, -, -, ulen, -, -⟩ := unpack_some dec754 junk buffer payloadSize r hu
    have hp := hpay r hu
    have hR := updateRandomNodes_noZero q cfg junk r.nc s.randomNodes hrn (by omega) hr0 hp
    obtain ⟨k1, -, -⟩ := updateRandomNodes_keeps q cfg junk r.nc s.randomNodes hrn
    have hI1 := updateImportantNodes_noZero q geo cfg junk now _ s.importantNodes hin hK
      (by have := k1.1; have := k1.2.1; omega) hi0 hR
    have hI2 := updateImportantNodes_noZero q geo cfg junk now r.nc s.importantNodes hin hK
      (by omega) hi0 hp
    simp only [Option.map_some', isValid_some, if_true]
    split_ifs
    · exact hI1
    · exact hI1
    · exact ⟨hr0, hI2.2⟩
    · exact ⟨hr0, hI2.2⟩
    · exact ⟨hr0, hi0⟩

/-! ## Utility at distance zero -/

theorem calculateUtility_fold (geo : Dbl → Dbl → Dbl → Dbl → Dbl) (junk : Node)
    (l : List Node) (n : Node) (k : Nat) (hk : k ≤ l.length) :
    ((List.range k).foldl (fun (nodes : List Node) i => nodes.set i
      { (nodes.getD i junk) with utility := Node_utility geo n (nodes.getD i junk) })
      l).length = l.length ∧
    (∀ j, j < k → ((List.range k).foldl (fun (nodes : List Node) i => nodes.set i
      { (nodes.getD i junk) with utility := Node_utility geo n (nodes.getD i junk) })
      l).getD j junk =
        { (l.getD j junk) with utility := Node_utility geo n (l.getD j junk) }) ∧
    (∀ j, k ≤ j → ((List.range k).foldl (fun (nodes : List Node) i => nodes.set i
      { (nodes.getD i junk) with utility := Node_utility geo n (nodes.getD i junk) })
      l).getD j junk = l.getD j junk) := by
  induction k with
  | zero => exact ⟨rfl, fun j hj => absurd hj (Nat.not_lt_zero j), fun j _ => rfl⟩
  | succ k ih =>
    obtain ⟨h1, h2, h3⟩ := ih (by omega)
    rw [List.range_succ, List.foldl_append]
    simp only [List.foldl_cons, List.foldl_nil]
    generalize (List.range k).foldl (fun (nodes : List Node) i => nodes.set i
      { (nodes.getD i junk) with utility := Node_utility geo n (nodes.getD i junk) }) l = st at *
    refine ⟨by rw [List.length_set]; exact h1, ?_, ?_⟩
    · intro j hj
      by_cases hjk : j = k
      · subst hjk
        rw [getD_set_self _ _ _ _ (by omega), h3 j (Nat.le_refl _)]
      · rw [getD_set_ne _ _ _ _ _ (fun h => hjk h.symm)]
        exact h2 j (by omega)
    · intro j hj
      rw [getD_set_ne _ _ _ _ _ (by omega)]
      exact h3 j (by omega)

/-- C18 (counterexample). For the example client and a node at the same position the squared
distance is 0 and `Node_utility` returns DBL_MAX = (2^53 - 1) * 2^971, a finite value below
2^1024. -/
theorem C18_not_infinity_counterexample :
    (exEnv.geo exConfig.CLIENT_lat exConfig.CLIENT_lon exPeerHere.lat exPeerHere.lon) ^ 2 = 0 ∧
    Node_utility exEnv.geo (Node_createOwnNode exConfig 3000) exPeerHere
      = (2 ^ 53 - 1) * 2 ^ 971 ∧
    Node_utility exEnv.geo (Node_createOwnNode exConfig 3000) exPeerHere < 2 ^ 1024 := by
  have h : Node_utility exEnv.geo (Node_createOwnNode exConfig 3000) exPeerHere
      = (2 ^ 53 - 1) * 2 ^ 971 := by
    simp [Node_utility, exEnv, Node_createOwnNode, Node_new, exConfig, exPeerHere, DBL_MAX]
  refine ⟨by simp [exEnv, exConfig, exPeerHere], h, ?_⟩
  rw [h]
  norm_num

/-- C18 (amended). For every pair of nodes whose squared distance is 0, `Node_utility`
returns DBL_MAX, the largest finite double; and `NodeCollection_calculateUtility` gives every
live entry of a received collection that lies at squared distance 0 from the own node the
utility DBL_MAX, leaving its other fields as they were. -/
theorem C18_utility_at_distance_zero (geo : Dbl → Dbl → Dbl → Dbl → Dbl) (junk : Node)
    (nc : NodeCollection) (own : Node) (i : Nat) (hlen : nc.nodeCount ≤ nc.nodes.length)
    (hi : i < nc.nodeCount)
    (hd : (geo own.lat own.lon (nodeAt junk nc i).lat (nodeAt junk nc i).lon) ^ 2 = 0) :
    Node_utility geo own (nodeAt junk nc i) = DBL_MAX ∧
    nodeAt junk (NodeCollection_calculateUtility geo junk nc own) i =
      { (nodeAt junk nc i) with utility := DBL_MAX } := by
  have hu : Node_utility geo own (nodeAt junk nc i) = DBL_MAX := by
    simp only [Node_utility, hd, ne_eq, not_true_eq_false, if_false]
  refine ⟨hu, ?_⟩
  obtain ⟨-, f2, -⟩ := calculateUtility_fold geo junk nc.nodes own nc.nodeCount hlen
  simp only [nodeAt, NodeCollection_calculateUtility] at hu ⊢
  rw [f2 i hi, hu]

/-- C18 (witness). The node at the client's position, received into the empty ImportantList,
is stored with utility DBL_MAX. -/
theorem C18_utility_at_distance_zero_witness :
    (Node_utility exEnv.geo (Node_createOwnNode exConfig 3000)
        (nodeAt exEnv.junk (exPayload 2 [exPeerHere]) 0) = DBL_MAX ∧
      nodeAt exEnv.junk (NodeCollection_calculateUtility exEnv.geo exEnv.junk
        (exPayload 2 [exPeerHere]) (Node_createOwnNode exConfig 3000)) 0 =
        { (nodeAt exEnv.junk (exPayload 2 [exPeerHere]) 0) with utility := DBL_MAX }) ∧
    live (Protocol_receiveFromPeer exEnv.enc754 exEnv.dec754 exEnv.q exEnv.geo exConfig
      exEnv.junk 3000 exHereBuffer 43 exState).1.importantNodes =
      [{ exPeerHere with utility := DBL_MAX }] :=
  ⟨C18_utility_at_distance_zero exEnv.geo exEnv.junk (exPayload 2 [exPeerHere])
      (Node_createOwnNode exConfig 3000) 0 (by decide) (by decide) (by decide!),
    by decide!⟩

/-! ## Symmetry of the utility -/

theorem geo_distance_meters_comm (th1 ph1 th2 ph2 : ℝ) :
    geo_distance_meters th1 ph1 th2 ph2 = geo_distance_meters th2 ph2 th1 ph1 := by
  simp only [geo_distance_meters]
  have hph : (ph2 - ph1) * TO_RAD = -((ph1 - ph2) * TO_RAD) := by ring
  rw [hph, Real.cos_neg, Real.sin_neg]
  have hs := Real.sin_sq_add_cos_sq ((ph1 - ph2) * TO_RAD)
  have key : (Real.cos ((ph1 - ph2) * TO_RAD) * Real.cos (th1 * TO_RAD) -
        Real.cos (th2 * TO_RAD)) *
      (Real.cos ((ph1 - ph2) * TO_RAD) * Real.cos (th1 * TO_RAD) - Real.cos (th2 * TO_RAD)) +
      Real.sin ((ph1 - ph2) * TO_RAD) * Real.cos (th1 * TO_RAD) *
        (Real.sin ((ph1 - ph2) * TO_RAD) * Real.cos (th1 * TO_RAD)) +
      (Real.sin (th1 * TO_RAD) - Real.sin (th2 * TO_RAD)) *
        (Real.sin (th1 * TO_RAD) - Real.sin (th2 * TO_RAD)) =
      (Real.cos ((ph1 - ph2) * TO_RAD) * Real.cos (th2 * TO_RAD) -
        Real.cos (th1 * TO_RAD)) *
      (Real.cos ((ph1 - ph2) * TO_RAD) * Real.cos (th2 * TO_RAD) - Real.cos (th1 * TO_RAD)) +
      -Real.sin ((ph1 - ph2) * TO_RAD) * Real.cos (th2 * TO_RAD) *
        (-Real.sin ((ph1 - ph2) * TO_RAD) * Real.cos (th2 * TO_RAD)) +
      (Real.sin (th2 * TO_RAD) - Real.sin (th1 * TO_RAD)) *
        (Real.sin (th2 * TO_RAD) - Real.sin (th1 * TO_RAD)) := by
    linear_combination
      (Real.cos (th1 * TO_RAD) ^ 2 - Real.cos (th2 * TO_RAD) ^ 2) * hs
  rw [key]

/-- Claim C17. With the distance `geo_distance_meters` of utilities.c taken over the reals,
`Node_utility` gives the same value for (a, b) and for (b, a), for every pair of nodes. -/
theorem C17_utility_symmetric (a b : Node) :
    Node_utility_real a b = Node_utility_real b a := by
  simp only [Node_utility_real]
  rw [geo_distance_meters_comm (a.lat : ℝ) a.lon b.lat b.lon, Nat.add_comm a.coordRange]

/-! ## The IEEE-754 codec -/

theorem enc754_down_spec (x : Dbl) (hx1 : 1 ≤ x) (hx2 : x < 2) (k : Nat) :
    ∀ (fuel : Nat) (s : Int), k ≤ fuel → enc754_down fuel (x * 2 ^ k) s = (x, s + k) := by
  induction k with
  | zero =>
    intro fuel s _
    cases fuel with
    | zero => simp [enc754_down]
    | succ f =>
      have : ¬ (x * 2 ^ 0 ≥ 2) := by simp only [pow_zero, mul_one]; exact not_le.2 hx2
      simp only [enc754_down, this, if_false]
      simp
  | succ k ih =>
    intro fuel s hk
    obtain ⟨f, rfl⟩ : ∃ f, fuel = f + 1 := ⟨fuel - 1, by omega⟩
    have h2 : (1 : Dbl) ≤ 2 ^ k := one_le_pow₀ (by norm_num)
    have hge : x * 2 ^ (k + 1) ≥ 2 := by
      rw [pow_succ]
      nlinarith
    have hdiv : x * 2 ^ (k + 1) / 2 = x * 2 ^ k := by
      rw [pow_succ]
      ring
    simp only [enc754_down, hge, if_true, hdiv]
    rw [ih f (s + 1) (by omega)]
    simp only [Prod.mk.injEq, true_and]
    push_cast
    ring

theorem enc754_up_spec (x : Dbl) (hx1 : 1 ≤ x) (hx2 : x < 2) (k : Nat) :
    ∀ (fuel : Nat) (s : Int), k ≤ fuel → enc754_up fuel (x / 2 ^ k) s = (x, s - k) := by
  induction k with
  | zero =>
    intro fuel s _
    cases fuel with
    | zero => simp [enc754_up]
    | succ f =>
      have : ¬ (x / 2 ^ 0 < 1) := by simp only [pow_zero, div_one]; exact not_lt.2 hx1
      simp only [enc754_up, this, if_false]
      simp
  | succ k ih =>
    intro fuel s hk
    obtain ⟨f, rfl⟩ : ∃ f, fuel = f + 1 := ⟨fuel - 1, by omega⟩
    have h2 : (1 : Dbl) ≤ 2 ^ k := one_le_pow₀ (by norm_num)
    have hlt : x / 2 ^ (k + 1) < 1 := by
      rw [div_lt_one (by positivity), pow_succ]
      nlinarith
    have hmul : x / 2 ^ (k + 1) * 2 = x / 2 ^ k := by
      rw [pow_succ]
      field_simp
      ring
    simp only [enc754_up, hlt, if_true, hmul]
    rw [ih f (s - 1) (by omega)]
    simp only [Prod.mk.injEq, true_and]
    push_cast
    ring

theorem toInt64_of_nonneg (q : Dbl) (h : 0 ≤ q) : toInt64 q = ⌊q⌋ := by
  unfold toInt64
  rw [Int.tdiv_eq_ediv (Rat.num_nonneg.2 h) (Int.natCast_nonneg _), Rat.floor_def]

theorem bits64_of_nat (n : Nat) (h : n < 2 ^ 64) : bits64 (n : Int) = n := by
  unfold bits64
  omega

theorem foldl_mul_two (n : Nat) (r : Dbl) :
    (List.range n).foldl (fun r _ => r * 2) r = r * 2 ^ n := by
  induction n with
  | zero => simp
  | succ n ih =>
    rw [List.range_succ, List.foldl_append, ih]
    simp only [List.foldl_cons, List.foldl_nil]
    ring

theorem foldl_div_two (n : Nat) (r : Dbl) :
    (List.range n).foldl (fun r _ => r / 2) r = r / 2 ^ n := by
  induction n with
  | zero => simp
  | succ n ih =>
    rw [List.range_succ, List.foldl_append, ih]
    simp only [List.foldl_cons, List.foldl_nil]
    rw [pow_succ]
    field_simp

theorem enc754_down_small (fuel : Nat) (a : Dbl) (s : Int) (h : a < 2) :
    enc754_down fuel a s = (a, s) := by
  cases fuel with
  | zero => rfl
  | succ f => simp only [enc754_down, ge_iff_le, not_le.2 h, if_false]

theorem enc754_up_big (fuel : Nat) (a : Dbl) (s : Int) (h : 1 ≤ a) :
    enc754_up fuel a s = (a, s) := by
  cases fuel with
  | zero => rfl
  | succ f => simp only [enc754_up, not_lt.2 h, if_false]

theorem enc754_loops (fuel e m : Nat) (hfuel : 1023 ≤ fuel) (he2 : e ≤ 2046)
    (hm : m < 2 ^ 52) :
    enc754_up fuel
      (enc754_down fuel (((2 ^ 52 + m : Nat) : Dbl) * 2 ^ e / 2 ^ 1075) 0).1
      (enc754_down fuel (((2 ^ 52 + m : Nat) : Dbl) * 2 ^ e / 2 ^ 1075) 0).2 =
      (((2 ^ 52 + m : Nat) : Dbl) / 2 ^ 52, (e : Int) - 1023) := by
  have hx1 : (1 : Dbl) ≤ ((2 ^ 52 + m : Nat) : Dbl) / 2 ^ 52 := by
    rw [le_div_iff₀ (by positivity)]
    push_cast
    have : (0 : Dbl) ≤ (m : Dbl) := Nat.cast_nonneg m
    linarith
  have hx2 : ((2 ^ 52 + m : Nat) : Dbl) / 2 ^ 52 < 2 := by
    rw [div_lt_iff₀ (by positivity)]
    have : (m : Dbl) < 2 ^ 52 := by exact_mod_cast hm
    push_cast
    linarith
  by_cases hc : 1023 ≤ e
  · obtain ⟨k, rfl⟩ : ∃ k, e = 1023 + k := ⟨e - 1023, by omega⟩
    have hA : ((2 ^ 52 + m : Nat) : Dbl) * 2 ^ (1023 + k) / 2 ^ 1075 =
        ((2 ^ 52 + m : Nat) : Dbl) / 2 ^ 52 * 2 ^ k := by
      rw [pow_add, show (2 : Dbl) ^ 1075 = 2 ^ 52 * 2 ^ 1023 by rw [← pow_add]]
      field_simp
      ring
    rw [hA, enc754_down_spec _ hx1 hx2 k fuel 0 (by omega), enc754_up_big _ _ _ hx1]
    simp only [Prod.mk.injEq, true_and]
    push_cast
    ring
  · obtain ⟨k, hk⟩ : ∃ k, 1023 = e + k := ⟨1023 - e, by omega⟩
    have hA : ((2 ^ 52 + m : Nat) : Dbl) * 2 ^ e / 2 ^ 1075 =
        ((2 ^ 52 + m : Nat) : Dbl) / 2 ^ 52 / 2 ^ k := by
      rw [show (1075 : Nat) = 52 + (e + k) by omega, pow_add, pow_add]
      field_simp
      ring
    have hk1 : (1 : Dbl) ≤ 2 ^ k := one_le_pow₀ (by norm_num)
    have hsmall : ((2 ^ 52 + m : Nat) : Dbl) / 2 ^ 52 / 2 ^ k < 2 := by
      rw [div_lt_iff₀ (by positivity)]
      nlinarith
    rw [hA, enc754_down_small _ _ _ hsmall, enc754_up_spec _ hx1 hx2 k fuel 0 (by omega)]
    simp only [Prod.mk.injEq, true_and]
    have : (k : Int) = 1023 - e := by omega
    rw [this]
    ring

theorem significand_eq (m : Nat) (hm : m < 2 ^ 52) :
    toInt64 ((((2 ^ 52 + m : Nat) : Dbl) / 2 ^ 52 - 1) * (2 ^ 52 + 1 / 2)) = (m : Int) := by
  have hmq : (m : Dbl) < 2 ^ 52 := by exact_mod_cast hm
  have hm0 : (0 : Dbl) ≤ (m : Dbl) := Nat.cast_nonneg m
  have hval : (((2 ^ 52 + m : Nat) : Dbl) / 2 ^ 52 - 1) * (2 ^ 52 + 1 / 2)
      = (m : Dbl) + (m : Dbl) / 2 ^ 53 := by
    push_cast
    field_simp
    ring
  rw [hval, toInt64_of_nonneg _ (by positivity), Int.floor_eq_iff]
  constructor
  · push_cast
    have : (0 : Dbl) ≤ (m : Dbl) / 2 ^ 53 := by positivity
    linarith
  · push_cast
    have : (m : Dbl) / 2 ^ 53 < 1 := by
      rw [div_lt_one (by positivity)]
      linarith
    linarith

theorem pattern_or (sgn e m : Nat) (he2 : e ≤ 2046) (hm : m < 2 ^ 52) :
    (sgn * 2 ^ 63) ||| (e * 2 ^ 52) ||| m = sgn * 2 ^ 63 + e * 2 ^ 52 + m := by
  have h1 : (sgn * 2 ^ 63) ||| (e * 2 ^ 52) = sgn * 2 ^ 63 + e * 2 ^ 52 := by
    have := lor_eq_add sgn 63 (e * 2 ^ 52) (by omega)
    rw [Nat.mul_comm sgn, this]
  have h2 : sgn * 2 ^ 63 + e * 2 ^ 52 = 2 ^ 52 * (sgn * 2 ^ 11 + e) := by omega
  rw [h1, h2, lor_eq_add _ 52 m hm]

theorem enc754_normal (fuel sgn e m : Nat) (hfuel : 1023 ≤ fuel) (hs : sgn ≤ 1)
    (he2 : e ≤ 2046) (hm : m < 2 ^ 52) :
    enc754 fuel (normalDouble sgn e m) = sgn * 2 ^ 63 + e * 2 ^ 52 + m := by
  have hpos : (0 : Dbl) < ((2 ^ 52 + m : Nat) : Dbl) * 2 ^ e / 2 ^ 1075 := by positivity
  have hl := enc754_loops fuel e m hfuel he2 hm
  have hsig := significand_eq m hm
  have hexp : ((e : Int) - 1023 + (2 ^ 10 - 1)) * 2 ^ 52 = ((e * 2 ^ 52 : Nat) : Int) := by
    push_cast
    ring
  have hb1 : bits64 ((e * 2 ^ 52 : Nat) : Int) = e * 2 ^ 52 := bits64_of_nat _ (by omega)
  have hb2 : bits64 (m : Int) = m := bits64_of_nat _ (by omega)
  have hb3 : bits64 ((sgn * 2 ^ 63 : Nat) : Int) = sgn * 2 ^ 63 := bits64_of_nat _ (by omega)
  rcases Nat.le_one_iff_eq_zero_or_eq_one.1 hs with h0 | h1
  · subst h0
    have hd : normalDouble 0 e m = ((2 ^ 52 + m : Nat) : Dbl) * 2 ^ e / 2 ^ 1075 := by
      simp only [normalDouble, if_true, one_mul]
    rw [hd]
    unfold enc754
    rw [if_neg (ne_of_gt hpos), if_neg (not_lt.2 (le_of_lt hpos)),
      if_neg (not_lt.2 (le_of_lt hpos))]
    simp only [hl, hsig, hexp, hb1, hb2]
    have := pattern_or 0 e m he2 hm
    simpa [bits64] using this
  · subst h1
    have hd : normalDouble 1 e m = -(((2 ^ 52 + m : Nat) : Dbl) * 2 ^ e / 2 ^ 1075) := by
      simp only [normalDouble, one_ne_zero, if_false, neg_mul, one_mul]
    rw [hd]
    unfold enc754
    have hneg : -(((2 ^ 52 + m : Nat) : Dbl) * 2 ^ e / 2 ^ 1075) < 0 := by linarith
    rw [if_neg (ne_of_lt hneg), if_pos hneg, if_pos hneg, neg_neg]
    simp only [hl, hsig, hexp, hb1, hb2]
    have h63 : bits64 (1 * 2 ^ 63) = 1 * 2 ^ 63 := by
      have := hb3
      simpa using this
    rw [h63]
    exact pattern_or 1 e m he2 hm

theorem dec754_pattern (sgn e m : Nat) (hs : sgn ≤ 1) (he1 : 1 ≤ e) (he2 : e ≤ 2046)
    (hm : m < 2 ^ 52) :
    dec754 (sgn * 2 ^ 63 + e * 2 ^ 52 + m) = normalDouble sgn e m := by
  have hne : sgn * 2 ^ 63 + e * 2 ^ 52 + m ≠ 0 := by omega
  have hmask : (sgn * 2 ^ 63 + e * 2 ^ 52 + m) &&& (2 ^ 52 - 1) = m := by
    rw [Nat.and_pow_two_sub_one_eq_mod]
    omega
  have hexp : ((sgn * 2 ^ 63 + e * 2 ^ 52 + m) >>> 52) &&& (2 ^ 11 - 1) = e := by
    rw [Nat.and_pow_two_sub_one_eq_mod, Nat.shiftRight_eq_div_pow]
    omega
  have hsgn : ((sgn * 2 ^ 63 + e * 2 ^ 52 + m) >>> 63) &&& 1 = sgn := by
    have := Nat.and_pow_two_sub_one_eq_mod ((sgn * 2 ^ 63 + e * 2 ^ 52 + m) >>> 63) 1
    simp only [pow_one, Nat.add_one_sub_one] at this
    rw [this, Nat.shiftRight_eq_div_pow]
    omega
  unfold dec754
  rw [if_neg hne, hmask, hexp, hsgn]
  simp only [foldl_mul_two, foldl_div_two]
  have hM : ((2 ^ 52 + m : Nat) : Dbl) = 2 ^ 52 + (m : Dbl) := by push_cast; rfl
  have hsign : (if sgn ≠ 0 then (-1 : Dbl) else 1) = (if sgn = 0 then 1 else -1) := by
    by_cases h : sgn = 0 <;> simp [h]
  rw [hsign]
  unfold normalDouble
  rw [hM, mul_comm]
  congr 1
  by_cases hc : 1023 ≤ e
  · obtain ⟨k, rfl⟩ : ∃ k, e = 1023 + k := ⟨e - 1023, by omega⟩
    have e1 : (((1023 + k : Nat) : Int) - (2 ^ (11 - 1) - 1)).toNat = k := by
      norm_num
    have e2 : (-(((1023 + k : Nat) : Int) - (2 ^ (11 - 1) - 1))).toNat = 0 := by
      norm_num
    rw [e1, e2, pow_zero, div_one, pow_add,
      show (2 : Dbl) ^ 1075 = 2 ^ 52 * 2 ^ 1023 by rw [← pow_add]]
    field_simp
    ring
  · obtain ⟨k, hk⟩ : ∃ k, 1023 = e + k := ⟨1023 - e, by omega⟩
    have e1 : (((e : Nat) : Int) - (2 ^ (11 - 1) - 1)).toNat = 0 := by
      norm_num
      omega
    have e2 : (-(((e : Nat) : Int) - (2 ^ (11 - 1) - 1))).toNat = k := by
      norm_num
      omega
    rw [e1, e2, pow_zero, mul_one, show (1075 : Nat) = 52 + (e + k) by omega, pow_add,
      pow_add]
    field_simp
    ring

/-- C19 (counterexample). The subnormal double 2^-1023 (fraction bits 2^51, scaled by
2^-1074) is encoded as 0, and 0 is decoded as 0.0, which is not 2^-1023. -/
theorem C19_subnormal_counterexample :
    (1 / 2 ^ 1023 : Dbl) = ((2 ^ 51 : Nat) : Dbl) / 2 ^ 1074 ∧
    enc754 1100 (1 / 2 ^ 1023) = 0 ∧
    dec754 (enc754 1100 (1 / 2 ^ 1023)) = 0 ∧
    dec754 (enc754 1100 (1 / 2 ^ 1023)) ≠ 1 / 2 ^ 1023 := by
  have hpos : (0 : Dbl) < 1 / 2 ^ 1023 := by positivity
  have hlt : (1 / 2 ^ 1023 : Dbl) < 2 := by
    rw [div_lt_iff₀ (by positivity)]
    have : (1 : Dbl) ≤ 2 ^ 1023 := one_le_pow₀ (by norm_num)
    linarith
  have henc : enc754 1100 (1 / 2 ^ 1023) = 0 := by
    unfold enc754
    rw [if_neg (ne_of_gt hpos), if_neg (not_lt.2 (le_of_lt hpos)),
      if_neg (not_lt.2 (le_of_lt hpos))]
    simp only [enc754_down_small _ _ _ hlt,
      enc754_up_spec 1 (le_refl _) (by norm_num) 1023 1100 0 (by norm_num)]
    simp [toInt64, bits64]
  refine ⟨?_, henc, ?_, ?_⟩
  · rw [show (1074 : Nat) = 51 + 1023 by norm_num, pow_add]
    push_cast
    field_simp
    norm_num
  · rw [henc]
    rfl
  · rw [henc]
    have h0 : dec754 0 = 0 := rfl
    rw [h0]
    exact ne_of_lt hpos

/-- C19 (amended). For every normal double d (sign bit sgn, biased exponent e from 1 to
2046, fraction bits m), with fuel for 1023 iterations: `enc754` gives the IEEE-754 binary64
pattern sgn * 2^63 + e * 2^52 + m, `dec754` gives d back, `packdouble` writes the 8 bytes of
that pattern with the most significant first, and `unpackdouble` of those bytes is d. A
double that compares equal to 0.0 (the value 0 of `Dbl`, which stands for the zero of either
sign) is encoded as the pattern 0, which is not the pattern 2^63 of -0.0, and the pattern 0
is decoded as 0. -/
theorem C19_codec_roundtrip (fuel sgn e m : Nat) (hfuel : 1023 ≤ fuel) (hs : sgn ≤ 1)
    (he1 : 1 ≤ e) (he2 : e ≤ 2046) (hm : m < 2 ^ 52) :
    enc754 fuel (normalDouble sgn e m) = sgn * 2 ^ 63 + e * 2 ^ 52 + m ∧
    dec754 (enc754 fuel (normalDouble sgn e m)) = normalDouble sgn e m ∧
    packdouble (enc754 fuel) (normalDouble sgn e m) =
      pack64 (sgn * 2 ^ 63 + e * 2 ^ 52 + m) ∧
    unpackdouble dec754 (bufOf (packdouble (enc754 fuel) (normalDouble sgn e m))) 0 =
      normalDouble sgn e m ∧
    enc754 fuel 0 = 0 ∧ enc754 fuel 0 ≠ 2 ^ 63 ∧ dec754 (enc754 fuel 0) = 0 := by
  have h1 := enc754_normal fuel sgn e m hfuel hs he2 hm
  have h2 := dec754_pattern sgn e m hs he1 he2 hm
  have h3 : unpacku64 (bufOf (pack64 (sgn * 2 ^ 63 + e * 2 ^ 52 + m))) 0 =
      sgn * 2 ^ 63 + e * 2 ^ 52 + m :=
    unpacku64_of_bytes _ 0 _ (by omega) rfl rfl rfl rfl rfl rfl rfl rfl
  refine ⟨h1, by rw [h1, h2], by rw [packdouble, h1], ?_, rfl, ?_, rfl⟩
  · rw [unpackdouble, packdouble, h1, h3, h2]
  · rw [show enc754 fuel 0 = 0 from rfl]
    norm_num

/-- C19 (witness). The double 159.123 of the test has sign 0, biased exponent 1030 and
fraction bits 1095043212520718: it is decoded to itself and packed as the bytes
40 63 E3 EF 9D B2 2D 0E. -/
theorem C19_codec_roundtrip_witness :
    dec754 (enc754 1100 (normalDouble 0 1030 1095043212520718)) =
      normalDouble 0 1030 1095043212520718 ∧
    packdouble (enc754 1100) (normalDouble 0 1030 1095043212520718) =
      [64, 99, 227, 239, 157, 178, 45, 14] :=
  ⟨(C19_codec_roundtrip 1100 0 1030 1095043212520718 (by decide) (by decide) (by decide)
      (by decide) (by decide)).2.1,
   (C19_codec_roundtrip 1100 0 1030 1095043212520718 (by decide) (by decide) (by decide)
      (by decide) (by decide)).2.2.1.trans (by decide)⟩

/-! ## Round trip of the unsigned integers -/

theorem bufOf_at (pre bytes post : List Nat) (i : Nat) (hi : i < bytes.length) :
    bufOf (pre ++ bytes ++ post) (pre.length + i) = bytes.getD i 0 := by
  unfold bufOf
  rw [List.getD_eq_getElem?_getD, List.getD_eq_getElem?_getD, List.append_assoc,
    List.getElem?_append_right (by omega), Nat.add_sub_cancel_left,
    List.getElem?_append_left hi]

theorem unpacku8_of_byte (buf : Nat → Nat) (o x : Nat) (hx : x < 2 ^ 8)
    (h0 : buf o = x % 256) : unpacku8 buf o = x := by
  unfold unpacku8 rd
  rw [h0]
  omega

/-- C21. For every 8-, 16-, 32- and 64-bit value, the bytes that `pack8`, `pack16`, `pack32`,
`pack64` write, wherever they lie in a buffer, are read back by `unpacku8`, `unpacku16`,
`unpacku32`, `unpacku64` as exactly that value. -/
theorem C21_unsigned_roundtrip (pre post : List Nat) (x8 x16 x32 x64 : Nat)
    (h8 : x8 < 2 ^ 8) (h16 : x16 < 2 ^ 16) (h32 : x32 < 2 ^ 32) (h64 : x64 < 2 ^ 64) :
    unpacku8 (bufOf (pre ++ pack8 x8 ++ post)) pre.length = x8 ∧
    unpacku16 (bufOf (pre ++ pack16 x16 ++ post)) pre.length = x16 ∧
    unpacku32 (bufOf (pre ++ pack32 x32 ++ post)) pre.length = x32 ∧
    unpacku64 (bufOf (pre ++ pack64 x64 ++ post)) pre.length = x64 := by
  refine ⟨?_, ?_, ?_, ?_⟩
  · exact unpacku8_of_byte _ _ _ h8 (bufOf_at pre (pack8 x8) post 0 (by simp [pack8, pack16, pack32, pack64]))
  · exact unpacku16_of_bytes _ _ _ h16 (bufOf_at pre (pack16 x16) post 0 (by simp [pack8, pack16, pack32, pack64]))
      (bufOf_at pre (pack16 x16) post 1 (by simp [pack8, pack16, pack32, pack64]))
  · exact unpacku32_of_bytes _ _ _ h32 (bufOf_at pre (pack32 x32) post 0 (by simp [pack8, pack16, pack32, pack64]))
      (bufOf_at pre (pack32 x32) post 1 (by simp [pack8, pack16, pack32, pack64]))
      (bufOf_at pre (pack32 x32) post 2 (by simp [pack8, pack16, pack32, pack64]))
      (bufOf_at pre (pack32 x32) post 3 (by simp [pack8, pack16, pack32, pack64]))
  · exact unpacku64_of_bytes _ _ _ h64 (bufOf_at pre (pack64 x64) post 0 (by simp [pack8, pack16, pack32, pack64]))
      (bufOf_at pre (pack64 x64) post 1 (by simp [pack8, pack16, pack32, pack64]))
      (bufOf_at pre (pack64 x64) post 2 (by simp [pack8, pack16, pack32, pack64]))
      (bufOf_at pre (pack64 x64) post 3 (by simp [pack8, pack16, pack32, pack64]))
      (bufOf_at pre (pack64 x64) post 4 (by simp [pack8, pack16, pack32, pack64]))
      (bufOf_at pre (pack64 x64) post 5 (by simp [pack8, pack16, pack32, pack64]))
      (bufOf_at pre (pack64 x64) post 6 (by simp [pack8, pack16, pack32, pack64]))
      (bufOf_at pre (pack64 x64) post 7 (by simp [pack8, pack16, pack32, pack64]))

/-- C21 (witness). The maximum of each width, 255, 65535, 2^32 - 1 and 2^64 - 1, written at
the start of a buffer, is read back unchanged. -/
theorem C21_unsigned_roundtrip_witness :
    unpacku8 (bufOf ([] ++ pack8 255 ++ [])) 0 = 255 ∧
    unpacku16 (bufOf ([] ++ pack16 65535 ++ [])) 0 = 65535 ∧
    unpacku32 (bufOf ([] ++ pack32 4294967295 ++ [])) 0 = 4294967295 ∧
    unpacku64 (bufOf ([] ++ pack64 18446744073709551615 ++ [])) 0 = 18446744073709551615 :=
  C21_unsigned_roundtrip [] [] 255 65535 4294967295 18446744073709551615 (by decide)
    (by decide) (by decide) (by decide)

/-! ## Append, exactly -/

/-- C22. For a destination `a` whose array has `maxNodeCount` slots of which `nodeCount` are
in use, and a source `b` whose entries lie within its array: `NodeCollection_append` leaves
`maxNodeCount`, the version and the type of `a` unchanged, and the entries of `a` afterwards
are the old ones followed, in the order of `b`, by the first `maxNodeCount - nodeCount`
eligible entries of `b` (all of them when fewer are eligible); an entry is eligible when
`ignoreNodeId` is 0 or differs from its nodeID. -/
theorem C22_append_exact (junk : Node) (a b : NodeCollection) (ignoreNodeId : Nat)
    (hslots : a.nodes.length = a.maxNodeCount) (hle : a.nodeCount ≤ a.maxNodeCount)
    (hb : b.nodeCount ≤ b.nodes.length) :
    (NodeCollection_append junk a b ignoreNodeId).maxNodeCount = a.maxNodeCount ∧
    (NodeCollection_append junk a b ignoreNodeId).versionID = a.versionID ∧
    (NodeCollection_append junk a b ignoreNodeId).payloadType = a.payloadType ∧
    live (NodeCollection_append junk a b ignoreNodeId) =
      live a ++ ((live b).filter
        (fun n => decide (ignoreNodeId = 0 ∨ ignoreNodeId ≠ n.nodeID))).take
        (a.maxNodeCount - a.nodeCount) ∧
    (NodeCollection_append junk a b ignoreNodeId).nodeCount =
      a.nodeCount + min (a.maxNodeCount - a.nodeCount) ((live b).filter
        (fun n => decide (ignoreNodeId = 0 ∨ ignoreNodeId ≠ n.nodeID))).length := by
  obtain ⟨h1, h2, h3, h4, h5, h6⟩ := append_live junk a b ignoreNodeId hslots hle hb
  have hla := length_live a (by omega)
  have hlive : live (NodeCollection_append junk a b ignoreNodeId) =
      live a ++ ((live b).filter
        (fun n => decide (ignoreNodeId = 0 ∨ ignoreNodeId ≠ n.nodeID))).take
        (a.maxNodeCount - a.nodeCount) := by
    rw [h6, List.take_append_eq_append_take, hla, List.take_of_length_le (by omega)]
  refine ⟨h1, h4, h5, hlive, ?_⟩
  have hl := length_live (NodeCollection_append junk a b ignoreNodeId) (by omega)
  rw [hlive, List.length_append, List.length_take, hla] at hl
  exact hl.symm

/-- C22 (witness). The example random list of capacity 20 holds node 9; appending the
collection 9, 7 while ignoring ID 9 adds node 7 only. -/
theorem C22_append_exact_witness :
    live (NodeCollection_append (exNode 0 0) (exRandomList [exNode 9 1000]) exCollection 9) =
      [exNode 9 1000, exNode 7 1000] ∧
    (NodeCollection_append (exNode 0 0) (exRandomList [exNode 9 1000]) exCollection
      9).nodeCount = 2 :=
  ⟨(C22_append_exact (exNode 0 0) (exRandomList [exNode 9 1000]) exCollection 9 (by decide)
      (by decide) (by decide)).2.2.2.1.trans (by decide),
   (C22_append_exact (exNode 0 0) (exRandomList [exNode 9 1000]) exCollection 9 (by decide)
      (by decide) (by decide)).2.2.2.2.trans (by decide)⟩

/-! ## Expiry is monotone in time -/

theorem removeExpired_count (q : Qsort) (junk : Node) (cfg : Config) (now e : Nat)
    (nc : NodeCollection) (hlen : nc.nodeCount ≤ nc.nodes.length) (h16 : nc.nodeCount < 65536) :
    (NodeCollection_removeExpiredNodes q junk cfg now nc e).1.nodeCount =
      nc.nodeCount - (live nc).countP (fun m =>
        decide ((m.timeStamp : Int) ≤ (now : Int) - (cfg.PROTO_nodeMaxAge : Int))) := by
  obtain ⟨-, -, f3, -⟩ := removeExpired_fold junk
    ((now : Int) - (cfg.PROTO_nodeMaxAge : Int)) nc.nodes (nc.nodeCount : Int) nc.nodeCount hlen
  have hle : (nc.nodes.take nc.nodeCount).countP (fun m =>
      decide ((m.timeStamp : Int) ≤ (now : Int) - (cfg.PROTO_nodeMaxAge : Int)))
      ≤ nc.nodeCount := by
    refine (List.countP_le_length _).trans ?_
    rw [List.length_take]
    omega
  simp only [NodeCollection_removeExpiredNodes, NodeCollection_sortByNodeID, qsortNodes, live]
  rw [f3]
  omega

/-- C24. For every collection whose entries lie within its array, and times now <= now',
the nodeCount that `NodeCollection_removeExpiredNodes` leaves when run at time now' is at
most the nodeCount it leaves when run on the same collection at time now. -/
theorem C24_expire_monotone (q : Qsort) (junk : Node) (cfg : Config) (now now' e : Nat)
    (nc : NodeCollection) (hlen : nc.nodeCount ≤ nc.nodes.length) (h16 : nc.nodeCount < 65536)
    (hnow : now ≤ now') :
    (NodeCollection_removeExpiredNodes q junk cfg now' nc e).1.nodeCount ≤
      (NodeCollection_removeExpiredNodes q junk cfg now nc e).1.nodeCount := by
  rw [removeExpired_count q junk cfg now' e nc hlen h16,
    removeExpired_count q junk cfg now e nc hlen h16]
  have hmono : (live nc).countP (fun m =>
      decide ((m.timeStamp : Int) ≤ (now : Int) - (cfg.PROTO_nodeMaxAge : Int))) ≤
      (live nc).countP (fun m =>
      decide ((m.timeStamp : Int) ≤ (now' : Int) - (cfg.PROTO_nodeMaxAge : Int))) := by
    apply List.countP_mono_left
    intro m _ hm
    simp only [decide_eq_true_eq] at hm ⊢
    omega
  omega

/-- C24 (witness). With maximal age 10800 the example collection keeps all six entries at
time 10000 and one entry at time 20000. -/
theorem C24_expire_monotone_witness :
    (NodeCollection_removeExpiredNodes stableQsort exEnv.junk exConfig 20000 exStale
      10800).1.nodeCount ≤
    (NodeCollection_removeExpiredNodes stableQsort exEnv.junk exConfig 10000 exStale
      10800).1.nodeCount :=
  C24_expire_monotone stableQsort exEnv.junk exConfig 10000 20000 10800 exStale (by decide)
    (by decide) (by decide)

/-! ## Trimming -/

theorem removeExcess_fold_null (junk : Node) (l : List Node) (floor k : Nat) :
    ((List.range' floor k).foldl (removeExcessStep junk) (l, 0)).1.length = l.length ∧
    (∀ j, ((List.range' floor k).foldl (removeExcessStep junk) (l, 0)).1[j]? =
      if floor ≤ j ∧ j < floor + k then l[j]?.map Node_nullOutNode else l[j]?) ∧
    ((List.range' floor k).foldl (removeExcessStep junk) (l, 0)).2 = (k : Int) := by
  induction k with
  | zero =>
    refine ⟨rfl, fun j => ?_, rfl⟩
    rw [if_neg (by omega)]
    rfl
  | succ k ih =>
    obtain ⟨h1, h2, h3⟩ := ih
    rw [List.range'_concat, List.foldl_append]
    simp only [List.foldl_cons, List.foldl_nil, Nat.one_mul]
    generalize (List.range' floor k).foldl (removeExcessStep junk) (l, 0) = st at *
    refine ⟨by simp only [removeExcessStep, List.length_set]; exact h1, fun j => ?_,
      by simp only [removeExcessStep, h3]; push_cast; ring⟩
    simp only [removeExcessStep]
    by_cases hj : j = floor + k
    · subst hj
      rw [if_pos (by omega)]
      by_cases hlt : floor + k < l.length
      · rw [List.getElem?_set_self (by omega), List.getD_eq_getElem?_getD, h2 (floor + k),
          if_neg (by omega), List.getElem?_eq_getElem hlt]
        rfl
      · rw [List.getElem?_eq_none (by simp only [List.length_set]; omega),
          List.getElem?_eq_none (by omega)]
        rfl
    · rw [List.getElem?_set_ne (fun h => hj h.symm), h2 j]
      by_cases hc : floor ≤ j ∧ j < floor + k
      · rw [if_pos hc, if_pos (by omega)]
      · rw [if_neg hc, if_neg (by omega)]

/-- C25. For a collection whose array has `maxNodeCount` slots: when nodeCount exceeds the
floor, `NodeCollection_removeExcessNodes` sets nodeCount to the floor, leaves maxNodeCount,
writes nodeID 0 into every slot from the floor up to maxNodeCount (its other fields stay),
leaves the slots below the floor unchanged and returns maxNodeCount minus the floor; when
nodeCount is at most the floor the collection is unchanged and 0 is returned. -/
theorem C25_removeExcess (junk : Node) (nc : NodeCollection) (floor_value : Nat)
    (hslots : nc.nodes.length = nc.maxNodeCount) (h16 : nc.nodeCount < 65536) :
    (nc.nodeCount > floor_value →
      (NodeCollection_removeExcessNodes junk nc floor_value).1.nodeCount = floor_value ∧
      (NodeCollection_removeExcessNodes junk nc floor_value).1.maxNodeCount
        = nc.maxNodeCount ∧
      (∀ i, floor_value ≤ i → i < nc.maxNodeCount →
        (nodeAt junk (NodeCollection_removeExcessNodes junk nc floor_value).1 i).nodeID = 0 ∧
        nodeAt junk (NodeCollection_removeExcessNodes junk nc floor_value).1 i =
          Node_nullOutNode (nodeAt junk nc i)) ∧
      (∀ i, i < floor_value →
        (NodeCollection_removeExcessNodes junk nc floor_value).1.nodes[i]? = nc.nodes[i]?) ∧
      (NodeCollection_removeExcessNodes junk nc floor_value).2 =
        ((nc.maxNodeCount - floor_value : Nat) : Int)) ∧
    (nc.nodeCount ≤ floor_value →
      NodeCollection_removeExcessNodes junk nc floor_value = (nc, 0)) := by
  obtain ⟨f1, f2, f3⟩ := removeExcess_fold_null junk nc.nodes floor_value
    (nc.maxNodeCount - floor_value)
  constructor
  · intro hgt
    unfold NodeCollection_removeExcessNodes
    rw [if_pos hgt]
    refine ⟨Nat.mod_eq_of_lt (by omega), rfl, fun i hi1 hi2 => ?_, fun i hi => ?_, f3⟩
    · have hnode : nodeAt junk
          { nc with
            nodes := ((List.range' floor_value (nc.maxNodeCount - floor_value)).foldl
              (removeExcessStep junk) (nc.nodes, 0)).1
            nodeCount := floor_value % 65536 } i = Node_nullOutNode (nodeAt junk nc i) := by
        simp only [nodeAt, List.getD_eq_getElem?_getD]
        rw [f2 i, if_pos (by omega), List.getElem?_eq_getElem (by omega)]
        rfl
      exact ⟨by rw [hnode]; rfl, hnode⟩
    · show ((List.range' floor_value (nc.maxNodeCount - floor_value)).foldl
        (removeExcessStep junk) (nc.nodes, 0)).1[i]? = nc.nodes[i]?
      rw [f2 i, if_neg (by omega)]
  · intro hle
    unfold NodeCollection_removeExcessNodes
    rw [if_neg (by omega)]

/-- C25 (witness). The example collection of eight slots holds six entries; trimmed to the
floor 2 it keeps its first two entries and every slot from index 2 on has nodeID 0. -/
theorem C25_removeExcess_witness :
    (NodeCollection_removeExcessNodes exEnv.junk exStale 2).1.nodeCount = 2 ∧
    (∀ i, 2 ≤ i → i < exStale.maxNodeCount →
      (nodeAt exEnv.junk (NodeCollection_removeExcessNodes exEnv.junk exStale 2).1 i).nodeID
        = 0 ∧
      nodeAt exEnv.junk (NodeCollection_removeExcessNodes exEnv.junk exStale 2).1 i =
        Node_nullOutNode (nodeAt exEnv.junk exStale i)) ∧
    live (NodeCollection_removeExcessNodes exEnv.junk exStale 2).1
      = [exNode 1 9000, exNode 2 9000] :=
  ⟨((C25_removeExcess exEnv.junk exStale 2 (by decide) (by decide)).1 (by decide)).1,
   ((C25_removeExcess exEnv.junk exStale 2 (by decide) (by decide)).1 (by decide)).2.2.1,
   by decide⟩

/-! ## Growing -/

/-- C26. For every collection with maxNodeCount <= 10000 and every 16-bit amount:
`NodeCollection_grow` sets maxNodeCount to the sum when the sum is at most 10000 and leaves
the collection as it is otherwise; in both cases nodeCount and all the old slots, so the first
nodeCount entries, are unchanged and maxNodeCount <= 10000 still holds. -/
theorem C26_grow (junk : Node) (nc : NodeCollection) (grow_amount : Nat)
    (hmax : nc.maxNodeCount ≤ 10000) (hd : grow_amount < 65536) :
    (nc.maxNodeCount + grow_amount ≤ 10000 →
      (NodeCollection_grow junk nc grow_amount).maxNodeCount
        = nc.maxNodeCount + grow_amount) ∧
    (10000 < nc.maxNodeCount + grow_amount → NodeCollection_grow junk nc grow_amount = nc) ∧
    (NodeCollection_grow junk nc grow_amount).nodeCount = nc.nodeCount ∧
    (NodeCollection_grow junk nc grow_amount).nodes.take nc.nodes.length = nc.nodes ∧
    (nc.nodeCount ≤ nc.nodes.length →
      live (NodeCollection_grow junk nc grow_amount) = live nc) ∧
    (NodeCollection_grow junk nc grow_amount).maxNodeCount ≤ 10000 := by
  have hmod : (nc.maxNodeCount + grow_amount) % 2 ^ 32 = nc.maxNodeCount + grow_amount :=
    Nat.mod_eq_of_lt (by omega)
  unfold NodeCollection_grow P2PDPRD_NODES_MAX_SIZE
  rw [hmod]
  by_cases hc : nc.maxNodeCount + grow_amount ≤ 10000
  · rw [if_pos hc]
    have hmod2 : (nc.maxNodeCount + grow_amount) % 65536 = nc.maxNodeCount + grow_amount :=
      Nat.mod_eq_of_lt (by omega)
    refine ⟨fun _ => hmod2, fun h => absurd hc (by omega), rfl, ?_, fun hlen => ?_, ?_⟩
    · exact List.take_left' rfl
    · simp only [live]
      rw [List.take_append_of_le_length hlen]
    · simp only [hmod2]
      exact hc
  · rw [if_neg hc]
    exact ⟨fun h => absurd h hc, fun _ => rfl, rfl, List.take_length _, fun _ => rfl, hmax⟩

/-- C26 (witness). The example collection of eight slots grows to 23 slots by 15 and keeps
its six entries; by 9995 it would pass 10000 and is left as it is. -/
theorem C26_grow_witness :
    (NodeCollection_grow exEnv.junk exStale 15).maxNodeCount = 23 ∧
    live (NodeCollection_grow exEnv.junk exStale 15) = live exStale ∧
    NodeCollection_grow exEnv.junk exStale 9995 = exStale :=
  ⟨(C26_grow exEnv.junk exStale 15 (by decide) (by decide)).1 (by decide),
   (C26_grow exEnv.junk exStale 15 (by decide) (by decide)).2.2.2.2.1 (by decide),
   (C26_grow exEnv.junk exStale 9995 (by decide) (by decide)).2.1 (by decide)⟩

/-! ## Candidate nodes -/

theorem take_set_succ {α : Type} (l : List α) (j : Nat) (x : α) (h : j < l.length) :
    (l.set j x).take (j + 1) = l.take j ++ [x] := by
  rw [List.take_succ, List.getElem?_set_self h, take_set_of_le _ _ _ _ (Nat.le_refl _)]
  rfl

theorem getCandidate_fold (junk : Node) (nc : NodeCollection) (l0 : List Node) (k : Nat)
    (hk : k ≤ nc.nodes.length) (hl0 : k ≤ l0.length) :
    ((List.range k).foldl (fun (st : List Node × Nat) i =>
      if (nodeAt junk nc i).utility ≥ 1 then (st.1.set st.2 (nodeAt junk nc i), st.2 + 1)
      else st) (l0, 0)).1.length = l0.length ∧
    ((List.range k).foldl (fun (st : List Node × Nat) i =>
      if (nodeAt junk nc i).utility ≥ 1 then (st.1.set st.2 (nodeAt junk nc i), st.2 + 1)
      else st) (l0, 0)).2 =
      ((nc.nodes.take k).filter (fun n => decide (n.utility ≥ 1))).length ∧
    ((List.range k).foldl (fun (st : List Node × Nat) i =>
      if (nodeAt junk nc i).utility ≥ 1 then (st.1.set st.2 (nodeAt junk nc i), st.2 + 1)
      else st) (l0, 0)).1.take
        ((nc.nodes.take k).filter (fun n => decide (n.utility ≥ 1))).length =
      (nc.nodes.take k).filter (fun n => decide (n.utility ≥ 1)) := by
  induction k with
  | zero => exact ⟨rfl, rfl, rfl⟩
  | succ k ih =>
    obtain ⟨h1, h2, h3⟩ := ih (by omega) (by omega)
    rw [List.range_succ, List.foldl_append]
    simp only [List.foldl_cons, List.foldl_nil]
    generalize (List.range k).foldl (fun (st : List Node × Nat) i =>
      if (nodeAt junk nc i).utility ≥ 1 then (st.1.set st.2 (nodeAt junk nc i), st.2 + 1)
      else st) (l0, 0) = st at *
    have hkb : k < nc.nodes.length := by omega
    have hat : nodeAt junk nc k = nc.nodes[k] := by
      simp only [nodeAt, List.getD_eq_getElem?_getD, List.getElem?_eq_getElem hkb,
        Option.getD_some]
    have htk : nc.nodes.take (k + 1) = nc.nodes.take k ++ [nc.nodes[k]] := by
      rw [List.take_succ, List.getElem?_eq_getElem hkb]
      rfl
    have hfl : ((nc.nodes.take k).filter (fun n => decide (n.utility ≥ 1))).length ≤ k := by
      refine (List.length_filter_le _ _).trans ?_
      rw [List.length_take]
      omega
    rw [hat, htk, List.filter_append]
    by_cases hp : nc.nodes[k].utility ≥ 1
    · rw [if_pos hp]
      have hf : [nc.nodes[k]].filter (fun n => decide (n.utility ≥ 1)) = [nc.nodes[k]] := by
        simp only [List.filter_cons, List.filter_nil, hp, decide_True, if_true]
      rw [hf, List.length_append, List.length_singleton]
      refine ⟨by simp only [List.length_set]; exact h1, by simp only; omega, ?_⟩
      simp only
      rw [h2, take_set_succ _ _ _ (by omega), h3]
    · rw [if_neg hp]
      have hf : [nc.nodes[k]].filter (fun n => decide (n.utility ≥ 1)) = [] := by
        simp only [List.filter_cons, List.filter_nil, hp, decide_False]
        rfl
      rw [hf, List.append_nil]
      exact ⟨h1, h2, h3⟩

theorem countCandidate_fold (junk : Node) (nc : NodeCollection) (k : Nat)
    (hk : k ≤ nc.nodes.length) :
    (List.range k).foldl
      (fun (counter : Int) i => if (nodeAt junk nc i).utility ≥ 1 then counter + 1 else counter)
      0 = (((nc.nodes.take k).filter (fun n => decide (n.utility ≥ 1))).length : Int) := by
  induction k with
  | zero => rfl
  | succ k ih =>
    rw [List.range_succ, List.foldl_append, ih (by omega)]
    simp only [List.foldl_cons, List.foldl_nil]
    have hkb : k < nc.nodes.length := by omega
    have hat : nodeAt junk nc k = nc.nodes[k] := by
      simp only [nodeAt, List.getD_eq_getElem?_getD, List.getElem?_eq_getElem hkb,
        Option.getD_some]
    have htk : nc.nodes.take (k + 1) = nc.nodes.take k ++ [nc.nodes[k]] := by
      rw [List.take_succ, List.getElem?_eq_getElem hkb]
      rfl
    rw [hat, htk, List.filter_append, List.length_append]
    by_cases hp : nc.nodes[k].utility ≥ 1
    · rw [if_pos hp]
      simp only [List.filter_cons, List.filter_nil, hp, decide_True, if_true,
        List.length_singleton]
      push_cast
      rfl
    · rw [if_neg hp]
      simp only [List.filter_cons, List.filter_nil, hp, decide_False]
      simp

/-- C27. For every collection whose entries lie within its array, the collection that
`NodeCollection_getCandidateNodes` builds has version 1 and type INTERNAL, its entries are
exactly the entries of the input with utility >= 1, in their order, and its nodeCount is
the value of `NodeCollection_countCandidateNodes`. -/
theorem C27_getCandidateNodes (junk : Node) (nc : NodeCollection)
    (hlen : nc.nodeCount ≤ nc.nodes.length) (h16 : nc.nodeCount < 65536) :
    (NodeCollection_getCandidateNodes junk nc).versionID = 1 ∧
    (NodeCollection_getCandidateNodes junk nc).payloadType = INTERNAL ∧
    live (NodeCollection_getCandidateNodes junk nc) =
      (live nc).filter (fun n => decide (n.utility ≥ 1)) ∧
    ((NodeCollection_getCandidateNodes junk nc).nodeCount : Int) =
      NodeCollection_countCandidateNodes junk nc := by
  have hmod : nc.nodeCount % 65536 = nc.nodeCount := Nat.mod_eq_of_lt h16
  obtain ⟨f1, f2, f3⟩ := getCandidate_fold junk nc (List.replicate nc.nodeCount junk)
    nc.nodeCount hlen (by simp)
  have hc := countCandidate_fold junk nc nc.nodeCount hlen
  have hfl : ((nc.nodes.take nc.nodeCount).filter (fun n => decide (n.utility ≥ 1))).length
      ≤ nc.nodeCount := by
    refine (List.length_filter_le _ _).trans ?_
    rw [List.length_take]
    omega
  simp only [NodeCollection_getCandidateNodes, NodeCollection_countCandidateNodes,
    NodeCollection_new, hmod, live, P2PDPRD_VERSION_ID]
  rw [f2, hc, Nat.mod_eq_of_lt (by omega), f3]
  exact ⟨by decide, trivial, rfl, rfl⟩

/-- C27 (witness). Of three entries with utilities 2, 0 and 1, the first and the third are
candidates, in that order. -/
theorem C27_getCandidateNodes_witness :
    live (NodeCollection_getCandidateNodes exEnv.junk exUtilities) =
      [{ exNode 9 2000 with utility := 2 }, { exNode 5 1500 with utility := 1 }] ∧
    ((NodeCollection_getCandidateNodes exEnv.junk exUtilities).nodeCount : Int) =
      NodeCollection_countCandidateNodes exEnv.junk exUtilities :=
  ⟨(C27_getCandidateNodes exEnv.junk exUtilities (by decide) (by decide)).2.2.1.trans
      (by decide),
   (C27_getCandidateNodes exEnv.junk exUtilities (by decide) (by decide)).2.2.2⟩

/-! ## Selection of a random peer -/

theorem findSome_congr {α β : Type} (f g : α → Option β) (l : List α)
    (h : ∀ a ∈ l, f a = g a) : l.findSome? f = l.findSome? g := by
  induction l with
  | nil => rfl
  | cons a l ih =>
    rw [List.findSome?_cons, List.findSome?_cons, h a (List.mem_cons_self a l),
      ih (fun b hb => h b (List.mem_cons_of_mem a hb))]

theorem randomDrawLoop_some (cfg : Config) (junk : Node) (nc : NodeCollection) (range : Nat)
    (draws : Nat → Nat) (i : Nat) (h : randomDrawLoop cfg junk nc range draws = some i) :
    (∃ k, k < 100 ∧ i = draws k % range) ∧ (nodeAt junk nc i).nodeID ≠ cfg.CLIENT_id := by
  obtain ⟨k, hk, hf⟩ := List.exists_of_findSome?_eq_some h
  by_cases hc : (nodeAt junk nc (draws k % range)).nodeID ≠ cfg.CLIENT_id
  · rw [if_pos hc] at hf
    cases hf
    exact ⟨⟨k, List.mem_range.1 hk, rfl⟩, hc⟩
  · rw [if_neg hc] at hf
    cases hf

/-- C28. For every collection and every sequence of values of `rand()`:
`Node_getRandomPeerNode` returns either no node or the entry at an index below nodeCount
whose nodeID is not CLIENT_id; it returns no node when nodeCount is 0 and when every entry
has the nodeID CLIENT_id; and its result depends on the first 100 values of `rand()` only,
and on none of them when nodeCount is at most 1. -/
theorem C28_getRandomPeerNode (cfg : Config) (junk : Node) (draws : Nat → Nat)
    (nc : NodeCollection) :
    (∀ i, Node_getRandomPeerNode cfg junk draws nc = some i →
      i < nc.nodeCount ∧ (nodeAt junk nc i).nodeID ≠ cfg.CLIENT_id) ∧
    (nc.nodeCount = 0 → Node_getRandomPeerNode cfg junk draws nc = none) ∧
    ((∀ i, i < nc.nodeCount → (nodeAt junk nc i).nodeID = cfg.CLIENT_id) →
      Node_getRandomPeerNode cfg junk draws nc = none) ∧
    (∀ draws2 : Nat → Nat, (∀ k, k < 100 → draws2 k = draws k) →
      Node_getRandomPeerNode cfg junk draws2 nc = Node_getRandomPeerNode cfg junk draws nc) ∧
    (nc.nodeCount ≤ 1 → ∀ draws2 : Nat → Nat,
      Node_getRandomPeerNode cfg junk draws2 nc = Node_getRandomPeerNode cfg junk draws nc) := by
  refine ⟨fun i h => ?_, fun h0 => ?_, fun hall => ?_, fun draws2 hd => ?_, fun h1 draws2 => ?_⟩
  · unfold Node_getRandomPeerNode at h
    by_cases h0 : nc.nodeCount ≤ 0
    · rw [if_pos h0] at h
      cases h
    · rw [if_neg h0] at h
      by_cases h1 : nc.nodeCount = 1
      · rw [if_pos h1] at h
        by_cases hc : (nodeAt junk nc 0).nodeID ≠ cfg.CLIENT_id
        · rw [if_pos hc] at h
          cases h
          exact ⟨by omega, hc⟩
        · rw [if_neg hc] at h
          cases h
      · rw [if_neg h1] at h
        obtain ⟨⟨k, -, hk⟩, hid⟩ := randomDrawLoop_some cfg junk nc nc.nodeCount draws i h
        refine ⟨?_, hid⟩
        rw [hk]
        exact Nat.mod_lt _ (by omega)
  · unfold Node_getRandomPeerNode
    rw [if_pos (by omega)]
  · unfold Node_getRandomPeerNode
    by_cases h0 : nc.nodeCount ≤ 0
    · rw [if_pos h0]
    · rw [if_neg h0]
      by_cases h1 : nc.nodeCount = 1
      · rw [if_pos h1, if_neg (by rw [ne_eq, not_not]; exact hall 0 (by omega))]
      · rw [if_neg h1]
        unfold randomDrawLoop
        rw [List.findSome?_eq_none_iff]
        intro k _
        rw [if_neg]
        rw [ne_eq, not_not]
        exact hall _ (Nat.mod_lt _ (by omega))
  · unfold Node_getRandomPeerNode randomDrawLoop
    rw [findSome_congr _ _ (List.range 100) (fun k hk => by rw [hd k (List.mem_range.1 hk)])]
  · unfold Node_getRandomPeerNode
    by_cases h0 : nc.nodeCount ≤ 0
    · rw [if_pos h0, if_pos h0]
    · have h1' : nc.nodeCount = 1 := by omega
      rw [if_neg h0, if_neg h0, if_pos h1', if_pos h1']

/-- C28 (witness). In the collection 9, 7 with CLIENT_id 9 and every value of `rand()` 0,
index 0 is drawn 100 times and no node is returned; with the values 0, 1, .. the second draw
gives index 1. -/
theorem C28_getRandomPeerNode_witness :
    Node_getRandomPeerNode { exConfig with CLIENT_id := 9 } exEnv.junk (fun _ => 0)
      exCollection = none ∧
    Node_getRandomPeerNode { exConfig with CLIENT_id := 9 } exEnv.junk (fun k => k)
      exCollection = some 1 ∧
    (1 < exCollection.nodeCount ∧
      (nodeAt exEnv.junk exCollection 1).nodeID ≠ ({ exConfig with CLIENT_id := 9 }).CLIENT_id) :=
  ⟨by decide, by decide,
   (C28_getRandomPeerNode { exConfig with CLIENT_id := 9 } exEnv.junk (fun k => k)
      exCollection).1 1 (by decide)⟩

/-! ## The collection sent by Protocol_sendImportantNodes -/

theorem calculateUtility_live (geo : Dbl → Dbl → Dbl → Dbl → Dbl) (junk : Node)
    (nc : NodeCollection) (n : Node) (hlen : nc.nodeCount ≤ nc.nodes.length) :
    live (NodeCollection_calculateUtility geo junk nc n) =
      (live nc).map (fun m => { m with utility := Node_utility geo n m }) := by
  obtain ⟨f1, f2, -⟩ := calculateUtility_fold geo junk nc.nodes n nc.nodeCount hlen
  simp only [live, NodeCollection_calculateUtility]
  simp only at f1 f2
  apply List.ext_getElem?
  intro j
  rw [List.getElem?_take, List.getElem?_map, List.getElem?_take]
  by_cases hj : j < nc.nodeCount
  · have hget := f2 j hj
    rw [List.getD_eq_getElem?_getD, List.getD_eq_getElem?_getD,
      List.getElem?_eq_getElem (by omega), List.getElem?_eq_getElem (by omega)] at hget
    simp only [Option.getD_some] at hget
    rw [if_pos hj, if_pos hj, List.getElem?_eq_getElem (by omega),
      List.getElem?_eq_getElem (by omega), hget]
    rfl
  · rw [if_neg hj, if_neg hj]
    rfl

theorem removeExcess_live (junk : Node) (nc : NodeCollection) (floor_value : Nat)
    (hgt : nc.nodeCount > floor_value) (h16 : nc.nodeCount < 65536) :
    (NodeCollection_removeExcessNodes junk nc floor_value).1.nodeCount = floor_value ∧
    (NodeCollection_removeExcessNodes junk nc floor_value).1.nodes.length = nc.nodes.length ∧
    live (NodeCollection_removeExcessNodes junk nc floor_value).1 =
      (live nc).take floor_value := by
  obtain ⟨f1, f2⟩ := removeExcess_fold junk nc.nodes floor_value
    (nc.maxNodeCount - floor_value)
  have hmod : floor_value % 65536 = floor_value := Nat.mod_eq_of_lt (by omega)
  unfold NodeCollection_removeExcessNodes
  rw [if_pos hgt]
  refine ⟨hmod, f1, ?_⟩
  simp only [live, hmod]
  apply List.ext_getElem?
  intro j
  rw [List.getElem?_take, List.getElem?_take, List.getElem?_take]
  by_cases hj : j < floor_value
  · rw [if_pos hj, if_pos hj, if_pos (by omega), f2 j hj]
  · rw [if_neg hj, if_neg hj]

theorem markDup_spec (o : List Nat) (ho : o.Pairwise (fun a b => b ≤ a)) :
    (markDup o).length = o.length ∧
    ((markDup o).filter (fun x => decide (x ≠ 0))).Nodup ∧
    (∀ x, x ∈ (markDup o).filter (fun x => decide (x ≠ 0)) ↔ x ∈ o ∧ x ≠ 0) ∧
    ((markDup o).filter (fun x => decide (x ≠ 0))).length + (if 0 ∈ o then 1 else 0)
      + countDup o = o.length := by
  induction o with
  | nil => simp [markDup, countDup]
  | cons a t ih =>
    cases t with
    | nil =>
      by_cases ha : a = 0
      · subst ha
        simp [markDup, countDup]
      · simp [markDup, countDup, ha, Ne.symm ha]
    | cons b t =>
      obtain ⟨ha, hbt⟩ := List.pairwise_cons.1 ho
      obtain ⟨i1, i2, i3, i4⟩ := ih hbt
      simp only [List.length_cons] at i1
      have hba : b ≤ a := ha b (List.mem_cons_self b t)
      by_cases hab : a = b
      · subst hab
        have hF : markDup (a :: a :: t) = 0 :: markDup (a :: t) := by
          simp [markDup]
        have hC : countDup (a :: a :: t) = 1 + countDup (a :: t) := by
          simp [countDup]
        rw [hF, hC]
        have hfil : (0 :: markDup (a :: t)).filter (fun x => decide (x ≠ 0)) =
            (markDup (a :: t)).filter (fun x => decide (x ≠ 0)) := by
          simp
        rw [hfil]
        refine ⟨by simp only [List.length_cons]; omega, i2, fun x => ?_, ?_⟩
        · rw [i3 x]
          simp
        · have hmem : (0 ∈ a :: a :: t) ↔ (0 ∈ a :: t) := by simp
          simp only [hmem, List.length_cons] at i4 ⊢
          omega
      · have ha0 : a ≠ 0 := by omega
        have hF : markDup (a :: b :: t) = a :: markDup (b :: t) := by
          simp [markDup, hab]
        have hC : countDup (a :: b :: t) = countDup (b :: t) := by
          simp [countDup, hab]
        rw [hF, hC]
        have hfil : (a :: markDup (b :: t)).filter (fun x => decide (x ≠ 0)) =
            a :: (markDup (b :: t)).filter (fun x => decide (x ≠ 0)) := by
          simp [ha0]
        rw [hfil]
        refine ⟨by simp only [List.length_cons]; omega, ?_, fun x => ?_, ?_⟩
        · rw [List.nodup_cons]
          refine ⟨fun hmem => ?_, i2⟩
          have := ((i3 a).1 hmem).1
          have hle : ∀ y ∈ b :: t, y ≤ b := by
            intro y hy
            rcases List.mem_cons.1 hy with rfl | hy
            · exact Nat.le_refl _
            · exact (List.pairwise_cons.1 hbt).1 y hy
          have := hle a this
          omega
        · rw [List.mem_cons, i3 x, List.mem_cons (a := x) (b := a)]
          constructor
          · rintro (rfl | ⟨h1, h2⟩)
            · exact ⟨Or.inl rfl, ha0⟩
            · exact ⟨Or.inr h1, h2⟩
          · rintro ⟨rfl | h1, h2⟩
            · exact Or.inl rfl
            · exact Or.inr ⟨h1, h2⟩
        · have hmem : (0 ∈ a :: b :: t) ↔ (0 ∈ b :: t) := by
            simp [Ne.symm ha0]
          simp only [hmem, List.length_cons] at i4 ⊢
          omega

theorem desc_nonzero_prefix (s : List Nat) (h : s.Pairwise (fun a b => b ≤ a)) :
    s.take (s.filter (fun x => decide (x ≠ 0))).length =
      s.filter (fun x => decide (x ≠ 0)) ∧
    ∀ x ∈ s.drop (s.filter (fun x => decide (x ≠ 0))).length, x = 0 := by
  induction s with
  | nil => exact ⟨rfl, fun x hx => by simp at hx⟩
  | cons a l ih =>
    obtain ⟨ha, hl⟩ := List.pairwise_cons.1 h
    obtain ⟨i1, i2⟩ := ih hl
    by_cases hz : a = 0
    · have hall : l.filter (fun x => decide (x ≠ 0)) = [] := by
        rw [List.filter_eq_nil_iff]
        intro m hm
        have := ha m hm
        simp only [ne_eq, decide_eq_true_eq, Decidable.not_not]
        omega
      rw [List.filter_cons_of_neg (by simp [hz]), hall]
      refine ⟨rfl, fun x hx => ?_⟩
      simp only [List.length_nil, List.drop_zero, List.mem_cons] at hx
      rcases hx with rfl | hx
      · exact hz
      · have := ha x hx
        omega
    · rw [List.filter_cons_of_pos (by simp [hz]), List.length_cons, List.take_succ_cons,
        List.drop_succ_cons, i1]
      exact ⟨rfl, i2⟩

theorem dedup_take (o s : List Nat) (ho : o.Pairwise (fun a b => b ≤ a))
    (hs : s.Perm (markDup o)) (hsd : s.Pairwise (fun a b => b ≤ a)) :
    o.length - countDup o ≤ s.length ∧
    (s.take (o.length - countDup o)).Nodup ∧
    ∀ x, x ∈ s.take (o.length - countDup o) ↔ x ∈ o := by
  obtain ⟨b1, b2, b3, b4⟩ := markDup_spec o ho
  obtain ⟨p1, p2⟩ := desc_nonzero_prefix s hsd
  have hperm := hs.filter (fun x => decide (x ≠ 0))
  have hk := hperm.length_eq
  have hsl : s.length = o.length := hs.length_eq.trans b1
  have hnd : (s.filter (fun x => decide (x ≠ 0))).Nodup := (hperm.nodup_iff).2 b2
  have hmem : ∀ x, x ∈ s.filter (fun x => decide (x ≠ 0)) ↔ x ∈ o ∧ x ≠ 0 :=
    fun x => (hperm.mem_iff).trans (b3 x)
  by_cases h0 : 0 ∈ o
  · rw [if_pos h0] at b4
    have hc : o.length - countDup o = (s.filter (fun x => decide (x ≠ 0))).length + 1 := by
      omega
    have hlt : (s.filter (fun x => decide (x ≠ 0))).length < s.length := by omega
    have hdrop := List.drop_eq_getElem_cons hlt
    have hz : s[(s.filter (fun x => decide (x ≠ 0))).length] = 0 :=
      p2 _ (by rw [hdrop]; exact List.mem_cons_self _ _)
    have htake : s.take (o.length - countDup o) =
        s.filter (fun x => decide (x ≠ 0)) ++ [0] := by
      rw [hc, List.take_succ, p1, List.getElem?_eq_getElem hlt, hz]
      rfl
    refine ⟨by omega, ?_, fun x => ?_⟩
    · rw [htake, List.nodup_append]
      refine ⟨hnd, List.nodup_singleton 0, ?_⟩
      rw [List.disjoint_singleton]
      intro hm
      exact ((hmem 0).1 hm).2 rfl
    · rw [htake, List.mem_append, List.mem_singleton, hmem x]
      constructor
      · rintro (⟨h1, -⟩ | rfl)
        · exact h1
        · exact h0
      · intro hx
        by_cases hx0 : x = 0
        · exact Or.inr hx0
        · exact Or.inl ⟨hx, hx0⟩
  · rw [if_neg h0] at b4
    have hc : o.length - countDup o = (s.filter (fun x => decide (x ≠ 0))).length := by
      omega
    rw [hc, p1]
    refine ⟨by omega, hnd, fun x => ?_⟩
    rw [hmem x]
    exact ⟨fun h => h.1, fun h => ⟨h, fun hx0 => h0 (hx0 ▸ h)⟩⟩

theorem removeDuplicateStep_cons (junk x : Node) (l : List Node) (c : Int) (i : Nat) :
    removeDuplicateStep junk (x :: l, c) (i + 1) =
      (x :: (removeDuplicateStep junk (l, c) i).1, (removeDuplicateStep junk (l, c) i).2) := by
  unfold removeDuplicateStep
  simp only [List.getD_cons_succ, List.set_cons_succ]
  split_ifs <;> rfl

theorem removeDuplicate_fold_cons (junk x : Node) (is : List Nat) :
    ∀ (l : List Node) (c : Int),
    (is.map Nat.succ).foldl (removeDuplicateStep junk) (x :: l, c) =
      (x :: (is.foldl (removeDuplicateStep junk) (l, c)).1,
        (is.foldl (removeDuplicateStep junk) (l, c)).2) := by
  induction is with
  | nil => intro l c; rfl
  | cons i is ih =>
    intro l c
    simp only [List.map_cons, List.foldl_cons, Nat.succ_eq_add_one]
    rw [removeDuplicateStep_cons]
    exact ih _ _

theorem removeDuplicateStep_zero (junk a b : Node) (l : List Node) (c : Int) :
    ∃ a2 b2 : Node, removeDuplicateStep junk (a :: b :: l, c) 0 =
        (a2 :: b2 :: l, c - (if a.nodeID = b.nodeID then 1 else 0)) ∧
      a2.nodeID = (if a.nodeID = b.nodeID then 0 else a.nodeID) ∧
      b2.nodeID = b.nodeID := by
  unfold removeDuplicateStep
  simp only [List.getD_cons_zero, List.getD_cons_succ, List.set_cons_zero, List.set_cons_succ]
  by_cases hid : a.nodeID = b.nodeID
  · by_cases hts : a.timeStamp < b.timeStamp
    · exact ⟨Node_nullOutNode a, b, by rw [if_pos hid, if_pos hts, if_pos hid],
        by rw [if_pos hid]; rfl, rfl⟩
    · exact ⟨(Node_swapPointers a (Node_nullOutNode b)).1,
        (Node_swapPointers a (Node_nullOutNode b)).2,
        by rw [if_pos hid, if_neg hts, if_pos hid],
        by rw [if_pos hid]; rfl, hid⟩
  · exact ⟨a, b, by rw [if_neg hid, if_neg hid]; simp, by rw [if_neg hid], rfl⟩

theorem removeDuplicate_loop (junk : Node) (t : List Node) :
    ∀ (a : Node) (rest : List Node) (c : Int),
    ∃ l2 : List Node,
      ((List.range t.length).foldl (removeDuplicateStep junk) (a :: t ++ rest, c)).1
        = l2 ++ rest ∧
      l2.length = t.length + 1 ∧
      l2.map (fun n => n.nodeID) = markDup ((a :: t).map (fun n => n.nodeID)) ∧
      ((List.range t.length).foldl (removeDuplicateStep junk) (a :: t ++ rest, c)).2
        = c - (countDup ((a :: t).map (fun n => n.nodeID)) : Nat) := by
  induction t with
  | nil =>
    intro a rest c
    exact ⟨[a], rfl, rfl, rfl, by simp [countDup]⟩
  | cons b t ih =>
    intro a rest c
    obtain ⟨a2, b2, h0, ha2, hb2⟩ := removeDuplicateStep_zero junk a b (t ++ rest) c
    obtain ⟨l3, e1, e2, e3, e4⟩ := ih b2 rest (c - (if a.nodeID = b.nodeID then 1 else 0))
    have hfold : (List.range (b :: t).length).foldl (removeDuplicateStep junk)
        (a :: (b :: t) ++ rest, c) =
        (a2 :: ((List.range t.length).foldl (removeDuplicateStep junk)
          (b2 :: t ++ rest, c - (if a.nodeID = b.nodeID then 1 else 0))).1,
         ((List.range t.length).foldl (removeDuplicateStep junk)
          (b2 :: t ++ rest, c - (if a.nodeID = b.nodeID then 1 else 0))).2) := by
      rw [List.length_cons, List.range_succ_eq_map, List.foldl_cons]
      have : (a :: (b :: t) ++ rest, c) = (a :: b :: (t ++ rest), c) := rfl
      rw [this, h0]
      exact removeDuplicate_fold_cons junk a2 (List.range t.length) _ _
    rw [hfold]
    refine ⟨a2 :: l3, by simp only [e1]; rfl, by simp only [List.length_cons, e2], ?_, ?_⟩
    · simp only [List.map_cons, markDup] at e3 ⊢
      rw [e3, ha2, hb2]
    · simp only [e4, List.map_cons, countDup, hb2]
      by_cases hid : a.nodeID = b.nodeID
      · simp only [hid, if_true]
        push_cast
        ring
      · simp only [hid, if_false]
        push_cast
        ring

theorem length_of_same_members (l1 l2 : List Nat) (h1 : l1.Nodup)
    (h : ∀ x, x ∈ l1 ↔ x ∈ l2) : l1.length = l2.dedup.length := by
  rw [← List.toFinset_card_of_nodup h1, ← List.card_toFinset]
  congr 1
  ext x
  simp only [List.mem_toFinset]
  exact h x

/-- With the two nodeIDs exchanged by `Node_swapPointers`, the live nodeIDs after
`NodeCollection_removeDuplicateNodes` are pairwise distinct, they are the nodeIDs of the
input, and the new nodeCount is their number, for every `qsort`. -/
theorem removeDuplicateNodes_exact (q : Qsort) (junk : Node) (nc : NodeCollection)
    (hlen : nc.nodeCount ≤ nc.nodes.length) (h16 : nc.nodeCount < 65536) :
    ((live (NodeCollection_removeDuplicateNodes q junk nc)).map (fun n => n.nodeID)).Nodup ∧
    (∀ id, id ∈ (live (NodeCollection_removeDuplicateNodes q junk nc)).map (fun n => n.nodeID)
      ↔ id ∈ (live nc).map (fun n => n.nodeID)) ∧
    (NodeCollection_removeDuplicateNodes q junk nc).nodeCount =
      ((live nc).map (fun n => n.nodeID)).dedup.length := by
  have hperm0 := q.perm comp_sort_id (nc.nodes.take nc.nodeCount)
  have hsort0 := q.sorted comp_sort_id (nc.nodes.take nc.nodeCount) comp_sort_id_ok
  have hlen0 : (q.sort comp_sort_id (nc.nodes.take nc.nodeCount)).length = nc.nodeCount := by
    rw [hperm0.length_eq, List.length_take]
    omega
  have hkey : ∀ (L : List Nat), L.Nodup →
      (∀ x, x ∈ L ↔ x ∈ (q.sort comp_sort_id (nc.nodes.take nc.nodeCount)).map
        (fun n => n.nodeID)) →
      L.Nodup ∧ (∀ id, id ∈ L ↔ id ∈ (live nc).map (fun n => n.nodeID)) ∧
      L.length = ((live nc).map (fun n => n.nodeID)).dedup.length := by
    intro L hnd hm
    have hm2 : ∀ id, id ∈ L ↔ id ∈ (live nc).map (fun n => n.nodeID) :=
      fun id => (hm id).trans ((hperm0.map _).mem_iff)
    exact ⟨hnd, hm2, length_of_same_members L _ hnd hm2⟩
  simp only [NodeCollection_removeDuplicateNodes, NodeCollection_sortByNodeID, qsortNodes] at *
  generalize hS0 : q.sort comp_sort_id (nc.nodes.take nc.nodeCount) = S0 at *
  cases S0 with
  | nil =>
    have hn : nc.nodeCount = 0 := by
      rw [← hlen0]
      rfl
    have hlive : live nc = [] := by
      simp only [live, hn, List.take_zero]
    simp only [hn, live, hlive, List.range_zero, List.foldl_nil, Nat.zero_sub, List.take_zero,
      Nat.cast_zero, Int.zero_emod, Int.toNat_zero, List.map_nil, List.nodup_nil,
      List.dedup_nil, List.length_nil, true_and]
    exact ⟨fun id => trivial, trivial⟩
  | cons a t =>
    have hn : nc.nodeCount = t.length + 1 := by
      rw [← hlen0]
      rfl
    obtain ⟨l2, e1, e2, e3, e4⟩ := removeDuplicate_loop junk t a
      (nc.nodes.drop nc.nodeCount) (nc.nodeCount : Int)
    have hrange : nc.nodeCount - 1 = t.length := by omega
    rw [hrange]
    generalize (List.range t.length).foldl (removeDuplicateStep junk)
      (a :: t ++ nc.nodes.drop nc.nodeCount, (nc.nodeCount : Int)) = st at *
    have htake : st.1.take nc.nodeCount = l2 := by
      rw [e1]
      exact List.take_left' (by omega)
    rw [htake]
    have hperm1 := q.perm comp_sort_id l2
    have hsort1 := q.sorted comp_sort_id l2 comp_sort_id_ok
    generalize q.sort comp_sort_id l2 = S1 at *
    have ho : ((a :: t).map (fun n => n.nodeID)).Pairwise (fun x y => y ≤ x) := by
      rw [List.pairwise_map]
      exact hsort0.imp (fun h => (comp_sort_id_le _ _).1 h)
    have hs : (S1.map (fun n => n.nodeID)).Perm
        (markDup ((a :: t).map (fun n => n.nodeID))) := by
      rw [← e3]
      exact hperm1.map _
    have hsd : (S1.map (fun n => n.nodeID)).Pairwise (fun x y => y ≤ x) := by
      rw [List.pairwise_map]
      exact hsort1.imp (fun h => (comp_sort_id_le _ _).1 h)
    obtain ⟨d0, d1, d2⟩ := dedup_take _ _ ho hs hsd
    have hol : ((a :: t).map (fun n => n.nodeID)).length = nc.nodeCount := by
      rw [List.length_map, hn]
      rfl
    rw [hol, List.length_map] at d0
    rw [hol] at d1 d2
    have hcd := (markDup_spec _ ho).2.2.2
    rw [hol] at hcd
    have hc : (st.2 % 65536).toNat =
        nc.nodeCount - countDup ((a :: t).map (fun n => n.nodeID)) := by
      rw [e4]
      omega
    rw [hc]
    have hlive : live
        { versionID := nc.versionID, payloadType := nc.payloadType
          nodeCount := nc.nodeCount - countDup ((a :: t).map (fun n => n.nodeID))
          maxNodeCount := nc.maxNodeCount
          nodes := S1 ++ st.1.drop nc.nodeCount } =
        S1.take (nc.nodeCount - countDup ((a :: t).map (fun n => n.nodeID))) := by
      simp only [live]
      exact List.take_append_of_le_length d0
    rw [hlive, List.map_take]
    obtain ⟨k1, k2, k3⟩ := hkey _ d1 d2
    refine ⟨k1, k2, ?_⟩
    rw [← k3, List.length_take, List.length_map]
    omega

/-- C23. The else branch of the loop of `NodeCollection_removeDuplicateNodes` hands the
addresses of two `Node` slots, cast to `Node**`, to `Node_swapPointers`, which C leaves
undefined. With the two leading words exchanged, the function is the one of this file and
the collections 9, 7, 9, 0, 7 and 9, 9, 7 are reduced to the live nodeIDs 9, 7, 0 and 9, 7.
With the two slots left as they were the same collections end with the live nodeIDs 9, 9, 7
(nodeCount 3) and 9, 9 (nodeCount 2): a duplicate stays live, and the nodeIDs 0 and 7 of the
input are no longer among the live ones. -/
theorem C23_duplicates_survive :
    NodeCollection_removeDuplicateNodesWith
      (fun n0 n1 => Node_swapPointers n0 (Node_nullOutNode n1))
      = NodeCollection_removeDuplicateNodes ∧
    (live (NodeCollection_removeDuplicateNodes stableQsort exEnv.junk exDuplicates)).map
      (fun n => n.nodeID) = [9, 7, 0] ∧
    (live (NodeCollection_removeDuplicateNodes stableQsort exEnv.junk exTwins)).map
      (fun n => n.nodeID) = [9, 7] ∧
    (live (NodeCollection_removeDuplicateNodesWith (fun n0 n1 => (n0, n1)) stableQsort
      exEnv.junk exDuplicates)).map (fun n => n.nodeID) = [9, 9, 7] ∧
    (NodeCollection_removeDuplicateNodesWith (fun n0 n1 => (n0, n1)) stableQsort
      exEnv.junk exDuplicates).nodeCount = 3 ∧
    (live (NodeCollection_removeDuplicateNodesWith (fun n0 n1 => (n0, n1)) stableQsort
      exEnv.junk exTwins)).map (fun n => n.nodeID) = [9, 9] ∧
    (NodeCollection_removeDuplicateNodesWith (fun n0 n1 => (n0, n1)) stableQsort
      exEnv.junk exTwins).nodeCount = 2 := by
  refine ⟨rfl, ?_, ?_, ?_, ?_, ?_, ?_⟩ <;> decide

/-! ## Payload types that are not handled -/

/-- A collection whose payloadType is none of the four handled types is discarded. -/
theorem receiveFromPeer_other (enc754 : Dbl → Nat) (dec754 : Nat → Dbl) (q : Qsort)
    (geo : Dbl → Dbl → Dbl → Dbl → Dbl) (cfg : Config) (junk : Node) (now : Nat)
    (buffer : Nat → Nat) (payloadSize : Int) (s : State)
    (h : ∀ u, NodeCollection_unpack dec754 junk buffer payloadSize = some u →
      u.nc.payloadType ≠ RND_NOREQ ∧ u.nc.payloadType ≠ RND_REQ ∧
      u.nc.payloadType ≠ IMP_NOREQ ∧ u.nc.payloadType ≠ IMP_REQ) :
    Protocol_receiveFromPeer enc754 dec754 q geo cfg junk now buffer payloadSize s
      = (s, []) := by
  unfold Protocol_receiveFromPeer
  cases hu : NodeCollection_unpack dec754 junk buffer payloadSize with
  | none => simp
  | some u =>
    obtain ⟨h0, h1, h2, h3⟩ := h u hu
    simp [h0, h1, h2, h3]

/-- C31. A received collection whose payloadType is INTERNAL (4), or any other value outside
RND_NOREQ, RND_REQ, IMP_NOREQ, IMP_REQ, is discarded by `Protocol_receiveFromPeer`:
RandomList and ImportantList are the ones from before and no call of `IO_sendBytes` is
made. The payloadType of the received collection is the third byte of the buffer. -/
theorem C31_other_types_discarded (enc754 : Dbl → Nat) (dec754 : Nat → Dbl) (q : Qsort)
    (geo : Dbl → Dbl → Dbl → Dbl → Dbl) (cfg : Config) (junk : Node) (now : Nat)
    (buffer : Nat → Nat) (payloadSize : Int) (s : State) (u : Unpacked)
    (hu : NodeCollection_unpack dec754 junk buffer payloadSize = some u)
    (h : u.nc.payloadType = INTERNAL ∨
      (u.nc.payloadType ≠ RND_NOREQ ∧ u.nc.payloadType ≠ RND_REQ ∧
        u.nc.payloadType ≠ IMP_NOREQ ∧ u.nc.payloadType ≠ IMP_REQ)) :
    u.nc.payloadType = unpacku8 buffer 2 ∧
    (Protocol_receiveFromPeer enc754 dec754 q geo cfg junk now buffer payloadSize s).1 = s ∧
    (Protocol_receiveFromPeer enc754 dec754 q geo cfg junk now buffer payloadSize
      s).1.randomNodes = s.randomNodes ∧
    (Protocol_receiveFromPeer enc754 dec754 q geo cfg junk now buffer payloadSize
      s).1.importantNodes = s.importantNodes ∧
    (Protocol_receiveFromPeer enc754 dec754 q geo cfg junk now buffer payloadSize s).2 = [] := by
  have hr := receiveFromPeer_other enc754 dec754 q geo cfg junk now buffer payloadSize s
    (by
      intro u' hu'
      rw [hu] at hu'
      cases hu'
      rcases h with h | h
      · rw [h]; decide
      · exact h)
  rw [hr]
  exact ⟨(unpack_some dec754 junk buffer payloadSize u hu).2.1, rfl, rfl, rfl, rfl⟩

/-- C31 (witness). A packed collection of type INTERNAL with one entry is discarded. -/
theorem C31_other_types_discarded_witness :
    (Protocol_receiveFromPeer exEnv.enc754 exEnv.dec754 exEnv.q exEnv.geo exConfig exEnv.junk
      3000 exInternalBuffer 43 exState).1 = exState ∧
    (Protocol_receiveFromPeer exEnv.enc754 exEnv.dec754 exEnv.q exEnv.geo exConfig exEnv.junk
      3000 exInternalBuffer 43 exState).2 = [] := by
  have hu : NodeCollection_unpack exEnv.dec754 exEnv.junk exInternalBuffer 43
      = some { nc := exPayload 4 [exPeer], num := 1, o := 43 } := by decide
  have h := C31_other_types_discarded exEnv.enc754 exEnv.dec754 exEnv.q exEnv.geo exConfig
    exEnv.junk 3000 exInternalBuffer 43 exState _ hu (Or.inl rfl)
  exact ⟨h.2.1, h.2.2.2.2⟩

/-! ## Local requests -/

/-- C33 (counterexample). The one-byte buffer with the tag 9 is unpacked into a request;
`LocalRequest_unpack` does not return NULL. -/
theorem C33_unknown_tag_counterexample :
    LocalRequest_unpack exEnv.dec754 (bufOf [9]) 1 = some (blankRequest 9) ∧
    LocalRequest_unpack exEnv.dec754 (bufOf [9]) 1 ≠ none := by
  decide

/-- C33 (amended). For every non-empty buffer whose first byte is not one of the five tags
0..4, `LocalRequest_unpack` returns a request that carries the byte as its type and the
initial values in its other fields; `LocalIO_handleRequest` answers it with 0 and changes
neither the configuration nor the subscribers, and so does the main loop. -/
theorem C33_unknown_tag (dec754 : Nat → Dbl) (junk : Subscriber) (buff : Nat → Nat)
    (buff_size : Int) (config : Config) (subs : SubscriberList)
    (hsize : 0 < buff_size) (htag : 4 < unpacku8 buff 0) :
    LocalRequest_unpack dec754 buff buff_size = some (blankRequest (unpacku8 buff 0)) ∧
    LocalIO_handleRequest junk (blankRequest (unpacku8 buff 0)) config subs
      = (0, config, subs) ∧
    main_local dec754 junk buff buff_size config subs = (config, subs) := by
  have h0 : unpacku8 buff 0 ≠ SET_POSITION := by unfold SET_POSITION; omega
  have h1 : unpacku8 buff 0 ≠ SET_COORDINATION_RANGE := by
    unfold SET_COORDINATION_RANGE; omega
  have h2 : unpacku8 buff 0 ≠ SET_POS_AND_RANGE := by unfold SET_POS_AND_RANGE; omega
  have h3 : unpacku8 buff 0 ≠ SUB_CANDNODES := by unfold SUB_CANDNODES; omega
  have h4 : unpacku8 buff 0 ≠ UNSUB_CANDNODES := by unfold UNSUB_CANDNODES; omega
  have hu : LocalRequest_unpack dec754 buff buff_size
      = some (blankRequest (unpacku8 buff 0)) := by
    simp [LocalRequest_unpack, blankRequest, hsize, h0, h1, h2, h3, h4]
  have hh : LocalIO_handleRequest junk (blankRequest (unpacku8 buff 0)) config subs
      = (0, config, subs) := by
    simp [LocalIO_handleRequest, blankRequest, h0, h1, h2, h3, h4]
  refine ⟨hu, hh, ?_⟩
  have hm : main_localRequest dec754 buff buff_size
      = some (blankRequest (unpacku8 buff 0)) := by
    simp [main_localRequest, hu, hsize, not_lt.mpr (le_of_lt hsize)]
  simp [main_local, hm, hh]

/-- C33 (witness). A one-byte buffer with the tag 9, served with the example configuration. -/
theorem C33_unknown_tag_witness :
    LocalRequest_unpack exEnv.dec754 (bufOf [9]) 1 = some (blankRequest 9) ∧
    LocalIO_handleRequest (Subscriber_new [] 0) (blankRequest 9) exConfig exSubs
      = (0, exConfig, exSubs) ∧
    main_local exEnv.dec754 (Subscriber_new [] 0) (bufOf [9]) 1 exConfig exSubs
      = (exConfig, exSubs) :=
  C33_unknown_tag exEnv.dec754 (Subscriber_new [] 0) (bufOf [9]) 1 exConfig exSubs
    (by decide) (by decide)

/-- C34. For every non-empty buffer whose first byte is the tag SET_POS_AND_RANGE (2),
`LocalRequest_unpack` returns no request, whatever the other bytes and the size are; the
main loop then has no request to pass to `LocalIO_handleRequest` and leaves the
configuration and the subscribers as they are. -/
theorem C34_deprecated_tag (dec754 : Nat → Dbl) (junk : Subscriber) (buff : Nat → Nat)
    (buff_size : Int) (config : Config) (subs : SubscriberList)
    (hsize : 0 < buff_size) (htag : unpacku8 buff 0 = SET_POS_AND_RANGE) :
    LocalRequest_unpack dec754 buff buff_size = none ∧
    main_localRequest dec754 buff buff_size = none ∧
    main_local dec754 junk buff buff_size config subs = (config, subs) := by
  have hu : LocalRequest_unpack dec754 buff buff_size = none := by
    simp [LocalRequest_unpack, hsize, htag, SET_POS_AND_RANGE, SET_POSITION,
      SET_COORDINATION_RANGE]
  have hm : main_localRequest dec754 buff buff_size = none := by
    simp [main_localRequest, hu]
  exact ⟨hu, hm, by simp [main_local, hm]⟩

/-- C34 (witness). A buffer with the tag 2 followed by a position and a range. -/
theorem C34_deprecated_tag_witness :
    LocalRequest_unpack exEnv.dec754 (bufOf [2, 0, 0, 0, 0, 0, 0, 0, 1, 0, 0, 0, 0, 0, 0, 0, 2,
      0, 3]) 19 = none ∧
    main_localRequest exEnv.dec754 (bufOf [2, 0, 0, 0, 0, 0, 0, 0, 1, 0, 0, 0, 0, 0, 0, 0, 2,
      0, 3]) 19 = none ∧
    main_local exEnv.dec754 (Subscriber_new [] 0) (bufOf [2, 0, 0, 0, 0, 0, 0, 0, 1, 0, 0, 0,
      0, 0, 0, 0, 2, 0, 3]) 19 exConfig exSubs = (exConfig, exSubs) :=
  C34_deprecated_tag exEnv.dec754 (Subscriber_new [] 0) _ 19 exConfig exSubs
    (by decide) (by decide)

/-- C35 (counterexample). The handler applies a request of type SET_POS_AND_RANGE to the
example configuration (position (59, 10), range 10) and answers 1. -/
theorem C35_handler_applies_counterexample :
    (LocalIO_handleRequest (Subscriber_new [] 0) exPosAndRange exConfig exSubs).1 = 1 ∧
    (LocalIO_handleRequest (Subscriber_new [] 0) exPosAndRange exConfig exSubs).2.1.CLIENT_lat
      = 1 ∧
    (LocalIO_handleRequest (Subscriber_new [] 0) exPosAndRange exConfig exSubs).2.1.CLIENT_lon
      = 2 ∧
    (LocalIO_handleRequest (Subscriber_new [] 0) exPosAndRange exConfig
      exSubs).2.1.CLIENT_coordRange = 3 ∧
    exConfig.CLIENT_lat = 59 ∧ exConfig.CLIENT_lon = 10 ∧ exConfig.CLIENT_coordRange = 10 := by
  decide

/-- C35 (amended). For every configuration and subscriber list, `LocalIO_handleRequest`
applied to a request of type SET_POS_AND_RANGE answers 1, stores the request's latitude,
longitude and (16-bit) range in CLIENT_lat, CLIENT_lon and CLIENT_coordRange, and leaves
every other field of the configuration and the subscribers unchanged. -/
theorem C35_handler_applies (junk : Subscriber) (lr : LocalRequest) (config : Config)
    (subs : SubscriberList) (htype : lr.type = SET_POS_AND_RANGE) :
    LocalIO_handleRequest junk lr config subs
      = (1, { config with CLIENT_lat := lr.lat, CLIENT_lon := lr.lon
                          CLIENT_coordRange := lr.coord_range % 2 ^ 16 }, subs) := by
  simp [LocalIO_handleRequest, htype, SET_POS_AND_RANGE, SET_POSITION,
    SET_COORDINATION_RANGE, Config_setNodePosition, Config_setNodeCoordinationRange]

/-- C35 (witness). The deprecated request with position (1, 2) and range 3, applied to the example
configuration. -/
theorem C35_handler_applies_witness :
    LocalIO_handleRequest (Subscriber_new [] 0) exPosAndRange exConfig exSubs
      = (1, { exConfig with CLIENT_lat := 1, CLIENT_lon := 2, CLIENT_coordRange := 3 % 2 ^ 16 },
          exSubs) :=
  C35_handler_applies (Subscriber_new [] 0) exPosAndRange exConfig exSubs rfl

/-! ## The utility formula -/

theorem one_le_sq_div_sq_iff {K : Type} [LinearOrderedField K] (c d : K) (hc : 0 ≤ c)
    (hd : 0 < d) : 1 ≤ c ^ 2 / d ^ 2 ↔ d ≤ c := by
  rw [le_div_iff₀ (by positivity), one_mul]
  constructor
  · intro h
    by_contra hlt
    push_neg at hlt
    nlinarith
  · intro h
    nlinarith

theorem geo_distance_meters_nonneg (th1 ph1 th2 ph2 : ℝ) :
    0 ≤ geo_distance_meters th1 ph1 th2 ph2 := by
  simp only [geo_distance_meters]
  have hR : (0 : ℝ) ≤ R := by unfold R; norm_num
  have h1 : 0 ≤ Real.arcsin
      (Real.sqrt ((Real.cos ((ph1 - ph2) * TO_RAD) * Real.cos (th1 * TO_RAD)
          - Real.cos (th2 * TO_RAD)) * (Real.cos ((ph1 - ph2) * TO_RAD) * Real.cos (th1 * TO_RAD)
          - Real.cos (th2 * TO_RAD))
        + Real.sin ((ph1 - ph2) * TO_RAD) * Real.cos (th1 * TO_RAD)
          * (Real.sin ((ph1 - ph2) * TO_RAD) * Real.cos (th1 * TO_RAD))
        + (Real.sin (th1 * TO_RAD) - Real.sin (th2 * TO_RAD))
          * (Real.sin (th1 * TO_RAD) - Real.sin (th2 * TO_RAD))) / 2) :=
    Real.arcsin_nonneg.2 (div_nonneg (Real.sqrt_nonneg _) (by norm_num))
  positivity

/-- C39. For every pair of nodes a, b at non-zero distance d, `Node_utility` a b equals
(a.coordRange + b.coordRange)^2 / d^2, the sum of the two ranges being the exact sum of
natural numbers (no 16-bit wraparound); for a distance d that is not negative, utility >= 1
holds exactly when d <= a.coordRange + b.coordRange; ranges 10 and 10 at d = 5 give 16. The
last part states the same for the real-valued `geo_distance_meters`, which is never
negative. -/
theorem C39_utility_formula (geo : Dbl → Dbl → Dbl → Dbl → Dbl) (a b : Node)
    (hd : geo a.lat a.lon b.lat b.lon ≠ 0) :
    Node_utility geo a b
      = ((a.coordRange + b.coordRange : Nat) : Dbl) ^ 2 / (geo a.lat a.lon b.lat b.lon) ^ 2 ∧
    (0 ≤ geo a.lat a.lon b.lat b.lon →
      (1 ≤ Node_utility geo a b ↔
        geo a.lat a.lon b.lat b.lon ≤ ((a.coordRange + b.coordRange : Nat) : Dbl))) ∧
    (a.coordRange = 10 → b.coordRange = 10 → geo a.lat a.lon b.lat b.lon = 5 →
      Node_utility geo a b = 16) ∧
    (geo_distance_meters a.lat a.lon b.lat b.lon ≠ 0 →
      Node_utility_real a b = ((a.coordRange + b.coordRange : Nat) : ℝ) ^ 2
        / (geo_distance_meters a.lat a.lon b.lat b.lon) ^ 2 ∧
      (1 ≤ Node_utility_real a b ↔
        geo_distance_meters a.lat a.lon b.lat b.lon
          ≤ ((a.coordRange + b.coordRange : Nat) : ℝ))) := by
  have hf : Node_utility geo a b
      = ((a.coordRange + b.coordRange : Nat) : Dbl) ^ 2
        / (geo a.lat a.lon b.lat b.lon) ^ 2 := by
    simp [Node_utility, hd]
  refine ⟨hf, ?_, ?_, ?_⟩
  · intro h0
    rw [hf]
    exact one_le_sq_div_sq_iff _ _ (Nat.cast_nonneg _) (lt_of_le_of_ne h0 (Ne.symm hd))
  · intro ha hb h5
    rw [hf, ha, hb, h5]
    norm_num
  · intro hr
    have hfr : Node_utility_real a b = ((a.coordRange + b.coordRange : Nat) : ℝ) ^ 2
        / (geo_distance_meters a.lat a.lon b.lat b.lon) ^ 2 := by
      simp [Node_utility_real, hr]
    refine ⟨hfr, ?_⟩
    rw [hfr]
    exact one_le_sq_div_sq_iff _ _ (Nat.cast_nonneg _)
      (lt_of_le_of_ne (geo_distance_meters_nonneg _ _ _ _) (Ne.symm hr))

/-- C39 (witness). Ranges 10 and 10 at distance 5 (latitudes 5 and 0 under the example distance, which is
the difference of the latitudes): the utility is 16, which is at least 1 as 5 <= 20. -/
theorem C39_utility_formula_witness :
    exEnv.geo exNear.lat exNear.lon exPeer.lat exPeer.lon = 5 ∧
    Node_utility exEnv.geo exNear exPeer = 16 ∧
    (1 ≤ Node_utility exEnv.geo exNear exPeer ↔
      exEnv.geo exNear.lat exNear.lon exPeer.lat exPeer.lon
        ≤ ((exNear.coordRange + exPeer.coordRange : Nat) : Dbl)) := by
  have hd : exEnv.geo exNear.lat exNear.lon exPeer.lat exPeer.lon = 5 := by decide!
  have h := C39_utility_formula exEnv.geo exNear exPeer (by rw [hd]; norm_num)
  exact ⟨hd, h.2.2.1 rfl rfl hd, h.2.1 (by rw [hd]; norm_num)⟩

/-! ## Selection of a random important node -/

theorem countCandidate_bound (junk : Node) (nc : NodeCollection) (k : Nat) :
    0 ≤ (List.range k).foldl
      (fun (counter : Int) i => if (nodeAt junk nc i).utility ≥ 1 then counter + 1 else counter)
      0 ∧
    (List.range k).foldl
      (fun (counter : Int) i => if (nodeAt junk nc i).utility ≥ 1 then counter + 1 else counter)
      0 ≤ (k : Int) := by
  induction k with
  | zero => exact ⟨le_refl _, le_refl _⟩
  | succ k ih =>
    rw [List.range_succ, List.foldl_append]
    simp only [List.foldl_cons, List.foldl_nil]
    split <;> omega

theorem countCandidateNodes_le (junk : Node) (nc : NodeCollection) :
    0 ≤ NodeCollection_countCandidateNodes junk nc ∧
    NodeCollection_countCandidateNodes junk nc ≤ (nc.nodeCount : Int) :=
  countCandidate_bound junk nc nc.nodeCount

theorem getRandomImportantNode_range (cfg : Config) (junk : Node) (draws : Nat → Nat)
    (nc : NodeCollection) (h2 : 2 ≤ nc.nodeCount) :
    (nc.nodeCount < 10 → Node_getRandomImportantNode cfg junk draws nc
      = randomDrawLoop cfg junk nc nc.nodeCount draws) ∧
    (10 ≤ nc.nodeCount → NodeCollection_countCandidateNodes junk nc < 10 →
      Node_getRandomImportantNode cfg junk draws nc = randomDrawLoop cfg junk nc 9 draws) ∧
    (10 ≤ nc.nodeCount → 10 ≤ NodeCollection_countCandidateNodes junk nc →
      Node_getRandomImportantNode cfg junk draws nc = randomDrawLoop cfg junk nc
        (NodeCollection_countCandidateNodes junk nc).toNat draws) := by
  have h0 : ¬ nc.nodeCount ≤ 0 := by omega
  have h1 : ¬ nc.nodeCount = 1 := by omega
  refine ⟨fun h => ?_, fun h hc => ?_, fun h hc => ?_⟩
  · simp only [Node_getRandomImportantNode, if_neg h0, if_neg h1, if_pos h]
  · have h' : ¬ nc.nodeCount < 10 := by omega
    simp only [Node_getRandomImportantNode, if_neg h0, if_neg h1, if_neg h', if_pos hc]
  · have h' : ¬ nc.nodeCount < 10 := by omega
    have hc' : ¬ NodeCollection_countCandidateNodes junk nc < 10 := by omega
    simp only [Node_getRandomImportantNode, if_neg h0, if_neg h1, if_neg h', if_neg hc']

theorem getRandomImportantNode_lt (cfg : Config) (junk : Node) (draws : Nat → Nat)
    (nc : NodeCollection) (i : Nat)
    (h : Node_getRandomImportantNode cfg junk draws nc = some i) :
    i < nc.nodeCount ∧ (nodeAt junk nc i).nodeID ≠ cfg.CLIENT_id := by
  by_cases h0 : nc.nodeCount ≤ 0
  · simp [Node_getRandomImportantNode, h0] at h
  by_cases h1 : nc.nodeCount = 1
  · unfold Node_getRandomImportantNode at h
    rw [if_neg h0, if_pos h1] at h
    by_cases hc : (nodeAt junk nc 0).nodeID ≠ cfg.CLIENT_id
    · rw [if_pos hc] at h
      cases h
      exact ⟨by omega, hc⟩
    · rw [if_neg hc] at h
      cases h
  obtain ⟨r1, r2, r3⟩ := getRandomImportantNode_range cfg junk draws nc (by omega)
  obtain ⟨-, cle⟩ := countCandidateNodes_le junk nc
  by_cases h10 : nc.nodeCount < 10
  · rw [r1 h10] at h
    obtain ⟨⟨k, -, hk⟩, hid⟩ := randomDrawLoop_some cfg junk nc _ draws i h
    refine ⟨?_, hid⟩
    rw [hk]
    exact Nat.mod_lt _ (by omega)
  by_cases hc : NodeCollection_countCandidateNodes junk nc < 10
  · rw [r2 (by omega) hc] at h
    obtain ⟨⟨k, -, hk⟩, hid⟩ := randomDrawLoop_some cfg junk nc _ draws i h
    refine ⟨?_, hid⟩
    have : draws k % 9 < 9 := Nat.mod_lt _ (by omega)
    omega
  · rw [r3 (by omega) (by omega)] at h
    obtain ⟨⟨k, -, hk⟩, hid⟩ := randomDrawLoop_some cfg junk nc _ draws i h
    refine ⟨?_, hid⟩
    have : draws k % (NodeCollection_countCandidateNodes junk nc).toNat
        < (NodeCollection_countCandidateNodes junk nc).toNat := Nat.mod_lt _ (by omega)
    omega

/-- C36 (counterexample). No collection with nodeCount < 9 and fewer than 10 candidates makes
`Node_getRandomImportantNode` return an index at or past nodeCount. In the example list of
three entries with every value of `rand()` 8 the index drawn is 8 mod 3 = 2: the range is
nodeCount, not 9. -/
theorem C36_fixed_range_counterexample :
    (¬ ∃ (cfg : Config) (junk : Node) (draws : Nat → Nat) (nc : NodeCollection) (i : Nat),
      nc.nodeCount < 9 ∧ NodeCollection_countCandidateNodes junk nc < 10 ∧
      Node_getRandomImportantNode cfg junk draws nc = some i ∧ nc.nodeCount ≤ i) ∧
    exImportant.nodeCount = 3 ∧
    NodeCollection_countCandidateNodes exEnv.junk exImportant = 0 ∧
    Node_getRandomImportantNode exConfig exEnv.junk (fun _ => 8) exImportant = some 2 := by
  refine ⟨?_, by decide, by decide, by decide⟩
  rintro ⟨cfg, junk, draws, nc, i, -, -, h, hi⟩
  have := (getRandomImportantNode_lt cfg junk draws nc i h).1
  omega

/-- C36 (amended). For every collection and every sequence of values of `rand()`, an index
returned by `Node_getRandomImportantNode` is below nodeCount and its entry does not carry
CLIENT_id. With 2 <= nodeCount < 10 the draws are taken modulo nodeCount; the fixed range 9
is used only when nodeCount >= 10 and there are fewer than 10 candidates, and the number of
candidates is the range when it is at least 10. -/
theorem C36_index_below_nodeCount (cfg : Config) (junk : Node) (draws : Nat → Nat)
    (nc : NodeCollection) :
    (∀ i, Node_getRandomImportantNode cfg junk draws nc = some i →
      i < nc.nodeCount ∧ (nodeAt junk nc i).nodeID ≠ cfg.CLIENT_id) ∧
    (2 ≤ nc.nodeCount → nc.nodeCount < 10 → Node_getRandomImportantNode cfg junk draws nc
      = randomDrawLoop cfg junk nc nc.nodeCount draws) ∧
    (10 ≤ nc.nodeCount → NodeCollection_countCandidateNodes junk nc < 10 →
      Node_getRandomImportantNode cfg junk draws nc = randomDrawLoop cfg junk nc 9 draws) ∧
    (10 ≤ nc.nodeCount → 10 ≤ NodeCollection_countCandidateNodes junk nc →
      Node_getRandomImportantNode cfg junk draws nc = randomDrawLoop cfg junk nc
        (NodeCollection_countCandidateNodes junk nc).toNat draws) := by
  refine ⟨fun i h => getRandomImportantNode_lt cfg junk draws nc i h, fun h2 h => ?_,
    fun h hc => ?_, fun h hc => ?_⟩
  · exact (getRandomImportantNode_range cfg junk draws nc h2).1 h
  · exact (getRandomImportantNode_range cfg junk draws nc (by omega)).2.1 h hc
  · exact (getRandomImportantNode_range cfg junk draws nc (by omega)).2.2 h hc

/-- C36 (witness). The example list of three entries with every value of `rand()` 8: index 2 is returned,
which is below nodeCount, and the draws are taken modulo 3. -/
theorem C36_index_below_nodeCount_witness :
    Node_getRandomImportantNode exConfig exEnv.junk (fun _ => 8) exImportant = some 2 ∧
    (2 < exImportant.nodeCount ∧
      (nodeAt exEnv.junk exImportant 2).nodeID ≠ exConfig.CLIENT_id) ∧
    Node_getRandomImportantNode exConfig exEnv.junk (fun _ => 8) exImportant
      = randomDrawLoop exConfig exEnv.junk exImportant exImportant.nodeCount (fun _ => 8) :=
  ⟨by decide,
   (C36_index_below_nodeCount exConfig exEnv.junk (fun _ => 8) exImportant).1 2 (by decide),
   (C36_index_below_nodeCount exConfig exEnv.junk (fun _ => 8) exImportant).2.1 (by decide)
     (by decide)⟩

/-! ## The lists after an update -/

theorem updateRandomNodes_sorted_spec (q : Qsort) (cfg : Config) (junk : Node)
    (nc rn : NodeCollection) (h : rn.WF) :
    (updateRandomNodes_sorted q cfg junk nc rn).WF ∧
    (updateRandomNodes_sorted q cfg junk nc rn).maxNodeCount = rn.maxNodeCount ∧
    (live (updateRandomNodes_sorted q cfg junk nc rn)).Pairwise
      (fun a b => b.timeStamp ≤ a.timeStamp) := by
  have a1 := append_WF junk rn nc cfg.CLIENT_id h
  have a2 := (append_inv junk rn nc cfg.CLIENT_id).1
  obtain ⟨d1, d2, -, -⟩ := removeDuplicateNodes_keeps q junk _ a1
  refine ⟨qsortNodes_WF q comp_sort_timestamp_h2l _ d1, d2.trans a2, ?_⟩
  unfold updateRandomNodes_sorted NodeCollection_sortByTimeStamp
  rw [live_qsortNodes]
  exact (q.sorted _ _ comp_sort_timestamp_ok).imp (fun h => (comp_sort_timestamp_le _ _).1 h)

theorem updateRandomNodes_trim (q : Qsort) (cfg : Config) (junk : Node)
    (nc rn : NodeCollection) (h : rn.WF) :
    (Protocol_updateRandomNodes q cfg junk nc rn).maxNodeCount = rn.maxNodeCount ∧
    (Protocol_updateRandomNodes q cfg junk nc rn).nodeCount ≤ rn.maxNodeCount / 2 ∧
    (Protocol_updateRandomNodes q cfg junk nc rn).nodeCount
      = min (updateRandomNodes_sorted q cfg junk nc rn).nodeCount (rn.maxNodeCount / 2) ∧
    live (Protocol_updateRandomNodes q cfg junk nc rn)
      = (live (updateRandomNodes_sorted q cfg junk nc rn)).take
          (Protocol_updateRandomNodes q cfg junk nc rn).nodeCount := by
  obtain ⟨b1, b2, -⟩ := updateRandomNodes_sorted_spec q cfg junk nc rn h
  have hR : Protocol_updateRandomNodes q cfg junk nc rn
      = (NodeCollection_removeExcessNodes junk (updateRandomNodes_sorted q cfg junk nc rn)
          ((updateRandomNodes_sorted q cfg junk nc rn).maxNodeCount / 2)).1 := rfl
  rw [hR]
  generalize updateRandomNodes_sorted q cfg junk nc rn = B at *
  obtain ⟨bl, bc, b16⟩ := b1
  by_cases hgt : B.nodeCount > B.maxNodeCount / 2
  · obtain ⟨e1, -, e3⟩ := removeExcess_live junk B (B.maxNodeCount / 2) hgt (by omega)
    obtain ⟨-, e2, -, -⟩ := removeExcessNodes_keeps junk B (B.maxNodeCount / 2) ⟨bl, bc, b16⟩
    rw [e1, e3]
    exact ⟨e2.trans b2, by omega, by omega, rfl⟩
  · have hid : (NodeCollection_removeExcessNodes junk B (B.maxNodeCount / 2)).1 = B := by
      simp [NodeCollection_removeExcessNodes, hgt]
    rw [hid]
    refine ⟨b2, by omega, by omega, ?_⟩
    refine (List.take_of_length_le ?_).symm
    rw [length_live B (by omega)]

/-- C37. For every well-formed RandomList rn and every incoming collection, after
`Protocol_updateRandomNodes` the first nodeCount entries of rn are in non-increasing
timeStamp order; they are the first nodeCount entries of the list as it was before the final
trim, and every entry that the trim dropped has a timeStamp that is at most the timeStamp of
every retained entry. -/
theorem C37_random_list_order (q : Qsort) (cfg : Config) (junk : Node)
    (nc rn : NodeCollection) (h : rn.WF) :
    (live (Protocol_updateRandomNodes q cfg junk nc rn)).Pairwise
      (fun a b => b.timeStamp ≤ a.timeStamp) ∧
    live (Protocol_updateRandomNodes q cfg junk nc rn)
      = (live (updateRandomNodes_sorted q cfg junk nc rn)).take
          (Protocol_updateRandomNodes q cfg junk nc rn).nodeCount ∧
    (∀ d ∈ (live (updateRandomNodes_sorted q cfg junk nc rn)).drop
        (Protocol_updateRandomNodes q cfg junk nc rn).nodeCount,
      ∀ r ∈ live (Protocol_updateRandomNodes q cfg junk nc rn),
        d.timeStamp ≤ r.timeStamp) := by
  obtain ⟨-, -, b3⟩ := updateRandomNodes_sorted_spec q cfg junk nc rn h
  obtain ⟨-, -, -, t4⟩ := updateRandomNodes_trim q cfg junk nc rn h
  rw [← List.take_append_drop (Protocol_updateRandomNodes q cfg junk nc rn).nodeCount
    (live (updateRandomNodes_sorted q cfg junk nc rn)), ← t4, List.pairwise_append] at b3
  exact ⟨b3.1, t4, fun d hd r hr => b3.2.2 r hr d hd⟩

/-- C37 (witness). A list of capacity 4 holding entries stamped 1000 and 3000 receives entries stamped 2000
and 4000: the entries stamped 4000 and 3000 are kept, in that order. -/
theorem C37_random_list_order_witness :
    (exSmallList [exNode 1 1000, exNode 2 3000]).WF ∧
    (live (Protocol_updateRandomNodes exEnv.q exConfig exEnv.junk
      (exPayload 0 [exNode 3 2000, exNode 4 4000])
      (exSmallList [exNode 1 1000, exNode 2 3000]))).map (fun n => n.timeStamp)
      = [4000, 3000] ∧
    (live (Protocol_updateRandomNodes exEnv.q exConfig exEnv.junk
      (exPayload 0 [exNode 3 2000, exNode 4 4000])
      (exSmallList [exNode 1 1000, exNode 2 3000]))).Pairwise
      (fun a b => b.timeStamp ≤ a.timeStamp) :=
  ⟨by decide, by decide,
   (C37_random_list_order exEnv.q exConfig exEnv.junk
      (exPayload 0 [exNode 3 2000, exNode 4 4000])
      (exSmallList [exNode 1 1000, exNode 2 3000]) (by decide)).1⟩

theorem updateImportantNodes_sorted_spec (q : Qsort) (geo : Dbl → Dbl → Dbl → Dbl → Dbl)
    (cfg : Config) (junk : Node) (now : Nat) (nc inl : NodeCollection) (h : inl.WF) :
    (updateImportantNodes_sorted q geo cfg junk now nc inl).WF ∧
    (updateImportantNodes_sorted q geo cfg junk now nc inl).maxNodeCount = inl.maxNodeCount ∧
    (live (updateImportantNodes_sorted q geo cfg junk now nc inl)).Pairwise
      (fun a b => b.utility ≤ a.utility) := by
  unfold updateImportantNodes_sorted
  generalize NodeCollection_calculateUtility geo junk nc
    (Node_new cfg.CLIENT_id cfg.CLIENT_lat cfg.CLIENT_lon cfg.CLIENT_coordRange 0 0 0 0 now)
    = nc'
  have a1 := append_WF junk inl nc' cfg.CLIENT_id h
  have a2 := (append_inv junk inl nc' cfg.CLIENT_id).1
  obtain ⟨d1, d2, -, -⟩ := removeDuplicateNodes_keeps q junk _ a1
  refine ⟨qsortNodes_WF q comp_sort_utility_h2l _ d1, d2.trans a2, ?_⟩
  unfold NodeCollection_sortByUtility
  rw [live_qsortNodes]
  exact (q.sorted _ _ comp_sort_utility_ok).imp (fun h => (comp_sort_utility_le _ _).1 h)

theorem updateImportantNodes_unfold (q : Qsort) (geo : Dbl → Dbl → Dbl → Dbl → Dbl)
    (cfg : Config) (junk : Node) (now : Nat) (nc inl B G : NodeCollection)
    (hB : B = updateImportantNodes_sorted q geo cfg junk now nc inl)
    (hG : G = if NodeCollection_countCandidateNodes junk B >
          (B.maxNodeCount : Int) - (cfg.PROTO_K : Int)
        then NodeCollection_grow junk B cfg.PROTO_K else B) :
    (Protocol_updateImportantNodes q geo cfg junk now nc inl).2
      = if (G.nodeCount : Int) > (G.maxNodeCount : Int) - (cfg.PROTO_K : Int) then
          (NodeCollection_removeExcessNodes junk G
            (((G.maxNodeCount : Int) - (cfg.PROTO_K : Int)) % 2 ^ 32).toNat).1
        else G := by
  subst hG
  subst hB
  rfl

theorem updateImportantNodes_capacity (q : Qsort) (geo : Dbl → Dbl → Dbl → Dbl → Dbl)
    (cfg : Config) (junk : Node) (now : Nat) (nc inl : NodeCollection) (h : inl.WF)
    (hK : cfg.PROTO_K ≤ inl.maxNodeCount) :
    (Protocol_updateImportantNodes q geo cfg junk now nc inl).2.nodeCount + cfg.PROTO_K
      ≤ (Protocol_updateImportantNodes q geo cfg junk now nc inl).2.maxNodeCount ∧
    inl.maxNodeCount
      ≤ (Protocol_updateImportantNodes q geo cfg junk now nc inl).2.maxNodeCount := by
  obtain ⟨b1, b2, -⟩ := updateImportantNodes_sorted_spec q geo cfg junk now nc inl h
  have hK16 : cfg.PROTO_K < 65536 := by
    have := h.2.2
    omega
  rw [updateImportantNodes_unfold q geo cfg junk now nc inl _ _ rfl rfl]
  generalize updateImportantNodes_sorted q geo cfg junk now nc inl = B at *
  have hG : ∀ G : NodeCollection,
      G = (if NodeCollection_countCandidateNodes junk B >
          (B.maxNodeCount : Int) - (cfg.PROTO_K : Int)
        then NodeCollection_grow junk B cfg.PROTO_K else B) →
      G.WF ∧ B.maxNodeCount ≤ G.maxNodeCount := by
    intro G hGe
    obtain ⟨g1, -, g3, -, -⟩ := grow_keeps junk B cfg.PROTO_K b1 hK16
    by_cases hc : NodeCollection_countCandidateNodes junk B >
        (B.maxNodeCount : Int) - (cfg.PROTO_K : Int)
    · rw [if_pos hc] at hGe
      subst hGe
      exact ⟨g1, g3⟩
    · rw [if_neg hc] at hGe
      subst hGe
      exact ⟨b1, le_refl _⟩
  obtain ⟨G1, G2⟩ := hG _ rfl
  generalize (if NodeCollection_countCandidateNodes junk B >
      (B.maxNodeCount : Int) - (cfg.PROTO_K : Int)
    then NodeCollection_grow junk B cfg.PROTO_K else B) = G at *
  obtain ⟨gl, gc, g16⟩ := G1
  have hfloor : (((G.maxNodeCount : Int) - (cfg.PROTO_K : Int)) % 2 ^ 32).toNat
      = G.maxNodeCount - cfg.PROTO_K := by omega
  by_cases hc : (G.nodeCount : Int) > (G.maxNodeCount : Int) - (cfg.PROTO_K : Int)
  · rw [if_pos hc, hfloor]
    obtain ⟨e1, -, -⟩ := removeExcess_live junk G (G.maxNodeCount - cfg.PROTO_K)
      (by omega) (by omega)
    obtain ⟨-, e2, -, -⟩ := removeExcessNodes_keeps junk G (G.maxNodeCount - cfg.PROTO_K)
      ⟨gl, gc, g16⟩
    rw [e1, e2]
    omega
  · rw [if_neg hc]
    omega

/-- C40. For every well-formed RandomList and every incoming collection, after
`Protocol_updateRandomNodes` nodeCount is at most maxNodeCount / 2; and for every
well-formed ImportantList with K <= maxNodeCount, after `Protocol_updateImportantNodes`
nodeCount is at most maxNodeCount - K, with maxNodeCount the capacity after any growth
(which is at least K), so that at least K slots are free. -/
theorem C40_free_slots (q : Qsort) (geo : Dbl → Dbl → Dbl → Dbl → Dbl) (cfg : Config)
    (junk : Node) (now : Nat) (nc rn inl : NodeCollection) (hrn : rn.WF) (hin : inl.WF)
    (hK : cfg.PROTO_K ≤ inl.maxNodeCount) :
    (Protocol_updateRandomNodes q cfg junk nc rn).nodeCount
      ≤ (Protocol_updateRandomNodes q cfg junk nc rn).maxNodeCount / 2 ∧
    (Protocol_updateImportantNodes q geo cfg junk now nc inl).2.nodeCount
      ≤ (Protocol_updateImportantNodes q geo cfg junk now nc inl).2.maxNodeCount
        - cfg.PROTO_K ∧
    cfg.PROTO_K ≤ (Protocol_updateImportantNodes q geo cfg junk now nc inl).2.maxNodeCount ∧
    (Protocol_updateImportantNodes q geo cfg junk now nc inl).2.nodeCount + cfg.PROTO_K
      ≤ (Protocol_updateImportantNodes q geo cfg junk now nc inl).2.maxNodeCount := by
  obtain ⟨t1, t2, -, -⟩ := updateRandomNodes_trim q cfg junk nc rn hrn
  obtain ⟨c1, c2⟩ := updateImportantNodes_capacity q geo cfg junk now nc inl hin hK
  rw [t1]
  exact ⟨t2, by omega, by omega, c1⟩

/-- C40 (witness). The example lists (capacity 20, one entry and none) with K = 15 receive the example
peer: the random list holds at most 10 entries and the important list at most 5 of 20. -/
theorem C40_free_slots_witness :
    (Protocol_updateRandomNodes exEnv.q exConfig exEnv.junk (exPayload 0 [exPeer])
      exState.randomNodes).nodeCount
      ≤ (Protocol_updateRandomNodes exEnv.q exConfig exEnv.junk (exPayload 0 [exPeer])
        exState.randomNodes).maxNodeCount / 2 ∧
    (Protocol_updateImportantNodes exEnv.q exEnv.geo exConfig exEnv.junk 3000
      (exPayload 0 [exPeer]) exState.importantNodes).2.nodeCount + exConfig.PROTO_K
      ≤ (Protocol_updateImportantNodes exEnv.q exEnv.geo exConfig exEnv.junk 3000
        (exPayload 0 [exPeer]) exState.importantNodes).2.maxNodeCount :=
  ⟨(C40_free_slots exEnv.q exEnv.geo exConfig exEnv.junk 3000 (exPayload 0 [exPeer])
      exState.randomNodes exState.importantNodes (by decide) (by decide) (by decide)).1,
   (C40_free_slots exEnv.q exEnv.geo exConfig exEnv.junk 3000 (exPayload 0 [exPeer])
      exState.randomNodes exState.importantNodes (by decide) (by decide) (by decide)).2.2.2⟩

theorem removeDuplicate_fold_pred (junk : Node) (P : Node → Prop)
    (hP : ∀ (n : Node) (id : Nat), P n → P { n with nodeID := id })
    (l : List Node) (n k : Nat) (hn : n ≤ l.length) (hk : k + 1 ≤ n ∨ k = 0)
    (hall : ∀ j m, j < n → l[j]? = some m → P m) :
    ((List.range k).foldl (removeDuplicateStep junk) (l, (n : Int))).1.length = l.length ∧
    (∀ j m, j < n →
      ((List.range k).foldl (removeDuplicateStep junk) (l, (n : Int))).1[j]? = some m →
      P m) := by
  induction k with
  | zero => exact ⟨rfl, hall⟩
  | succ k ih =>
    have hk' : k + 2 ≤ n := by omega
    obtain ⟨h1, h2⟩ := ih (Or.inl (by omega))
    rw [List.range_succ, List.foldl_append]
    simp only [List.foldl_cons, List.foldl_nil]
    generalize (List.range k).foldl (removeDuplicateStep junk) (l, (n : Int)) = st at *
    have hg0 : st.1[k]? = some (st.1.getD k junk) := by
      rw [List.getD_eq_getElem?_getD, List.getElem?_eq_getElem (by omega)]
      rfl
    have hg1 : st.1[k + 1]? = some (st.1.getD (k + 1) junk) := by
      rw [List.getD_eq_getElem?_getD, List.getElem?_eq_getElem (by omega)]
      rfl
    have p0 := h2 k _ (by omega) hg0
    have p1 := h2 (k + 1) _ (by omega) hg1
    unfold removeDuplicateStep
    simp only
    split_ifs with hid hts
    · refine ⟨by simp only [List.length_set]; exact h1, ?_⟩
      intro j m hj hm
      simp only at hm
      by_cases hjk : j = k
      · subst hjk
        rw [List.getElem?_set_self (by omega)] at hm
        simp only [Option.some.injEq] at hm
        subst hm
        exact hP _ 0 p0
      · rw [List.getElem?_set_ne (by omega)] at hm
        exact h2 j m hj hm
    · refine ⟨by simp only [List.length_set]; exact h1, ?_⟩
      intro j m hj hm
      simp only [Node_swapPointers, Node_nullOutNode] at hm
      by_cases hjk1 : j = k + 1
      · subst hjk1
        rw [List.getElem?_set_self (by simp only [List.length_set]; omega)] at hm
        simp only [Option.some.injEq] at hm
        subst hm
        exact hP _ _ p1
      · rw [List.getElem?_set_ne (by omega)] at hm
        by_cases hjk : j = k
        · subst hjk
          rw [List.getElem?_set_self (by omega)] at hm
          simp only [Option.some.injEq] at hm
          subst hm
          exact hP _ _ p0
        · rw [List.getElem?_set_ne (by omega)] at hm
          exact h2 j m hj hm
    · exact ⟨h1, h2⟩

theorem removeDuplicateNodes_stamps (q : Qsort) (junk : Node) (nc : NodeCollection)
    (h : nc.WF) (P : Nat → Prop) (hs : Stamps P nc) :
    Stamps P (NodeCollection_removeDuplicateNodes q junk nc) := by
  have hwf1 := qsortNodes_WF q comp_sort_id nc h
  obtain ⟨w1, w2, w3⟩ := hwf1
  have hcnt : (qsortNodes q comp_sort_id nc).nodeCount = nc.nodeCount := rfl
  obtain ⟨-, -, f3, f4⟩ := removeDuplicate_fold junk (qsortNodes q comp_sort_id nc).nodes
    nc.nodeCount (nc.nodeCount - 1) (by omega) (by omega)
  obtain ⟨p1, p2⟩ := removeDuplicate_fold_pred junk (fun n => P n.timeStamp)
    (fun _ _ hn => hn) (qsortNodes q comp_sort_id nc).nodes
    nc.nodeCount (nc.nodeCount - 1) (by omega) (by omega)
    (by
      intro j m hj hm
      have : m ∈ live (qsortNodes q comp_sort_id nc) :=
        (mem_live_iff _ m).2 ⟨j, hj, hm⟩
      rw [mem_live_qsortNodes] at this
      exact hs m this)
  simp only [NodeCollection_removeDuplicateNodes, NodeCollection_sortByNodeID, hcnt]
  generalize (List.range (nc.nodeCount - 1)).foldl (removeDuplicateStep junk)
    ((qsortNodes q comp_sort_id nc).nodes, (nc.nodeCount : Int)) = st at *
  have hc : (st.2 % 65536).toNat ≤ nc.nodeCount := by omega
  intro n hn
  have hn2 := mem_live_of_le (qsortNodes q comp_sort_id
    { qsortNodes q comp_sort_id nc with nodes := st.1 }) _ hc n hn
  rw [mem_live_qsortNodes, mem_live_iff] at hn2
  obtain ⟨j, hj, hjm⟩ := hn2
  exact p2 j n hj hjm

theorem updateRandomNodes_stamps (q : Qsort) (cfg : Config) (junk : Node)
    (nc rn : NodeCollection) (h : rn.WF) (hnc : nc.nodeCount ≤ nc.nodes.length)
    (P : Nat → Prop) (h1 : Stamps P rn) (h2 : Stamps P nc) :
    Stamps P (Protocol_updateRandomNodes q cfg junk nc rn) := by
  have a1 := append_WF junk rn nc cfg.CLIENT_id h
  have a3 : Stamps P (NodeCollection_append junk rn nc cfg.CLIENT_id) := by
    intro n hn
    rcases append_mem junk rn nc cfg.CLIENT_id h hnc n hn with hm | hm
    · exact h1 n hm
    · exact h2 n hm
  have d3 := removeDuplicateNodes_stamps q junk _ a1 P a3
  obtain ⟨d1, -, -, -⟩ := removeDuplicateNodes_keeps q junk _ a1
  have s1 := qsortNodes_WF q comp_sort_timestamp_h2l _ d1
  obtain ⟨-, -, -, e4⟩ := removeExcessNodes_keeps junk _
    ((NodeCollection_sortByTimeStamp q (NodeCollection_removeDuplicateNodes q junk
      (NodeCollection_append junk rn nc cfg.CLIENT_id))).maxNodeCount / 2) s1
  intro n hn
  have hm := e4 n hn
  unfold NodeCollection_sortByTimeStamp at hm
  rw [mem_live_qsortNodes] at hm
  exact d3 n hm

theorem calculateUtility_stamps (geo : Dbl → Dbl → Dbl → Dbl → Dbl) (junk : Node)
    (nc : NodeCollection) (n : Node) (hlen : nc.nodeCount ≤ nc.nodes.length)
    (P : Nat → Prop) (h : Stamps P nc) :
    Stamps P (NodeCollection_calculateUtility geo junk nc n) := by
  intro m hm
  rw [calculateUtility_live geo junk nc n hlen, List.mem_map] at hm
  obtain ⟨m0, hm0, rfl⟩ := hm
  exact h m0 hm0

theorem updateImportantNodes_stamps (q : Qsort) (geo : Dbl → Dbl → Dbl → Dbl → Dbl)
    (cfg : Config) (junk : Node) (now : Nat) (nc inl : NodeCollection) (h : inl.WF)
    (hK : cfg.PROTO_K < 65536) (hnc : nc.nodeCount ≤ nc.nodes.length)
    (P : Nat → Prop) (h1 : Stamps P inl) (h2 : Stamps P nc) :
    Stamps P (Protocol_updateImportantNodes q geo cfg junk now nc inl).1 ∧
    Stamps P (Protocol_updateImportantNodes q geo cfg junk now nc inl).2 := by
  have c1 := calculateUtility_stamps geo junk nc
    (Node_new cfg.CLIENT_id cfg.CLIENT_lat cfg.CLIENT_lon cfg.CLIENT_coordRange 0 0 0 0 now)
    hnc P h2
  refine ⟨c1, ?_⟩
  have hB : Stamps P (updateImportantNodes_sorted q geo cfg junk now nc inl) := by
    unfold updateImportantNodes_sorted
    have c2 := calculateUtility_keeps geo junk nc
      (Node_new cfg.CLIENT_id cfg.CLIENT_lat cfg.CLIENT_lon cfg.CLIENT_coordRange 0 0 0 0 now)
    generalize NodeCollection_calculateUtility geo junk nc
      (Node_new cfg.CLIENT_id cfg.CLIENT_lat cfg.CLIENT_lon cfg.CLIENT_coordRange 0 0 0 0 now)
      = nc' at *
    have a1 := append_WF junk inl nc' cfg.CLIENT_id h
    have a3 : Stamps P (NodeCollection_append junk inl nc' cfg.CLIENT_id) := by
      intro n hn
      rcases append_mem junk inl nc' cfg.CLIENT_id h (by omega) n hn with hm | hm
      · exact h1 n hm
      · exact c1 n hm
    have d3 := removeDuplicateNodes_stamps q junk _ a1 P a3
    intro n hn
    unfold NodeCollection_sortByUtility at hn
    rw [mem_live_qsortNodes] at hn
    exact d3 n hn
  obtain ⟨b1, -, -⟩ := updateImportantNodes_sorted_spec q geo cfg junk now nc inl h
  rw [updateImportantNodes_unfold q geo cfg junk now nc inl _ _ rfl rfl]
  generalize updateImportantNodes_sorted q geo cfg junk now nc inl = B at *
  have hG : ∀ G : NodeCollection,
      G = (if NodeCollection_countCandidateNodes junk B >
          (B.maxNodeCount : Int) - (cfg.PROTO_K : Int)
        then NodeCollection_grow junk B cfg.PROTO_K else B) →
      G.WF ∧ live G = live B := by
    intro G hGe
    obtain ⟨g1, -, -, -, g5⟩ := grow_keeps junk B cfg.PROTO_K b1 hK
    by_cases hc : NodeCollection_countCandidateNodes junk B >
        (B.maxNodeCount : Int) - (cfg.PROTO_K : Int)
    · rw [if_pos hc] at hGe
      subst hGe
      exact ⟨g1, g5⟩
    · rw [if_neg hc] at hGe
      subst hGe
      exact ⟨b1, rfl⟩
  obtain ⟨G1, G2⟩ := hG _ rfl
  generalize (if NodeCollection_countCandidateNodes junk B >
      (B.maxNodeCount : Int) - (cfg.PROTO_K : Int)
    then NodeCollection_grow junk B cfg.PROTO_K else B) = G at *
  obtain ⟨-, -, -, e4⟩ := removeExcessNodes_keeps junk G
    (((G.maxNodeCount : Int) - (cfg.PROTO_K : Int)) % 2 ^ 32).toNat G1
  intro n hn
  by_cases hc : (G.nodeCount : Int) > (G.maxNodeCount : Int) - (cfg.PROTO_K : Int)
  · rw [if_pos hc] at hn
    have := e4 n hn
    rw [G2] at this
    exact hB n this
  · rw [if_neg hc] at hn
    rw [G2] at hn
    exact hB n hn

theorem receiveFromPeer_stamps (enc754 : Dbl → Nat) (dec754 : Nat → Dbl) (q : Qsort)
    (geo : Dbl → Dbl → Dbl → Dbl → Dbl) (cfg : Config) (junk : Node) (now : Nat)
    (buffer : Nat → Nat) (payloadSize : Int) (s : State) (hK : cfg.PROTO_K < 65536)
    (h1 : s.randomNodes.WF) (h2 : s.importantNodes.WF) (P : Nat → Prop)
    (hr : Stamps P s.randomNodes) (hi : Stamps P s.importantNodes)
    (hp : ∀ u, NodeCollection_unpack dec754 junk buffer payloadSize = some u →
      Stamps P u.nc) :
    Stamps P (Protocol_receiveFromPeer enc754 dec754 q geo cfg junk now buffer payloadSize
      s).1.randomNodes ∧
    Stamps P (Protocol_receiveFromPeer enc754 dec754 q geo cfg junk now buffer payloadSize
      s).1.importantNodes := by
  unfold Protocol_receiveFromPeer
  cases hu : NodeCollection_unpack dec754 junk buffer payloadSize with
  | none =>
    simp only [Option.map_none', NodeCollection_isValid]
    exact ⟨hr, hi⟩
  | some r =>
    have hpr := hp r hu
    obtain ⟨-, -, -, ul, -, -⟩ := unpack_some dec754 junk buffer payloadSize r hu
    have hlen : r.nc.nodeCount ≤ r.nc.nodes.length := by omega
    have R1 := updateRandomNodes_stamps q cfg junk r.nc s.randomNodes h1 hlen P hr hpr
    obtain ⟨R2, -, -⟩ := updateRandomNodes_keeps q cfg junk r.nc s.randomNodes h1
    have I1 := updateImportantNodes_stamps q geo cfg junk now
      (Protocol_updateRandomNodes q cfg junk r.nc s.randomNodes) s.importantNodes h2 hK
      (by have := R2.1; have := R2.2.1; omega) P hi R1
    have I2 := updateImportantNodes_stamps q geo cfg junk now r.nc s.importantNodes h2 hK
      hlen P hi hpr
    simp only [Option.map_some', isValid_some, if_true]
    split_ifs
    · exact I1
    · exact I1
    · exact ⟨hr, I2.2⟩
    · exact ⟨hr, I2.2⟩
    · exact ⟨hr, hi⟩

/-- C32 (counterexample). The example state, whose only entry is stamped 1000, receives at
time 3000 a node stamped 9999; afterwards both lists hold an entry stamped 9999. -/
theorem C32_future_stamp_counterexample :
    (live (Protocol_receiveFromPeer exEnv.enc754 exEnv.dec754 exEnv.q exEnv.geo exConfig
      exEnv.junk 3000 exLateBuffer 43 exState).1.randomNodes).map (fun n => n.timeStamp)
      = [9999, 1000] ∧
    (live (Protocol_receiveFromPeer exEnv.enc754 exEnv.dec754 exEnv.q exEnv.geo exConfig
      exEnv.junk 3000 exLateBuffer 43 exState).1.importantNodes).map (fun n => n.timeStamp)
      = [9999, 1000] ∧
    ¬ (∀ n ∈ live (Protocol_receiveFromPeer exEnv.enc754 exEnv.dec754 exEnv.q exEnv.geo
      exConfig exEnv.junk 3000 exLateBuffer 43 exState).1.randomNodes, n.timeStamp ≤ 3000) := by
  decide!

/-- C32 (amended). The timeStamps of received entries are the ones read from the datagram.
For every bound t (in particular the time of reception): if every timeStamp among the first
nodeCount entries of RandomList, of ImportantList and of the unpacked payload is at most t,
then after `Protocol_receiveFromPeer` every timeStamp among the first nodeCount entries of
RandomList and ImportantList is at most t. -/
theorem C32_stamps_from_the_wire (enc754 : Dbl → Nat) (dec754 : Nat → Dbl) (q : Qsort)
    (geo : Dbl → Dbl → Dbl → Dbl → Dbl) (cfg : Config) (junk : Node) (now t : Nat)
    (buffer : Nat → Nat) (payloadSize : Int) (s : State) (hK : cfg.PROTO_K < 65536)
    (h1 : s.randomNodes.WF) (h2 : s.importantNodes.WF)
    (hr : ∀ n ∈ live s.randomNodes, n.timeStamp ≤ t)
    (hi : ∀ n ∈ live s.importantNodes, n.timeStamp ≤ t)
    (hp : ∀ u, NodeCollection_unpack dec754 junk buffer payloadSize = some u →
      ∀ n ∈ live u.nc, n.timeStamp ≤ t) :
    (∀ n ∈ live (Protocol_receiveFromPeer enc754 dec754 q geo cfg junk now buffer payloadSize
      s).1.randomNodes, n.timeStamp ≤ t) ∧
    (∀ n ∈ live (Protocol_receiveFromPeer enc754 dec754 q geo cfg junk now buffer payloadSize
      s).1.importantNodes, n.timeStamp ≤ t) :=
  receiveFromPeer_stamps enc754 dec754 q geo cfg junk now buffer payloadSize s hK h1 h2
    (fun x => x ≤ t) hr hi hp

/-- C32 (witness). The example state receives at time 3000 the example peer, stamped 2000: every entry is
stamped at or before 3000 afterwards. -/
theorem C32_stamps_from_the_wire_witness :
    (∀ n ∈ live (Protocol_receiveFromPeer exEnv.enc754 exEnv.dec754 exEnv.q exEnv.geo
      exConfig exEnv.junk 3000 exBuffer 43 exState).1.randomNodes, n.timeStamp ≤ 3000) ∧
    (∀ n ∈ live (Protocol_receiveFromPeer exEnv.enc754 exEnv.dec754 exEnv.q exEnv.geo
      exConfig exEnv.junk 3000 exBuffer 43 exState).1.importantNodes, n.timeStamp ≤ 3000) :=
  C32_stamps_from_the_wire exEnv.enc754 exEnv.dec754 exEnv.q exEnv.geo exConfig exEnv.junk
    3000 3000 exBuffer 43 exState (by decide) (by decide) (by decide) (by decide) (by decide)
    (by
      intro u hu
      have hd : NodeCollection_unpack exEnv.dec754 exEnv.junk exBuffer 43
          = some { nc := exPayload 1 [exPeer], num := 1, o := 43 } := by decide
      rw [hd] at hu
      cases hu
      decide)

end P2PDPRD
